import Mathlib

/-!
# c920capture: a shallow embedding of the V4L2 capture engine

The engine of `c920capture.h` talks to the kernel through `stat`, `open`,
`ioctl`, `mmap`, `munmap`, `select` and `close`.  The embedding makes that
boundary explicit:

* every call that leaves the process is a `Call`; the environment (kernel,
  driver, allocator) answers it with a `Reply`, chosen by a `Driver` that sees
  the whole history of earlier calls, so a `Driver` is an arbitrary
  deterministic behaviour of the outside world;
* the history (`Sys.trace`) is part of the state, together with `errno`, the
  fields of the `c920_device_t` object and the state of the frame sink;
* a C++ member function is a `Prog`: a state transformer that ends normally
  with a value, or with a `Fault` (a thrown `c920_exception_t`, a failed
  `assert`, a null dereference, `exit`, or a retry loop that never ends).

Diagnostic output (`DEBUG`, `fprintf(stderr, ...)`, `syslog`) is not modelled.
-/

namespace C920

set_option linter.unusedTactic false
set_option linter.unreachableTactic false
set_option linter.unusedVariables false

/-! ## Constants of the system headers -/

/-- Value of `EINTR` in `errno.h`. -/
def EINTR : Int := 4
/-- Value of `EAGAIN` in `errno.h`. -/
def EAGAIN : Int := 11
/-- Value of `EINVAL` in `errno.h`. -/
def EINVAL : Int := 22

/-- Capability bit `V4L2_CAP_VIDEO_CAPTURE` of `linux/videodev2.h`. -/
def V4L2_CAP_VIDEO_CAPTURE : Nat := 0x00000001
/-- Capability bit `V4L2_CAP_STREAMING` of `linux/videodev2.h`. -/
def V4L2_CAP_STREAMING : Nat := 0x04000000
/-- Buffer type `V4L2_BUF_TYPE_VIDEO_CAPTURE`. -/
def V4L2_BUF_TYPE_VIDEO_CAPTURE : Nat := 1
/-- Memory kind `V4L2_MEMORY_MMAP`. -/
def V4L2_MEMORY_MMAP : Nat := 1
/-- Field order `V4L2_FIELD_INTERLACED`. -/
def V4L2_FIELD_INTERLACED : Nat := 4

/-- The macro `v4l2_fourcc(a, b, c, d)`. -/
def v4l2_fourcc (a b c d : Nat) : Nat :=
  a ||| (b <<< 8) ||| (c <<< 16) ||| (d <<< 24)

/-- The wire code `v4l2_fourcc('H', '2', '6', '4')`. -/
def V4L2_PIX_FMT_H264 : Nat := v4l2_fourcc 72 50 54 52
/-- The wire code `v4l2_fourcc('M', 'J', 'P', 'G')`. -/
def V4L2_PIX_FMT_MJPEG : Nat := v4l2_fourcc 77 74 80 71
/-- The wire code `v4l2_fourcc('Y', 'U', 'Y', 'V')`. -/
def V4L2_PIX_FMT_YUYV : Nat := v4l2_fourcc 89 85 89 86

/-- Request code `UVC_GET_CUR` of `linux/usb/video.h`. -/
def UVC_GET_CUR : Nat := 0x81
/-- Request code `UVC_SET_CUR` of `linux/usb/video.h`. -/
def UVC_SET_CUR : Nat := 0x01

/-- Modelled from the spec: the selector constant `UVCX_BITRATE_LAYERS` comes
from `uvch264.h`, which is not among the sources; the spec only calls it the
selector constant of the vendor control, the value is the one of the UVC H.264
extension. -/
def UVCX_BITRATE_LAYERS : Nat := 0x0E

/-- The pointer `MAP_FAILED`, that is `(void*) -1`. -/
def MAP_FAILED : Int := -1

/-- Truncation to an unsigned 32-bit field (`__u32`). -/
def u32 (n : Nat) : Nat := n % 2 ^ 32

/-- Conversion of an `int` to an unsigned 32-bit field. -/
def u32OfInt (i : Int) : Nat := (i % 2 ^ 32).toNat

/-- Conversion of an `int` to `size_t` (64 bits). -/
def sizeOfInt (i : Int) : Nat := (i % 2 ^ 64).toNat

/-- Wrap-around of a signed 64-bit `long`. -/
def wrapLong (i : Int) : Int := (i + 2 ^ 63) % 2 ^ 64 - 2 ^ 63

/-- The test `S_ISCHR(m)`: `(m & S_IFMT) == S_IFCHR`. -/
def S_ISCHR (m : Nat) : Bool := (m &&& 0o170000) == 0o020000

/-- Format type `YUYV`. -/
def YUYV : Int := 0
/-- Format type `MJPEG`. -/
def MJPEG : Int := 1
/-- Format type `H264`. -/
def H264 : Int := 2

/-! ## The boundary with the kernel -/

/-- The ioctl requests the engine issues. -/
inductive Request
  | VIDIOC_QUERYCAP
  | VIDIOC_CROPCAP
  | VIDIOC_S_CROP
  | VIDIOC_S_FMT
  | VIDIOC_G_PARM
  | VIDIOC_S_PARM
  | VIDIOC_REQBUFS
  | VIDIOC_QUERYBUF
  | VIDIOC_QBUF
  | VIDIOC_DQBUF
  | VIDIOC_STREAMON
  | VIDIOC_STREAMOFF
  | UVCIOC_CTRL_QUERY
  deriving DecidableEq, Repr

/-- The argument block of an ioctl: the fields of the V4L2 and UVC structures
that the engine writes before a request or reads after it.  A block starts
zeroed, as after `memset`. -/
structure Arg where
  type : Nat := 0
  memory : Nat := 0
  index : Nat := 0
  count : Nat := 0
  length : Nat := 0
  offset : Nat := 0
  bytesused : Nat := 0
  capabilities : Nat := 0
  defrect : Nat := 0
  c : Nat := 0
  width : Nat := 0
  height : Nat := 0
  pixelformat : Nat := 0
  field : Nat := 0
  numerator : Nat := 0
  denominator : Nat := 0
  unit : Nat := 0
  size : Nat := 0
  selector : Nat := 0
  query : Nat := 0
  wLayerID : Nat := 0
  dwPeakBitrate : Nat := 0
  dwAverageBitrate : Nat := 0
  deriving DecidableEq, Repr

/-- A call that leaves the process.  `callback` is the call of the frame sink;
it is answered by the sink itself and recorded in the history like the rest. -/
inductive Call
  | stat (path : String)
  | open_ (path : String)
  | ioctl (fd : Int) (request : Request) (arg : Arg)
  | mmap (length : Nat) (fd : Int) (offset : Nat)
  | munmap (addr : Int) (length : Nat)
  | close (fd : Int)
  | select (nfds : Int) (fd : Int) (tv_sec : Nat)
  | calloc (nmemb : Nat)
  | malloc (size : Nat)
  | fopen (path : String)
  | fclose (stream : Int)
  | callback (data : Int) (length : Nat)
  deriving DecidableEq, Repr

/-- The answer to a call: the return value (for `mmap`, `calloc`, `malloc` and
`fopen` the pointer), the `errno` it sets when it fails, the mode `stat` found,
and the argument block as the kernel leaves it. -/
structure Reply where
  ret : Int := 0
  err : Int := 0
  st_mode : Nat := 0
  arg : Arg := {}
  deriving DecidableEq, Repr

/-- One entry of the history: a call and the answer it got. -/
structure Event where
  call : Call
  reply : Reply
  deriving DecidableEq, Repr

/-- A behaviour of the outside world: the answer to a call, given every call
and answer before it. -/
abbrev Driver := List Event → Call → Reply

/-! ## Exceptions and outcomes -/

/-- The places where the engine throws, one per `throw c920_exception_t(...)`. -/
inductive Throw
  | unable_to_identify
  | not_a_device
  | cannot_open
  | not_valid_v4l2
  | error_querycap
  | not_capture
  | not_streaming
  | invalid_format
  | error_s_fmt
  | unable_get_parm
  | unable_set_parm
  | no_mmap
  | error_reqbufs
  | insufficient_memory
  | out_of_memory
  | error_querybuf
  | mmap_failed
  | error_qbuf
  | error_dqbuf
  | error_streamon
  | error_streamoff
  | could_not_select
  | timeout
  | unable_unmap
  | unable_close
  deriving DecidableEq, Repr

/-- The format string of each exception. -/
def Throw.message : Throw → String
  | .unable_to_identify => "unable to identify device %s"
  | .not_a_device => "%s is not a device"
  | .cannot_open => "cannot open device %s"
  | .not_valid_v4l2 => "%s is not a valid V4L2 device"
  | .error_querycap => "error in ioctl VIDIOC_QUERYCAP"
  | .not_capture => "%s is not a capture device"
  | .not_streaming => "%s is not a streaming device"
  | .invalid_format => "invalid format specified"
  | .error_s_fmt => "error in ioctl VIDIOC_S_FMT"
  | .unable_get_parm => "unable to get stream parameters for %s"
  | .unable_set_parm => "unable to set stream parameters for %s"
  | .no_mmap => "%s does not support MMAP"
  | .error_reqbufs => "error in ioctl VIDIOC_REQBUFS"
  | .insufficient_memory => "insufficient memory on device %s"
  | .out_of_memory => "out of memory"
  | .error_querybuf => "error in ioctl VIDIOC_QUERYBUF"
  | .mmap_failed => "mmap failed"
  | .error_qbuf => "error in ioctl VIDIOC_QBUF"
  | .error_dqbuf => "error in ioctl VIDIOC_DQBUF"
  | .error_streamon => "error in ioctl VIDIOC_STREAMON"
  | .error_streamoff => "error in ioctl VIDIOC_STREAMOFF"
  | .could_not_select => "Could not select device %s"
  | .timeout => "timeout occurred while selecting device %s"
  | .unable_unmap => "Unable to unmap buffer %d"
  | .unable_close => "Unable to close device %s"

/-- The class `c920_exception_t`: which message, and the `errno` captured by
its constructor. -/
structure c920_exception_t where
  what : Throw
  _errno : Int
  deriving DecidableEq, Repr

/-- The ways a member function ends other than by returning. -/
inductive Fault
  | thrown (e : c920_exception_t)
  | assert_failed
  | null_deref
  | exited
  | hang
  deriving DecidableEq, Repr

/-- How a run ends: with a value, or with a fault. -/
inductive Outcome (α : Type)
  | ok (a : α)
  | fail (f : Fault)
  deriving DecidableEq, Repr

/-! ## Parameters, device object and state -/

/-- The data members of `c920_parameters_t`, that is all but the callback. -/
structure c920_values where
  device_name : String
  directory : String
  width : Nat
  height : Nat
  fps : Nat
  frames : Int
  format : Int
  pipe : Int
  bitrate : Int
  deriving DecidableEq, Repr

/-- The type `c920_buffer_cb`: the frame sink.  It receives the data pointer,
the length and the parameters (their data members), and acts on its own state
of type `σ`. -/
abbrev c920_buffer_cb (σ : Type) := Int → Nat → c920_values → σ → Int × σ

/-- The struct `c920_parameters_t`; `cb` is `none` for a null pointer. -/
structure c920_parameters_t (σ : Type) extends c920_values where
  cb : Option (c920_buffer_cb σ)

/-- The struct `_buffer`. -/
structure _buffer where
  data : Int
  length : Nat
  deriving DecidableEq, Repr

/-- The members of `c920_device_t`.  `_device_name` is `none` for a null
pointer. -/
structure c920_device_t (σ : Type) where
  _playing : Bool
  _device_name : Option String
  _fd : Int
  _num_buffers : Nat
  _buffers : List _buffer
  _c920_parameters : c920_parameters_t σ

/-- The state of a run: the device object, the history of calls, `errno`, and
the state of the frame sink. -/
structure Sys (σ : Type) where
  dev : c920_device_t σ
  trace : List Event
  errno : Int
  sink : σ

/-- A program over the state `Sys σ`. -/
def Prog (σ α : Type) : Type := Sys σ → Outcome α × Sys σ

/-- Return a value. -/
def Prog.pure {σ α : Type} (a : α) : Prog σ α := fun s => (.ok a, s)

/-- Sequencing: a fault ends the run with the state reached. -/
def Prog.bind {σ α β : Type} (m : Prog σ α) (f : α → Prog σ β) : Prog σ β :=
  fun s =>
    match m s with
    | (.ok a, s') => f a s'
    | (.fail e, s') => (.fail e, s')

instance {σ : Type} : Monad (Prog σ) where
  pure := Prog.pure
  bind := Prog.bind

/-- End the run with a fault. -/
def failWith {σ α : Type} (f : Fault) : Prog σ α := fun s => (.fail f, s)

/-- The statement `throw c920_exception_t(...)`: the exception captures the
current `errno`. -/
def throwEx {σ α : Type} (t : Throw) : Prog σ α :=
  fun s => (.fail (.thrown ⟨t, s.errno⟩), s)

/-- Read the state. -/
def getSys {σ : Type} : Prog σ (Sys σ) := fun s => (.ok s, s)

/-- Read the device object. -/
def getDev {σ : Type} : Prog σ (c920_device_t σ) := fun s => (.ok s.dev, s)

/-- Update the device object. -/
def modifyDev {σ : Type} (f : c920_device_t σ → c920_device_t σ) : Prog σ Unit :=
  fun s => (.ok (), { s with dev := f s.dev })

/-- A call to the outside world: the driver answers from the history, the call
and the answer are appended to the history, and a failing call (`-1`) sets
`errno`. -/
def syscall {σ : Type} (drv : Driver) (c : Call) : Prog σ Reply :=
  fun s =>
    let r := drv s.trace c
    (.ok r, { s with trace := s.trace ++ [⟨c, r⟩],
                     errno := if r.ret = -1 then r.err else s.errno })

/-- The function `ioctl_ex`: repeat the ioctl while it fails with `EINTR`.
`fuel` bounds the number of attempts; the run hangs when it is used up.  The
kernel copies the argument block back only when the request succeeds. -/
def ioctl_ex {σ : Type} (drv : Driver) :
    Nat → Int → Request → Arg → Prog σ (Int × Arg)
  | 0, _, _, _ => failWith .hang
  | fuel + 1, fh, request, arg => do
    let r ← syscall drv (.ioctl fh request arg)
    let s ← getSys
    if r.ret = -1 ∧ EINTR = s.errno then
      ioctl_ex drv fuel fh request arg
    else
      pure (r.ret, if r.ret = -1 then arg else r.arg)

/-- The statement `if (c) throw c920_exception_t(...)`. -/
def throwIf {σ : Type} (c : Prop) [Decidable c] (t : Throw) : Prog σ Unit :=
  if c then throwEx t else pure ()

/-- A counting loop `for (size_t i = start; i < start + n; i++) body(i)`. -/
def forRange {σ : Type} (body : Nat → Prog σ Unit) : Nat → Nat → Prog σ Unit
  | _, 0 => pure ()
  | i, n + 1 => do
    body i
    forRange body (i + 1) n

/-! ## The constructor -/

/-- The body of the mapping loop of the constructor for the current value of
`_num_buffers`: `VIDIOC_QUERYBUF`, then `mmap` of the length and offset the
driver reported, stored in `_buffers[_num_buffers]`. -/
def mapBuffer {σ : Type} (drv : Driver) (fuel : Nat) : Prog σ Unit := do
  let d ← getDev
  let buf ← ioctl_ex drv fuel d._fd .VIDIOC_QUERYBUF
    { type := V4L2_BUF_TYPE_VIDEO_CAPTURE, memory := V4L2_MEMORY_MMAP,
      index := u32 d._num_buffers }
  throwIf (buf.1 = -1) .error_querybuf
  let m ← syscall drv (.mmap (u32 buf.2.length) d._fd (u32 buf.2.offset))
  modifyDev fun d =>
    { d with _buffers := d._buffers.set d._num_buffers ⟨m.ret, u32 buf.2.length⟩ }
  throwIf (m.ret = MAP_FAILED) .mmap_failed

/-- The mapping loop `for (_num_buffers = 0; _num_buffers < req.count;
_num_buffers++)`, entered after `_num_buffers = 0`.  The last argument is the
number of passes left; the loop is entered with `count` of them, which is how
many times the test can hold. -/
def mapBuffers {σ : Type} (drv : Driver) (fuel : Nat) (count : Nat) :
    Nat → Prog σ Unit
  | 0 => pure ()
  | n + 1 => do
    let d ← getDev
    if d._num_buffers < count then do
      mapBuffer drv fuel
      modifyDev fun d => { d with _num_buffers := d._num_buffers + 1 }
      mapBuffers drv fuel count n
    else
      pure ()

/-- The body of the queueing loops: `VIDIOC_QBUF` of buffer `i`. -/
def queueBuffer {σ : Type} (drv : Driver) (fuel : Nat) (i : Nat) : Prog σ Unit := do
  let d ← getDev
  let r ← ioctl_ex drv fuel d._fd .VIDIOC_QBUF
    { type := V4L2_BUF_TYPE_VIDEO_CAPTURE, memory := V4L2_MEMORY_MMAP, index := u32 i }
  throwIf (r.1 = -1) .error_qbuf

/-- The queueing loop `for (size_t i=0; i<_num_buffers; i++)`. -/
def queueBuffers {σ : Type} (drv : Driver) (fuel : Nat) : Prog σ Unit := do
  let d ← getDev
  forRange (queueBuffer drv fuel) 0 d._num_buffers

/-- Constructor, sections "Get file status" and "Check if this is a device". -/
def identifyDevice {σ : Type} (drv : Driver)
    (c920_parameters : c920_parameters_t σ) : Prog σ Unit := do
  let st ← syscall drv (.stat c920_parameters.device_name)
  throwIf (st.ret = -1) .unable_to_identify
  throwIf (¬ S_ISCHR st.st_mode) .not_a_device

/-- Constructor, section "Open device". -/
def openDevice {σ : Type} (drv : Driver)
    (c920_parameters : c920_parameters_t σ) : Prog σ Unit := do
  let o ← syscall drv (.open_ c920_parameters.device_name)
  modifyDev fun d => { d with _fd := o.ret }
  throwIf (o.ret = -1) .cannot_open

/-- Constructor, sections "Check if device is V4L2 capable" and "Check if it is
a streaming capture device". -/
def queryCapabilities {σ : Type} (drv : Driver) (fuel : Nat) : Prog σ Unit := do
  let d ← getDev
  let cap ← ioctl_ex drv fuel d._fd .VIDIOC_QUERYCAP {}
  let s ← getSys
  (if cap.1 = -1 then
    (if s.errno = EINVAL then throwEx .not_valid_v4l2 else throwEx .error_querycap)
   else pure ())
  throwIf (cap.2.capabilities &&& V4L2_CAP_VIDEO_CAPTURE = 0) .not_capture
  throwIf (cap.2.capabilities &&& V4L2_CAP_STREAMING = 0) .not_streaming

/-- Constructor, section "Set crop rectangle": best effort, nothing is thrown. -/
def setCrop {σ : Type} (drv : Driver) (fuel : Nat) : Prog σ Unit := do
  let d ← getDev
  let cropcap ← ioctl_ex drv fuel d._fd .VIDIOC_CROPCAP
    { type := V4L2_BUF_TYPE_VIDEO_CAPTURE }
  if cropcap.1 = 0 then do
    let _ ← ioctl_ex drv fuel d._fd .VIDIOC_S_CROP
      { type := V4L2_BUF_TYPE_VIDEO_CAPTURE, c := cropcap.2.defrect }
    pure ()
  else
    pure ()

/-- Constructor, section "Setting video format". -/
def setFormat {σ : Type} (drv : Driver) (fuel : Nat)
    (c920_parameters : c920_parameters_t σ) : Prog σ Unit := do
  let d ← getDev
  let pixelformat ←
    (if c920_parameters.format = MJPEG then pure V4L2_PIX_FMT_MJPEG
     else if c920_parameters.format = YUYV then pure V4L2_PIX_FMT_YUYV
     else if c920_parameters.format = H264 then pure V4L2_PIX_FMT_H264
     else throwEx .invalid_format)
  let fmt ← ioctl_ex drv fuel d._fd .VIDIOC_S_FMT
    { type := V4L2_BUF_TYPE_VIDEO_CAPTURE, width := u32 c920_parameters.width,
      height := u32 c920_parameters.height, pixelformat := pixelformat,
      field := V4L2_FIELD_INTERLACED }
  throwIf (fmt.1 = -1) .error_s_fmt

/-- Constructor, sections "Get streaming parameters" and "Set frame rate". -/
def setFrameRate {σ : Type} (drv : Driver) (fuel : Nat)
    (c920_parameters : c920_parameters_t σ) : Prog σ Unit := do
  let d ← getDev
  let parm ← ioctl_ex drv fuel d._fd .VIDIOC_G_PARM
    { type := V4L2_BUF_TYPE_VIDEO_CAPTURE }
  throwIf (parm.1 = -1) .unable_get_parm
  let parm ← ioctl_ex drv fuel d._fd .VIDIOC_S_PARM
    { parm.2 with numerator := 1, denominator := u32 c920_parameters.fps }
  throwIf (parm.1 = -1) .unable_set_parm

/-- Constructor, section "Initialize MMAP": the result is `req.count` as the
driver left it. -/
def requestBuffers {σ : Type} (drv : Driver) (fuel : Nat) : Prog σ Nat := do
  let d ← getDev
  let req ← ioctl_ex drv fuel d._fd .VIDIOC_REQBUFS
    { count := 4, type := V4L2_BUF_TYPE_VIDEO_CAPTURE, memory := V4L2_MEMORY_MMAP }
  let s ← getSys
  (if req.1 = -1 then
    (if s.errno = EINVAL then throwEx .no_mmap else throwEx .error_reqbufs)
   else pure ())
  let count := u32 req.2.count
  throwIf (count < 2) .insufficient_memory
  pure count

/-- Constructor, section "Allocate buffers to map": `calloc`, then the mapping
loop. -/
def allocateBuffers {σ : Type} (drv : Driver) (fuel : Nat) (count : Nat) :
    Prog σ Unit := do
  let mem ← syscall drv (.calloc count)
  modifyDev fun d => { d with _buffers := List.replicate count ⟨0, 0⟩ }
  throwIf (mem.ret = 0) .out_of_memory
  modifyDev fun d => { d with _num_buffers := 0 }
  mapBuffers drv fuel count count

/-- Constructor, section "Copy the device name": `malloc` and `strcpy`, which
writes through the pointer without a null test. -/
def copyDeviceName {σ : Type} (drv : Driver)
    (c920_parameters : c920_parameters_t σ) : Prog σ Unit := do
  let name ← syscall drv (.malloc (c920_parameters.device_name.utf8ByteSize + 1))
  (if name.ret = 0 then failWith .null_deref else pure ())
  modifyDev fun d => { d with _device_name := some c920_parameters.device_name }

/-- The constructor `c920_device_t::c920_device_t(c920_parameters_t)`, section
by section.  It runs on the freshly allocated object, whose members hold
whatever the state has in `dev`. -/
def c920_device_t.new {σ : Type} (drv : Driver) (fuel : Nat)
    (c920_parameters : c920_parameters_t σ) : Prog σ Unit := do
  modifyDev fun d =>
    { d with _device_name := none, _playing := false,
             _c920_parameters := c920_parameters }
  identifyDevice drv c920_parameters
  openDevice drv c920_parameters
  queryCapabilities drv fuel
  setCrop drv fuel
  setFormat drv fuel c920_parameters
  setFrameRate drv fuel c920_parameters
  let count ← requestBuffers drv fuel
  allocateBuffers drv fuel count
  queueBuffers drv fuel
  copyDeviceName drv c920_parameters

/-! ## Bitrate, start, stop, process, destructor -/

/-- The first control query of `set_bitrate`: read the current bitrates. -/
def bitrateGet : Arg :=
  { unit := 12, size := 10, selector := UVCX_BITRATE_LAYERS, query := UVC_GET_CUR,
    wLayerID := 0, dwPeakBitrate := 0, dwAverageBitrate := 0 }

/-- The second control query of `set_bitrate(bmin)`, from the block `conf` the
first one left: write `bmin` to both fields. -/
def bitrateSet (conf : Arg) (bmin : Int) : Arg :=
  { conf with dwPeakBitrate := u32OfInt bmin, dwAverageBitrate := u32OfInt bmin,
              query := UVC_SET_CUR }

/-- The third control query of `set_bitrate`, from the block `conf` the second
one left: read the bitrates back. -/
def bitrateCheck (conf : Arg) : Arg := { conf with query := UVC_GET_CUR }

/-- The member function `set_bitrate(int bmin)`; `bmax` is `bmin`. -/
def set_bitrate {σ : Type} (drv : Driver) (fuel : Nat) (bmin : Int) : Prog σ Unit := do
  let d ← getDev
  let res ← ioctl_ex drv fuel d._fd .UVCIOC_CTRL_QUERY bitrateGet
  if res.1 ≠ 0 then pure () else do
    let res ← ioctl_ex drv fuel d._fd .UVCIOC_CTRL_QUERY (bitrateSet res.2 bmin)
    if res.1 ≠ 0 then pure () else do
      let _ ← ioctl_ex drv fuel d._fd .UVCIOC_CTRL_QUERY (bitrateCheck res.2)
      pure ()

/-- The member function `stop()`. -/
def stop {σ : Type} (drv : Driver) (fuel : Nat) : Prog σ Unit := do
  let d ← getDev
  if ¬ d._playing then pure () else do
    modifyDev fun d => { d with _playing := false }
    let r ← ioctl_ex drv fuel d._fd .VIDIOC_STREAMOFF { type := V4L2_BUF_TYPE_VIDEO_CAPTURE }
    throwIf (r.1 = -1) .error_streamoff
    -- Queue buffers if camera is stopped
    queueBuffers drv fuel

/-- The member function `start()`. -/
def start {σ : Type} (drv : Driver) (fuel : Nat) : Prog σ Unit := do
  let d ← getDev
  if d._playing then pure () else do
    modifyDev fun d => { d with _playing := true }
    let r ← ioctl_ex drv fuel d._fd .VIDIOC_STREAMON { type := V4L2_BUF_TYPE_VIDEO_CAPTURE }
    throwIf (r.1 = -1) .error_streamon
    set_bitrate drv fuel d._c920_parameters.bitrate

/-- The call `_c920_parameters.cb(data, length, _c920_parameters)`: the sink
runs on its state and the call is recorded with its return value. -/
def callSink {σ : Type} (f : c920_buffer_cb σ) (data : Int) (length : Nat)
    (p : c920_values) : Prog σ Int :=
  fun s =>
    let r := f data length p s.sink
    (.ok r.1, { s with sink := r.2,
                       trace := s.trace ++ [⟨.callback data length, { ret := r.1 }⟩] })

/-- The statements `int r = 0; if (_c920_parameters.cb) r =
_c920_parameters.cb(_buffers[buffer.index].data, buffer.bytesused,
_c920_parameters);` of `process()`, on the device `d` and the dequeued block
`buffer`: the value of `r`. -/
def invokeSink {σ : Type} (d : c920_device_t σ) (buffer : Arg) : Prog σ Int :=
  match d._c920_parameters.cb with
  | some cb =>
    callSink cb (d._buffers.getD (u32 buffer.index) ⟨0, 0⟩).data
      (u32 buffer.bytesused) d._c920_parameters.toc920_values
  | none => pure 0

/-- The member function `process()`. -/
def process {σ : Type} (drv : Driver) (fuel : Nat) : Prog σ Int := do
  let d ← getDev
  -- Select the device
  let sel ← syscall drv (.select (d._fd + 1) d._fd 2)
  let s ← getSys
  if sel.ret = -1 then
    (if s.errno = EINTR then pure 1 else throwEx .could_not_select)
  else if sel.ret = 0 then
    throwEx .timeout
  else do
    -- Dequeue a buffer
    let dq ← ioctl_ex drv fuel d._fd .VIDIOC_DQBUF
      { type := V4L2_BUF_TYPE_VIDEO_CAPTURE, memory := V4L2_MEMORY_MMAP }
    let s ← getSys
    if dq.1 = -1 then
      (if s.errno = EAGAIN then pure 1 else throwEx .error_dqbuf)
    else do
      let buffer := dq.2
      (if u32 buffer.index < d._num_buffers then pure () else failWith .assert_failed)
      let r ← invokeSink d buffer
      -- Queue the buffer again
      let q ← ioctl_ex drv fuel d._fd .VIDIOC_QBUF buffer
      throwIf (q.1 = -1) .error_qbuf
      pure r

/-- The body of the unmapping loop of the destructor. -/
def unmapBuffer {σ : Type} (drv : Driver) (i : Nat) : Prog σ Unit := do
  let d ← getDev
  let b := d._buffers.getD i ⟨0, 0⟩
  let r ← syscall drv (.munmap b.data b.length)
  throwIf (r.ret = -1) .unable_unmap

/-- The destructor `c920_device_t::~c920_device_t()`. -/
def c920_device_t.delete {σ : Type} (drv : Driver) (fuel : Nat) : Prog σ Unit := do
  let d ← getDev
  -- Stop device playback
  (if d._playing then stop drv fuel else pure ())
  -- Destroy all buffers
  let d ← getDev
  forRange (unmapBuffer drv) 0 d._num_buffers
  -- Closing devices
  let r ← syscall drv (.close d._fd)
  throwIf (r.ret = -1) .unable_close
  let _ ← syscall drv (.fclose d._c920_parameters.pipe)
  pure ()

/-! ## The command line, the frame sink and `main` -/

/-- The stream `stdout`, a fixed non-null `FILE*`. -/
def stdout : Int := 1

/-- One pass of the `switch` of `setParametersFromArgs`, for the option
character `c` that `getopt_long` returned and its argument `optarg`.  `atoi`
is the library function. -/
def setParameter {σ : Type} (drv : Driver) (atoi : String → Int)
    (params : c920_parameters_t σ) (c : Char) (optarg : String) :
    Prog σ (c920_parameters_t σ) :=
  if c = 'W' then pure { params with width := sizeOfInt (atoi optarg) }
  else if c = 'H' then pure { params with height := sizeOfInt (atoi optarg) }
  else if c = 'f' then
    let params := if optarg = "YUYV" then { params with format := YUYV } else params
    let params := if optarg = "MJPEG" then { params with format := MJPEG } else params
    let params := if optarg = "H264" then { params with format := H264 } else params
    pure params
  else if c = 'd' then pure { params with device_name := optarg }
  else if c = 'c' then pure { params with frames := atoi optarg }
  else if c = 'p' then pure { params with fps := sizeOfInt (atoi optarg) }
  else if c = 'o' then
    if optarg = "stdout" then pure { params with pipe := stdout }
    else do
      let fp ← syscall drv (.fopen optarg)
      if fp.ret = 0 then failWith .exited
      else pure { params with pipe := fp.ret }
  else if c = 'l' then pure { params with directory := optarg }
  else if c = 'b' then pure { params with bitrate := atoi optarg }
  else pure params

/-- The function `setParametersFromArgs`.  `opts` lists what the successive
calls of `getopt_long` return before `-1`: the option character and `optarg`. -/
def setParametersFromArgs {σ : Type} (drv : Driver) (atoi : String → Int) :
    c920_parameters_t σ → List (Char × String) → Prog σ (c920_parameters_t σ)
  | params, [] => pure params
  | params, (c, optarg) :: opts => do
    let params ← setParameter drv atoi params c optarg
    setParametersFromArgs drv atoi params opts

/-- The state of the sink `process_frame`: its two static counters, and what it
has written, as (stream, data pointer, length). -/
structure Statics where
  bytes : Int
  fcount : Int
  written : List (Int × Int × Nat)
  deriving DecidableEq, Repr

/-- The callback `process_frame` of `capture.cpp`. -/
def process_frame : c920_buffer_cb Statics :=
  fun data length c920_parameters st =>
    let bytes := wrapLong (st.bytes + length)
    let fcount := wrapLong (st.fcount + 1)
    (if fcount < c920_parameters.frames then 1 else 0,
     { bytes := bytes, fcount := fcount,
       written := st.written ++ [(c920_parameters.pipe, data, length)] })

/-- The loop `while(camera->process());`.  The first argument bounds the number
of passes; the run hangs when it is used up. -/
def captureLoop {σ : Type} (drv : Driver) (fuel : Nat) : Nat → Prog σ Unit
  | 0 => failWith .hang
  | n + 1 => do
    let r ← process drv fuel
    if r ≠ 0 then captureLoop drv fuel n else pure ()

/-- The `try` block of `main`.  `params0` is what the uninitialised local
`params` happens to hold. -/
def session (drv : Driver) (fuel loopFuel : Nat) (atoi : String → Int)
    (params0 : c920_values) (opts : List (Char × String)) : Prog Statics Unit := do
  -- Set params
  let params : c920_parameters_t Statics :=
    { toc920_values := params0, cb := some process_frame }
  let params ← setParametersFromArgs drv atoi params opts
  -- Set up camera and start it
  c920_device_t.new drv fuel params
  -- Start, capture and stop
  start drv fuel
  captureLoop drv fuel loopFuel
  stop drv fuel
  -- Delete camera
  c920_device_t.delete drv fuel

/-- The function `main`: a `c920_exception_t` is caught and printed, and `main`
returns 0. -/
def main (drv : Driver) (fuel loopFuel : Nat) (atoi : String → Int)
    (params0 : c920_values) (opts : List (Char × String)) : Prog Statics Int :=
  fun s =>
    match session drv fuel loopFuel atoi params0 opts s with
    | (.ok _, s') => (.ok 0, s')
    | (.fail (.thrown _), s') => (.ok 0, s')
    | (.fail f, s') => (.fail f, s')

/-! ## What the history says about resources -/

/-- Effect of one event on the open handles: a successful `open` adds its
handle, a successful `close` removes it. -/
def stepFds (fds : List Int) (e : Event) : List Int :=
  match e.call with
  | .open_ _ => if e.reply.ret = -1 then fds else fds ++ [e.reply.ret]
  | .close fd => if e.reply.ret = -1 then fds else fds.erase fd
  | _ => fds

/-- The handles that are open after a history. -/
def openFds (tr : List Event) : List Int := tr.foldl stepFds []

/-- Effect of one event on the mappings: a successful `mmap` adds the region
(address, length), a successful `munmap` removes it. -/
def stepMaps (m : List (Int × Nat)) (e : Event) : List (Int × Nat) :=
  match e.call with
  | .mmap length _ _ => if e.reply.ret = MAP_FAILED then m else m ++ [(e.reply.ret, length)]
  | .munmap addr length => if e.reply.ret = -1 then m else m.erase (addr, length)
  | _ => m

/-- The regions that are mapped after a history. -/
def liveMaps (tr : List Event) : List (Int × Nat) := tr.foldl stepMaps []

/-- Effect of one event on the buffers the engine holds: a successful
`VIDIOC_DQBUF` hands the engine the buffer whose index the driver wrote, a
successful `VIDIOC_QBUF` gives the buffer of that index back. -/
def stepClaimed (c : List Nat) (e : Event) : List Nat :=
  match e.call with
  | .ioctl _ .VIDIOC_DQBUF _ => if e.reply.ret = -1 then c else c ++ [u32 e.reply.arg.index]
  | .ioctl _ .VIDIOC_QBUF arg => if e.reply.ret = -1 then c else c.erase (u32 arg.index)
  | _ => c

/-- The buffers claimed by the engine after the events `evs`, when it held the
buffers `c` before. -/
def claimed (c : List Nat) (evs : List Event) : List Nat := evs.foldl stepClaimed c

/-- The index of a successful ioctl of the given request, from the argument
block passed in. -/
def okIndex (request : Request) (e : Event) : Option Nat :=
  match e.call with
  | .ioctl _ r arg => if r = request ∧ e.reply.ret ≠ -1 then some (u32 arg.index) else none
  | _ => none

/-- The indices queued to the driver by the events, in order: one per
successful `VIDIOC_QBUF`. -/
def queuedIndices (evs : List Event) : List Nat := evs.filterMap (okIndex .VIDIOC_QBUF)

/-- The indices whose buffer was queried by the events, in order: one per
successful `VIDIOC_QUERYBUF`. -/
def queriedIndices (evs : List Event) : List Nat := evs.filterMap (okIndex .VIDIOC_QUERYBUF)

/-- The region of a successful `mmap`, as a `_buffer`. -/
def okMap (e : Event) : Option _buffer :=
  match e.call with
  | .mmap length _ _ => if e.reply.ret = MAP_FAILED then none else some ⟨e.reply.ret, length⟩
  | _ => none

/-- The regions mapped by the events, in order. -/
def mappedBuffers (evs : List Event) : List _buffer := evs.filterMap okMap

/-- The return values of the calls of the frame sink among the events. -/
def sinkReturns (evs : List Event) : List Int :=
  evs.filterMap fun e =>
    match e.call with
    | .callback _ _ => some e.reply.ret
    | _ => none

/-- The handles the events open: one per successful `open`. -/
def openedFds (evs : List Event) : List Int :=
  evs.filterMap fun e =>
    match e.call with
    | .open_ _ => if e.reply.ret = -1 then none else some e.reply.ret
    | _ => none

/-- Whether a call is an ioctl of the given request. -/
def Call.isRequest (request : Request) : Call → Bool
  | .ioctl _ r _ => r == request
  | _ => false

/-- Whether a call releases a resource: `close` or `munmap`. -/
def Call.isRelease : Call → Bool
  | .close _ => true
  | .munmap _ _ => true
  | _ => false

/-- Whether a call is the call of the frame sink. -/
def Call.isCallback : Call → Bool
  | .callback _ _ => true
  | _ => false

/-- Whether a call is an ioctl, of any request. -/
def Call.isIoctl : Call → Bool
  | .ioctl _ _ _ => true
  | _ => false

/-- The kinds of calls: the function called and, for an ioctl, the request. -/
inductive Kind
  | stat
  | open_
  | ioctl (request : Request)
  | mmap
  | munmap
  | close
  | select
  | calloc
  | malloc
  | fopen
  | fclose
  | callback
  deriving DecidableEq, Repr

/-- The kind of a call. -/
def Call.kind : Call → Kind
  | .stat _ => .stat
  | .open_ _ => .open_
  | .ioctl _ request _ => .ioctl request
  | .mmap _ _ _ => .mmap
  | .munmap _ _ => .munmap
  | .close _ => .close
  | .select _ _ _ => .select
  | .calloc _ => .calloc
  | .malloc _ => .malloc
  | .fopen _ => .fopen
  | .fclose _ => .fclose
  | .callback _ _ => .callback

/-- The events whose call is of one of the listed kinds. -/
def OfKinds (ks : List Kind) (e : Event) : Prop := e.call.kind ∈ ks

/-- The kinds of the calls the constructor makes. -/
def newKinds : List Kind :=
  [.stat, .open_, .ioctl .VIDIOC_QUERYCAP, .ioctl .VIDIOC_CROPCAP, .ioctl .VIDIOC_S_CROP,
   .ioctl .VIDIOC_S_FMT, .ioctl .VIDIOC_G_PARM, .ioctl .VIDIOC_S_PARM, .ioctl .VIDIOC_REQBUFS,
   .calloc, .ioctl .VIDIOC_QUERYBUF, .mmap, .ioctl .VIDIOC_QBUF, .malloc]

/-! ## Concrete drivers and states, for the examples -/

/-- A driver on which everything succeeds at the first attempt: the path is a
character device opened as handle 3, the device is a streaming capture device
that grants 4 buffers of 4096 bytes, every `select` reports data, and the
`n`-th dequeue hands out buffer `n mod 4` with 100 bytes used. -/
def frameDriver : Driver := fun h c =>
  match c with
  | .stat _ => { st_mode := 0o020000 }
  | .open_ _ => { ret := 3 }
  | .ioctl _ .VIDIOC_QUERYCAP _ => { arg := { capabilities := 0x04000001 } }
  | .ioctl _ .VIDIOC_REQBUFS a => { arg := { a with count := 4 } }
  | .ioctl _ .VIDIOC_QUERYBUF a =>
    { arg := { a with length := 4096, offset := a.index * 4096 } }
  | .ioctl _ .VIDIOC_DQBUF a =>
    { arg := { a with index := (h.filter fun e => e.call.isRequest .VIDIOC_DQBUF).length % 4,
                      bytesused := 100 } }
  | .ioctl _ _ a => { arg := a }
  | .mmap _ _ offset => { ret := 4096 + offset }
  | .select _ _ _ => { ret := 1 }
  | .calloc _ => { ret := 512 }
  | .malloc _ => { ret := 640 }
  | .fopen _ => { ret := 768 }
  | _ => {}

/-- Parameter values for the examples: 1280x720 H.264 at 30 frames per second,
300 frames, 500000 bits per second, written to `stdout`. -/
def exampleValues : c920_values :=
  { device_name := "/dev/video0", directory := "", width := 1280, height := 720,
    fps := 30, frames := 300, format := H264, pipe := stdout, bitrate := 500000 }

/-- The parameters of the examples: `exampleValues` with `process_frame` as the
frame sink. -/
def exampleParams : c920_parameters_t Statics :=
  { toc920_values := exampleValues, cb := some process_frame }

/-- A driver for a character device that is not a V4L2 device: it opens as
handle 3 and every ioctl fails with `EINVAL`. -/
def notV4L2Driver : Driver := fun _ c =>
  match c with
  | .stat _ => { st_mode := 0o020000 }
  | .open_ _ => { ret := 3 }
  | .ioctl _ _ _ => { ret := -1, err := EINVAL }
  | _ => {}

/-- A state before construction: the object memory is zeroed, nothing has been
called, and the sink starts in `sink`. -/
def rawSys {σ : Type} (p : c920_parameters_t σ) (sink : σ) : Sys σ :=
  { dev := { _playing := false, _device_name := none, _fd := 0, _num_buffers := 0,
             _buffers := [], _c920_parameters := p },
    trace := [], errno := 0, sink := sink }

/-- The counters of `process_frame` when the program starts. -/
def Statics.init : Statics := { bytes := 0, fcount := 0, written := [] }

/-- A state with a constructed device that is streaming: handle 3, four mapped
buffers of 4096 bytes, nothing claimed, the sink `process_frame` at its start. -/
def streamingSys : Sys Statics :=
  { dev := { _playing := true, _device_name := some "/dev/video0", _fd := 3,
             _num_buffers := 4,
             _buffers := [⟨4096, 4096⟩, ⟨8192, 4096⟩, ⟨12288, 4096⟩, ⟨16384, 4096⟩],
             _c920_parameters := exampleParams },
    trace := [], errno := 0, sink := Statics.init }

/-- The state `streamingSys` with no frame sink configured. -/
def noSinkSys : Sys Statics :=
  { streamingSys with
    dev := { streamingSys.dev with
             _c920_parameters := { toc920_values := exampleValues, cb := none } } }

/-- A driver that answers 0 to every call: in particular `select` reports that
nothing is ready before the timeout. -/
def idleDriver : Driver := fun _ _ => {}

/-- A driver whose `select` is interrupted by a signal. -/
def interruptDriver : Driver := fun _ c =>
  match c with
  | .select _ _ _ => { ret := -1, err := EINTR }
  | _ => {}

/-- A driver whose `select` reports data while the dequeue says "try again". -/
def againDriver : Driver := fun _ c =>
  match c with
  | .select _ _ _ => { ret := 1 }
  | .ioctl _ .VIDIOC_DQBUF _ => { ret := -1, err := EAGAIN }
  | _ => {}

/-- A driver whose `select` reports data while the dequeue fails with `EINVAL`. -/
def brokenDriver : Driver := fun _ c =>
  match c with
  | .select _ _ _ => { ret := 1 }
  | .ioctl _ .VIDIOC_DQBUF _ => { ret := -1, err := EINVAL }
  | _ => {}

/-- The state `streamingSys` with a frame-count limit of 1: the next call of
`process_frame` returns 0 (stop). -/
def lastFrameSys : Sys Statics :=
  { streamingSys with
    dev := { streamingSys.dev with
             _c920_parameters := { toc920_values := { exampleValues with frames := 1 },
                                   cb := some process_frame } } }

/-- The state `streamingSys` before `start()`: the same device, stopped. -/
def stoppedSys : Sys Statics :=
  { streamingSys with dev := { streamingSys.dev with _playing := false } }

/-! ## Properties of runs, used to state and prove the theorems -/

/-- The state `s'` comes from `s` by appending events that all satisfy `P`,
without changing the part `π` of the device object, nor the sink. -/
def Kept {σ γ : Type} (P : Event → Prop) (π : c920_device_t σ → γ) (s s' : Sys σ) : Prop :=
  (∃ evs, s'.trace = s.trace ++ evs ∧ ∀ e ∈ evs, P e) ∧ π s'.dev = π s.dev ∧ s'.sink = s.sink

/-- Every run of `m` is as `Kept` says, however it ends. -/
def Keeps {σ α γ : Type} (P : Event → Prop) (π : c920_device_t σ → γ) (m : Prog σ α) : Prop :=
  ∀ s, Kept P π s (m s).2

/-- A program that never returns normally. -/
def NeverOk {σ α : Type} (m : Prog σ α) : Prop := ∀ s a, (m s).1 ≠ .ok a

/-- A program that always returns normally. -/
def AlwaysOk {σ α : Type} (m : Prog σ α) : Prop := ∀ s, ∃ a, (m s).1 = .ok a

/-- An interrupted call: it failed with `EINTR`. -/
def Interrupted (e : Event) : Prop := e.reply.ret = -1 ∧ e.reply.err = EINTR

instance (e : Event) : Decidable (Interrupted e) := by
  unfold Interrupted; exact inferInstance

/-- The value of `errno` after the system calls `evs`, when it was `n` before:
each failing call sets it. -/
def errnoAfter (n : Int) (evs : List Event) : Int :=
  evs.foldl (fun n e => if e.reply.ret = -1 then e.reply.err else n) n

/-- The events of a run of `ioctl_ex` that issues the call `c`: the call is
repeated as long as it is interrupted.  Either every attempt was interrupted
and the run did not end (`none`), or the last attempt got the answer `r`, which
is not an interruption (`some r`). -/
inductive IoctlEvents (c : Call) : List Event → Option Reply → Prop
  | hang (evs : List Event) (h : ∀ e ∈ evs, e.call = c ∧ Interrupted e) :
      IoctlEvents c evs none
  | done (pre : List Event) (r : Reply) (h : ∀ e ∈ pre, e.call = c ∧ Interrupted e)
      (hr : ¬ Interrupted ⟨c, r⟩) : IoctlEvents c (pre ++ [⟨c, r⟩]) (some r)

/-- The result of `ioctl_ex` for the argument block `arg`, from how its
attempts ended. -/
def ioctlResult (arg : Arg) : Option Reply → Outcome (Int × Arg)
  | none => .fail .hang
  | some r => .ok (r.ret, if r.ret = -1 then arg else r.arg)

/-- The state after the system call `c` got the answer `r`. -/
def afterCall {σ : Type} (s : Sys σ) (c : Call) (r : Reply) : Sys σ :=
  { s with trace := s.trace ++ [⟨c, r⟩], errno := if r.ret = -1 then r.err else s.errno }

/-- The state after the attempts `evs` of a run of `ioctl_ex`. -/
def afterIoctl {σ : Type} (s : Sys σ) (evs : List Event) : Sys σ :=
  { s with trace := s.trace ++ evs, errno := errnoAfter s.errno evs }

/-- The `select` call of `process()` on the device `d`. -/
def selectCall {σ : Type} (d : c920_device_t σ) : Call := .select (d._fd + 1) d._fd 2

/-- The `VIDIOC_DQBUF` call of `process()` on the device `d`. -/
def dqbufCall {σ : Type} (d : c920_device_t σ) : Call :=
  .ioctl d._fd .VIDIOC_DQBUF { type := V4L2_BUF_TYPE_VIDEO_CAPTURE, memory := V4L2_MEMORY_MMAP }

/-- The data pointer `process()` passes to the sink for the dequeued block
`buffer`. -/
def sinkData {σ : Type} (d : c920_device_t σ) (buffer : Arg) : Int :=
  (d._buffers.getD (u32 buffer.index) ⟨0, 0⟩).data

/-- What the frame sink of the device returns for the dequeued block `buffer`
when its state is `k`, and the state it leaves; 0 and `k` when no sink is
configured. -/
def sinkResult {σ : Type} (d : c920_device_t σ) (buffer : Arg) (k : σ) : Int × σ :=
  match d._c920_parameters.cb with
  | some cb => cb (sinkData d buffer) (u32 buffer.bytesused) d._c920_parameters.toc920_values k
  | none => (0, k)

/-- The events of the call of the frame sink for the dequeued block `buffer`:
one `callback` event, none when no sink is configured. -/
def sinkEvents {σ : Type} (d : c920_device_t σ) (buffer : Arg) (k : σ) : List Event :=
  match d._c920_parameters.cb with
  | some _ =>
    [⟨.callback (sinkData d buffer) (u32 buffer.bytesused), { ret := (sinkResult d buffer k).1 }⟩]
  | none => []

/-- The state after the call of the frame sink of the device `d` for the
dequeued block. -/
def afterSink {σ : Type} (d : c920_device_t σ) (s : Sys σ) (buffer : Arg) : Sys σ :=
  { s with trace := s.trace ++ sinkEvents d buffer s.sink,
           sink := (sinkResult d buffer s.sink).2 }

/-- The `VIDIOC_QBUF` call of `process()` on the device `d`, for the dequeued
block `buffer`. -/
def qbufCall {σ : Type} (d : c920_device_t σ) (buffer : Arg) : Call :=
  .ioctl d._fd .VIDIOC_QBUF buffer

/-- The ways `process()` runs on the device `d`, when the sink is in state `k`
and `errno` is `n`: the outcome, the events the run appends to the history, and
the state the sink is left in. -/
inductive ProcessRun {σ : Type} (d : c920_device_t σ) (k : σ) (n : Int) :
    Outcome Int → List Event → σ → Prop
  | interrupted (r : Reply) (h1 : r.ret = -1) (h : r.err = EINTR) :
      ProcessRun d k n (.ok 1) [⟨selectCall d, r⟩] k
  | select_failed (r : Reply) (h1 : r.ret = -1) (h : r.err ≠ EINTR) :
      ProcessRun d k n (.fail (.thrown ⟨.could_not_select, r.err⟩)) [⟨selectCall d, r⟩] k
  | timeout (r : Reply) (h0 : r.ret = 0) :
      ProcessRun d k n (.fail (.thrown ⟨.timeout, n⟩)) [⟨selectCall d, r⟩] k
  | dequeue_hang (r : Reply) (h1 : r.ret ≠ -1) (h0 : r.ret ≠ 0) (dq : List Event)
      (hdq : IoctlEvents (dqbufCall d) dq none) :
      ProcessRun d k n (.fail .hang) (⟨selectCall d, r⟩ :: dq) k
  | dequeue_failed (r : Reply) (h1 : r.ret ≠ -1) (h0 : r.ret ≠ 0) (dq : List Event) (x : Reply)
      (hdq : IoctlEvents (dqbufCall d) dq (some x)) (hx : x.ret = -1) :
      ProcessRun d k n
        (if x.err = EAGAIN then .ok 1 else .fail (.thrown ⟨.error_dqbuf, x.err⟩))
        (⟨selectCall d, r⟩ :: dq) k
  | out_of_range (r : Reply) (h1 : r.ret ≠ -1) (h0 : r.ret ≠ 0) (dq : List Event) (x : Reply)
      (hdq : IoctlEvents (dqbufCall d) dq (some x)) (hx : x.ret ≠ -1)
      (hi : ¬ u32 x.arg.index < d._num_buffers) :
      ProcessRun d k n (.fail .assert_failed) (⟨selectCall d, r⟩ :: dq) k
  | queue_hang (r : Reply) (h1 : r.ret ≠ -1) (h0 : r.ret ≠ 0) (dq : List Event) (x : Reply)
      (hdq : IoctlEvents (dqbufCall d) dq (some x)) (hx : x.ret ≠ -1)
      (hi : u32 x.arg.index < d._num_buffers) (q : List Event)
      (hq : IoctlEvents (qbufCall d x.arg) q none) (hne : q ≠ []) :
      ProcessRun d k n (.fail .hang)
        (⟨selectCall d, r⟩ :: (dq ++ (sinkEvents d x.arg k ++ q))) (sinkResult d x.arg k).2
  | queue_failed (r : Reply) (h1 : r.ret ≠ -1) (h0 : r.ret ≠ 0) (dq : List Event) (x : Reply)
      (hdq : IoctlEvents (dqbufCall d) dq (some x)) (hx : x.ret ≠ -1)
      (hi : u32 x.arg.index < d._num_buffers) (q : List Event) (y : Reply)
      (hq : IoctlEvents (qbufCall d x.arg) q (some y)) (hy : y.ret = -1) :
      ProcessRun d k n (.fail (.thrown ⟨.error_qbuf, y.err⟩))
        (⟨selectCall d, r⟩ :: (dq ++ (sinkEvents d x.arg k ++ q))) (sinkResult d x.arg k).2
  | done (r : Reply) (h1 : r.ret ≠ -1) (h0 : r.ret ≠ 0) (dq : List Event) (x : Reply)
      (hdq : IoctlEvents (dqbufCall d) dq (some x)) (hx : x.ret ≠ -1)
      (hi : u32 x.arg.index < d._num_buffers) (q : List Event) (y : Reply)
      (hq : IoctlEvents (qbufCall d x.arg) q (some y)) (hy : y.ret ≠ -1) :
      ProcessRun d k n (.ok (sinkResult d x.arg k).1)
        (⟨selectCall d, r⟩ :: (dq ++ (sinkEvents d x.arg k ++ q))) (sinkResult d x.arg k).2

/-- The ways `set_bitrate(bmin)` runs on the handle `fd`: whether it returns
(`true`) or its retry loop does not end (`false`), and the events of the run. -/
inductive BitrateRun (fd : Int) (bmin : Int) : Bool → List Event → Prop
  | get_hang (g : List Event) (hg : IoctlEvents (.ioctl fd .UVCIOC_CTRL_QUERY bitrateGet) g none) :
      BitrateRun fd bmin false g
  | get_failed (g : List Event) (r1 : Reply)
      (hg : IoctlEvents (.ioctl fd .UVCIOC_CTRL_QUERY bitrateGet) g (some r1))
      (h1 : r1.ret ≠ 0) : BitrateRun fd bmin true g
  | set_hang (g : List Event) (r1 : Reply)
      (hg : IoctlEvents (.ioctl fd .UVCIOC_CTRL_QUERY bitrateGet) g (some r1))
      (h1 : r1.ret = 0) (st : List Event)
      (hs : IoctlEvents (.ioctl fd .UVCIOC_CTRL_QUERY (bitrateSet r1.arg bmin)) st none)
      (hne : st ≠ []) : BitrateRun fd bmin false (g ++ st)
  | set_failed (g : List Event) (r1 : Reply)
      (hg : IoctlEvents (.ioctl fd .UVCIOC_CTRL_QUERY bitrateGet) g (some r1))
      (h1 : r1.ret = 0) (st : List Event) (r2 : Reply)
      (hs : IoctlEvents (.ioctl fd .UVCIOC_CTRL_QUERY (bitrateSet r1.arg bmin)) st (some r2))
      (h2 : r2.ret ≠ 0) : BitrateRun fd bmin true (g ++ st)
  | check (g : List Event) (r1 : Reply)
      (hg : IoctlEvents (.ioctl fd .UVCIOC_CTRL_QUERY bitrateGet) g (some r1))
      (h1 : r1.ret = 0) (st : List Event) (r2 : Reply)
      (hs : IoctlEvents (.ioctl fd .UVCIOC_CTRL_QUERY (bitrateSet r1.arg bmin)) st (some r2))
      (h2 : r2.ret = 0) (ck : List Event) (res : Option Reply)
      (hc : IoctlEvents (.ioctl fd .UVCIOC_CTRL_QUERY (bitrateCheck r2.arg)) ck res) :
      BitrateRun fd bmin res.isSome (g ++ (st ++ ck))

/-- The first part of the constructor: the assignments of the members and the
sections up to "Set frame rate". -/
def negotiate {σ : Type} (drv : Driver) (fuel : Nat)
    (c920_parameters : c920_parameters_t σ) : Prog σ Unit := do
  modifyDev fun d =>
    { d with _device_name := none, _playing := false,
             _c920_parameters := c920_parameters }
  identifyDevice drv c920_parameters
  openDevice drv c920_parameters
  queryCapabilities drv fuel
  setCrop drv fuel
  setFormat drv fuel c920_parameters
  setFrameRate drv fuel c920_parameters

/-- The last part of the constructor, after "Initialize MMAP" granted `count`
buffers: the sections "Allocate buffers to map", "Queue buffers for device" and
"Copy the device name". -/
def primeBuffers {σ : Type} (drv : Driver) (fuel : Nat)
    (c920_parameters : c920_parameters_t σ) (count : Nat) : Prog σ Unit := do
  allocateBuffers drv fuel count
  queueBuffers drv fuel
  copyDeviceName drv c920_parameters

/-- The kinds of the calls of the first part of the constructor. -/
def negotiateKinds : List Kind :=
  [.stat, .open_, .ioctl .VIDIOC_QUERYCAP, .ioctl .VIDIOC_CROPCAP, .ioctl .VIDIOC_S_CROP,
   .ioctl .VIDIOC_S_FMT, .ioctl .VIDIOC_G_PARM, .ioctl .VIDIOC_S_PARM]

/-- A driver on which everything succeeds at the first attempt, and that grants
`n` buffers: the path is a character device that opens, every ioctl returns 0,
the device reports the capture and streaming capabilities, `n` buffers with
`n` at least 2, every allocation and mapping succeeds, `select` always reports
data, every dequeue names a buffer of the pool, and unmapping and closing
succeed. -/
structure Cooperative (drv : Driver) (n : Nat) : Prop where
  stat_ok : ∀ h path, (drv h (.stat path)).ret ≠ -1 ∧ S_ISCHR (drv h (.stat path)).st_mode = true
  open_ok : ∀ h path, (drv h (.open_ path)).ret ≠ -1
  ioctl_ok : ∀ h fd request arg, (drv h (.ioctl fd request arg)).ret = 0
  capture : ∀ h fd arg,
    (drv h (.ioctl fd .VIDIOC_QUERYCAP arg)).arg.capabilities &&& V4L2_CAP_VIDEO_CAPTURE ≠ 0 ∧
    (drv h (.ioctl fd .VIDIOC_QUERYCAP arg)).arg.capabilities &&& V4L2_CAP_STREAMING ≠ 0
  count : ∀ h fd arg, u32 (drv h (.ioctl fd .VIDIOC_REQBUFS arg)).arg.count = n
  two : 2 ≤ n
  calloc_ok : ∀ h k, (drv h (.calloc k)).ret ≠ 0
  malloc_ok : ∀ h k, (drv h (.malloc k)).ret ≠ 0
  mmap_ok : ∀ h len fd off, (drv h (.mmap len fd off)).ret ≠ MAP_FAILED
  select_ok : ∀ h nfds fd t, (drv h (.select nfds fd t)).ret = 1
  index_ok : ∀ h fd arg, u32 (drv h (.ioctl fd .VIDIOC_DQBUF arg)).arg.index < n
  munmap_ok : ∀ h addr len, (drv h (.munmap addr len)).ret ≠ -1
  close_ok : ∀ h fd, (drv h (.close fd)).ret ≠ -1

/-- The constructor up to the section "Set crop rectangle": what runs before
the section "Setting video format". -/
def preFormat {σ : Type} (drv : Driver) (fuel : Nat)
    (c920_parameters : c920_parameters_t σ) : Prog σ Unit := do
  modifyDev fun d =>
    { d with _device_name := none, _playing := false,
             _c920_parameters := c920_parameters }
  identifyDevice drv c920_parameters
  openDevice drv c920_parameters
  queryCapabilities drv fuel
  setCrop drv fuel

/-- The kinds of the calls the constructor makes before the section "Setting
video format". -/
def preFormatKinds : List Kind :=
  [.stat, .open_, .ioctl .VIDIOC_QUERYCAP, .ioctl .VIDIOC_CROPCAP, .ioctl .VIDIOC_S_CROP]

/-- Parameter values whose format code is none of the three formats: what the
local `params` of `main` may hold when no `-f` option sets it. -/
def strayValues : c920_values := { exampleValues with format := 7 }

/-- The program `m` never ends with the exception `t`. -/
def Avoids {σ α : Type} (t : Throw) (m : Prog σ α) : Prop :=
  ∀ s n, (m s).1 ≠ .fail (.thrown ⟨t, n⟩)

/-! ## Running programs: the equations of the primitives -/

section Run

variable {σ α β : Type}

@[simp] theorem run_pure (a : α) (s : Sys σ) : (pure a : Prog σ α) s = (.ok a, s) := rfl

@[simp] theorem run_bind (m : Prog σ α) (f : α → Prog σ β) (s : Sys σ) :
    (m >>= f) s = match m s with
      | (.ok a, s') => f a s'
      | (.fail e, s') => (.fail e, s') := rfl

theorem run_bind_ok {m : Prog σ α} {f : α → Prog σ β} {s s' : Sys σ} {a : α}
    (h : m s = (.ok a, s')) : (m >>= f) s = f a s' := by
  simp [h]

theorem run_bind_fail {m : Prog σ α} {f : α → Prog σ β} {s s' : Sys σ} {e : Fault}
    (h : m s = (.fail e, s')) : (m >>= f) s = (.fail e, s') := by
  simp [h]

@[simp] theorem run_failWith (f : Fault) (s : Sys σ) :
    (failWith f : Prog σ α) s = (.fail f, s) := rfl

@[simp] theorem run_throwEx (t : Throw) (s : Sys σ) :
    (throwEx t : Prog σ α) s = (.fail (.thrown ⟨t, s.errno⟩), s) := rfl

@[simp] theorem run_getSys (s : Sys σ) : (getSys : Prog σ (Sys σ)) s = (.ok s, s) := rfl

@[simp] theorem run_getDev (s : Sys σ) : (getDev : Prog σ _) s = (.ok s.dev, s) := rfl

@[simp] theorem run_modifyDev (f : c920_device_t σ → c920_device_t σ) (s : Sys σ) :
    modifyDev f s = (.ok (), { s with dev := f s.dev }) := rfl

@[simp] theorem run_syscall (drv : Driver) (c : Call) (s : Sys σ) :
    (syscall drv c : Prog σ Reply) s =
      (.ok (drv s.trace c),
       { s with trace := s.trace ++ [⟨c, drv s.trace c⟩],
                errno := if (drv s.trace c).ret = -1 then (drv s.trace c).err else s.errno }) :=
  rfl

theorem run_throwIf (c : Prop) [Decidable c] (t : Throw) (s : Sys σ) :
    (throwIf c t : Prog σ Unit) s =
      if c then (.fail (.thrown ⟨t, s.errno⟩), s) else (.ok (), s) := by
  unfold throwIf; split <;> rfl

@[simp] theorem run_throwIf_pos {c : Prop} [Decidable c] (h : c) (t : Throw) (s : Sys σ) :
    (throwIf c t : Prog σ Unit) s = (.fail (.thrown ⟨t, s.errno⟩), s) := by
  simp [run_throwIf, h]

@[simp] theorem run_throwIf_neg {c : Prop} [Decidable c] (h : ¬ c) (t : Throw) (s : Sys σ) :
    (throwIf c t : Prog σ Unit) s = (.ok (), s) := by
  simp [run_throwIf, h]

theorem run_ite (c : Prop) [Decidable c] (m n : Prog σ α) (s : Sys σ) :
    (if c then m else n) s = if c then m s else n s := by
  split <;> rfl

@[simp] theorem run_ioctl_ex_zero (drv : Driver) (fh : Int) (request : Request) (arg : Arg)
    (s : Sys σ) : (ioctl_ex drv 0 fh request arg : Prog σ _) s = (.fail .hang, s) := rfl

theorem run_ioctl_ex_succ (drv : Driver) (fuel : Nat) (fh : Int) (request : Request)
    (arg : Arg) (s : Sys σ) :
    (ioctl_ex drv (fuel + 1) fh request arg : Prog σ _) s =
      let r := drv s.trace (.ioctl fh request arg)
      let s1 : Sys σ :=
        { s with trace := s.trace ++ [⟨.ioctl fh request arg, r⟩],
                 errno := if r.ret = -1 then r.err else s.errno }
      if r.ret = -1 ∧ EINTR = s1.errno then ioctl_ex drv fuel fh request arg s1
      else (.ok (r.ret, if r.ret = -1 then arg else r.arg), s1) := by
  rw [ioctl_ex]
  simp only [run_bind, run_syscall, run_getSys]
  by_cases h1 : (drv s.trace (.ioctl fh request arg)).ret = -1
  · by_cases h2 : EINTR = (drv s.trace (.ioctl fh request arg)).err
    · simp [h1, h2]
    · simp [h1, h2]
  · simp [h1]

theorem run_ioctl_ex_retry (drv : Driver) (fuel : Nat) (fh : Int) (request : Request)
    (arg : Arg) (s : Sys σ) (h1 : (drv s.trace (.ioctl fh request arg)).ret = -1)
    (h2 : (drv s.trace (.ioctl fh request arg)).err = EINTR) :
    (ioctl_ex drv (fuel + 1) fh request arg : Prog σ _) s =
      ioctl_ex drv fuel fh request arg
        { s with trace := s.trace ++ [⟨.ioctl fh request arg, drv s.trace (.ioctl fh request arg)⟩],
                 errno := EINTR } := by
  rw [run_ioctl_ex_succ]
  simp [h1, h2]

theorem run_ioctl_ex_done (drv : Driver) (fuel : Nat) (fh : Int) (request : Request)
    (arg : Arg) (s : Sys σ)
    (h : ¬ ((drv s.trace (.ioctl fh request arg)).ret = -1 ∧
            (drv s.trace (.ioctl fh request arg)).err = EINTR)) :
    (ioctl_ex drv (fuel + 1) fh request arg : Prog σ _) s =
      (.ok ((drv s.trace (.ioctl fh request arg)).ret,
            if (drv s.trace (.ioctl fh request arg)).ret = -1 then arg
            else (drv s.trace (.ioctl fh request arg)).arg),
       { s with trace := s.trace ++ [⟨.ioctl fh request arg, drv s.trace (.ioctl fh request arg)⟩],
                errno := if (drv s.trace (.ioctl fh request arg)).ret = -1
                  then (drv s.trace (.ioctl fh request arg)).err else s.errno }) := by
  rw [run_ioctl_ex_succ]
  by_cases h1 : (drv s.trace (.ioctl fh request arg)).ret = -1
  · have h2 : ¬ EINTR = (drv s.trace (.ioctl fh request arg)).err := fun h3 => h ⟨h1, h3.symm⟩
    simp [h1, h2]
  · simp [h1]

end Run

/-! ## Frame reasoning: what a program leaves untouched -/

section Frames

variable {σ α β γ : Type}

theorem Kept.refl (P : Event → Prop) (π : c920_device_t σ → γ) (s : Sys σ) : Kept P π s s :=
  ⟨⟨[], by simp, by simp⟩, rfl, rfl⟩

theorem Kept.trans {P : Event → Prop} {π : c920_device_t σ → γ} {a b c : Sys σ}
    (h1 : Kept P π a b) (h2 : Kept P π b c) : Kept P π a c := by
  obtain ⟨⟨e1, t1, p1⟩, d1, k1⟩ := h1
  obtain ⟨⟨e2, t2, p2⟩, d2, k2⟩ := h2
  refine ⟨⟨e1 ++ e2, by rw [t2, t1, List.append_assoc], ?_⟩, d2.trans d1, k2.trans k1⟩
  intro e he
  rcases List.mem_append.mp he with h | h
  · exact p1 e h
  · exact p2 e h

theorem Kept.event {P : Event → Prop} {π : c920_device_t σ → γ} (s : Sys σ) (e : Event)
    (n : Int) (h : P e) : Kept P π s { s with trace := s.trace ++ [e], errno := n } :=
  ⟨⟨[e], rfl, by simpa using h⟩, rfl, rfl⟩

theorem Keeps.pure {P : Event → Prop} {π : c920_device_t σ → γ} (a : α) :
    Keeps P π (pure a : Prog σ α) := fun s => Kept.refl P π s

theorem Keeps.failWith {P : Event → Prop} {π : c920_device_t σ → γ} (f : Fault) :
    Keeps P π (failWith f : Prog σ α) := fun s => Kept.refl P π s

theorem Keeps.throwEx {P : Event → Prop} {π : c920_device_t σ → γ} (t : Throw) :
    Keeps P π (throwEx t : Prog σ α) := fun s => Kept.refl P π s

theorem Keeps.getSys {P : Event → Prop} {π : c920_device_t σ → γ} :
    Keeps P π (getSys : Prog σ (Sys σ)) := fun s => Kept.refl P π s

theorem Keeps.getDev {P : Event → Prop} {π : c920_device_t σ → γ} :
    Keeps P π (getDev : Prog σ (c920_device_t σ)) := fun s => Kept.refl P π s

theorem Keeps.throwIf {P : Event → Prop} {π : c920_device_t σ → γ} (c : Prop) [Decidable c]
    (t : Throw) : Keeps P π (throwIf c t : Prog σ Unit) := by
  intro s
  rw [run_throwIf]
  split <;> exact Kept.refl P π s

theorem Keeps.bind {P : Event → Prop} {π : c920_device_t σ → γ} {m : Prog σ α}
    {f : α → Prog σ β} (hm : Keeps P π m) (hf : ∀ a, Keeps P π (f a)) :
    Keeps P π (m >>= f) := by
  intro s
  have h := hm s
  rw [run_bind]
  rcases hr : m s with ⟨o, s1⟩
  rw [hr] at h
  cases o with
  | ok a => exact h.trans (hf a s1)
  | fail e => exact h

theorem Keeps.ite {P : Event → Prop} {π : c920_device_t σ → γ} (c : Prop) [Decidable c]
    {m n : Prog σ α} (hm : Keeps P π m) (hn : Keeps P π n) :
    Keeps P π (if c then m else n) := by
  split
  · exact hm
  · exact hn

theorem Keeps.syscall {P : Event → Prop} {π : c920_device_t σ → γ} (drv : Driver) (c : Call)
    (h : ∀ r, P ⟨c, r⟩) : Keeps P π (syscall drv c : Prog σ Reply) := by
  intro s
  rw [run_syscall]
  exact Kept.event s _ _ (h _)

theorem Keeps.modifyDev {P : Event → Prop} {π : c920_device_t σ → γ}
    (f : c920_device_t σ → c920_device_t σ) (h : ∀ d, π (f d) = π d) :
    Keeps P π (modifyDev f) := by
  intro s
  rw [run_modifyDev]
  exact ⟨⟨[], by simp, by simp⟩, h s.dev, rfl⟩

theorem Keeps.ioctl_ex {P : Event → Prop} {π : c920_device_t σ → γ} (drv : Driver)
    (fuel : Nat) (fh : Int) (request : Request) (arg : Arg)
    (h : ∀ r, P ⟨.ioctl fh request arg, r⟩) :
    Keeps P π (ioctl_ex drv fuel fh request arg : Prog σ _) := by
  induction fuel with
  | zero => intro s; exact Kept.refl P π s
  | succ n ih =>
    intro s
    by_cases hc : (drv s.trace (.ioctl fh request arg)).ret = -1 ∧
        (drv s.trace (.ioctl fh request arg)).err = EINTR
    · rw [run_ioctl_ex_retry drv n fh request arg s hc.1 hc.2]
      exact (Kept.event s _ _ (h _)).trans (ih _)
    · rw [run_ioctl_ex_done drv n fh request arg s hc]
      exact Kept.event s _ _ (h _)

theorem Keeps.forRange {P : Event → Prop} {π : c920_device_t σ → γ} {body : Nat → Prog σ Unit}
    (h : ∀ i, Keeps P π (body i)) (i n : Nat) : Keeps P π (forRange body i n) := by
  induction n generalizing i with
  | zero => exact Keeps.pure ()
  | succ n ih =>
    rw [C920.forRange]
    exact Keeps.bind (h i) fun _ => ih (i + 1)

theorem NeverOk.bind_left {m : Prog σ α} (f : α → Prog σ β) (h : NeverOk m) :
    NeverOk (m >>= f) := by
  intro s b
  rw [run_bind]
  rcases hr : m s with ⟨o, s1⟩
  cases o with
  | ok a => exact absurd (by rw [hr]) (h s a)
  | fail e => simp

theorem NeverOk.bind_right (m : Prog σ α) {f : α → Prog σ β} (h : ∀ a, NeverOk (f a)) :
    NeverOk (m >>= f) := by
  intro s b
  rw [run_bind]
  rcases m s with ⟨o, s1⟩
  cases o with
  | ok a => exact h a s1 b
  | fail e => simp

/-- When `m` never returns, what follows it does not run. -/
theorem run_bind_neverOk {m : Prog σ α} (f : α → Prog σ β) (h : NeverOk m) (s : Sys σ) :
    ((m >>= f) s).2 = (m s).2 ∧ ∀ e, (m s).1 = .fail e → ((m >>= f) s).1 = .fail e := by
  rw [run_bind]
  rcases hr : m s with ⟨o, s1⟩
  cases o with
  | ok a => exact absurd (by rw [hr]) (h s a)
  | fail e => simp

theorem AlwaysOk.ok_pure (a : α) : AlwaysOk (pure a : Prog σ α) := fun _ => ⟨a, rfl⟩

theorem AlwaysOk.ok_getDev : AlwaysOk (getDev : Prog σ (c920_device_t σ)) := fun s => ⟨s.dev, rfl⟩

theorem AlwaysOk.ok_getSys : AlwaysOk (getSys : Prog σ (Sys σ)) := fun s => ⟨s, rfl⟩

theorem AlwaysOk.ok_modifyDev (f : c920_device_t σ → c920_device_t σ) : AlwaysOk (modifyDev f) :=
  fun _ => ⟨(), rfl⟩

theorem AlwaysOk.ok_syscall (drv : Driver) (c : Call) : AlwaysOk (syscall drv c : Prog σ Reply) :=
  fun s => ⟨drv s.trace c, rfl⟩

theorem AlwaysOk.ok_bind {m : Prog σ α} {f : α → Prog σ β} (hm : AlwaysOk m)
    (hf : ∀ a s, (m s).1 = .ok a → AlwaysOk (f a)) : AlwaysOk (m >>= f) := by
  intro s
  obtain ⟨a, ha⟩ := hm s
  rw [run_bind]
  rcases hr : m s with ⟨o, s1⟩
  rw [hr] at ha
  cases o with
  | ok a' => exact hf a' s (by rw [hr]) s1
  | fail e => cases ha

theorem AlwaysOk.ok_throwIf {c : Prop} [Decidable c] (h : ¬ c) (t : Throw) :
    AlwaysOk (throwIf c t : Prog σ Unit) := fun s => ⟨(), by rw [run_throwIf_neg h]⟩

theorem AlwaysOk.ok_forRange {body : Nat → Prog σ Unit} (h : ∀ i, AlwaysOk (body i)) (i n : Nat) :
    AlwaysOk (forRange body i n) := by
  induction n generalizing i with
  | zero => exact AlwaysOk.ok_pure ()
  | succ n ih =>
    rw [C920.forRange]
    exact AlwaysOk.ok_bind (h i) fun _ _ _ => ih (i + 1)

end Frames

/-! ## The calls each section of the engine makes -/

section Sections

variable {σ : Type}

theorem Keeps.mono {α γ δ : Type} {P Q : Event → Prop} {π : c920_device_t σ → γ}
    {ρ : c920_device_t σ → δ} {m : Prog σ α} (h : Keeps P π m)
    (hP : ∀ e, P e → Q e) (hπ : ∀ d d', π d = π d' → ρ d = ρ d') : Keeps Q ρ m := by
  intro s
  obtain ⟨⟨evs, ht, hp⟩, hd, hk⟩ := h s
  exact ⟨⟨evs, ht, fun e he => hP e (hp e he)⟩, hπ _ _ hd, hk⟩

theorem identifyDevice_keeps (drv : Driver) (p : c920_parameters_t σ) :
    Keeps (OfKinds [.stat]) id (identifyDevice drv p) := by
  unfold identifyDevice
  repeat' first
    | exact Keeps.pure _
    | exact Keeps.throwIf _ _
    | intro _
    | apply Keeps.bind
    | (apply Keeps.syscall; intro r; simp [OfKinds, Call.kind])

theorem openDevice_keeps (drv : Driver) (p : c920_parameters_t σ) :
    Keeps (OfKinds [.open_]) (fun d => (d._playing, d._num_buffers, d._buffers, d._c920_parameters))
      (openDevice drv p : Prog σ _) := by
  unfold openDevice
  repeat' first
    | exact Keeps.pure _
    | exact Keeps.throwIf _ _
    | exact Keeps.throwEx _
    | exact Keeps.failWith _
    | exact Keeps.getDev
    | exact Keeps.getSys
    | intro _
    | apply Keeps.bind
    | apply Keeps.ite
    | (apply Keeps.syscall; intro r; simp [OfKinds, Call.kind])
    | (apply Keeps.ioctl_ex; intro r; simp [OfKinds, Call.kind])
    | (apply Keeps.modifyDev; intro d; rfl)

theorem queryCapabilities_keeps (drv : Driver) (fuel : Nat) :
    Keeps (OfKinds [.ioctl .VIDIOC_QUERYCAP]) id
      (queryCapabilities drv fuel : Prog σ _) := by
  unfold queryCapabilities
  repeat' first
    | exact Keeps.pure _
    | exact Keeps.throwIf _ _
    | exact Keeps.throwEx _
    | exact Keeps.failWith _
    | exact Keeps.getDev
    | exact Keeps.getSys
    | intro _
    | apply Keeps.bind
    | apply Keeps.ite
    | (apply Keeps.syscall; intro r; simp [OfKinds, Call.kind])
    | (apply Keeps.ioctl_ex; intro r; simp [OfKinds, Call.kind])
    | (apply Keeps.modifyDev; intro d; rfl)

theorem setCrop_keeps (drv : Driver) (fuel : Nat) :
    Keeps (OfKinds [.ioctl .VIDIOC_CROPCAP, .ioctl .VIDIOC_S_CROP]) id
      (setCrop drv fuel : Prog σ _) := by
  unfold setCrop
  repeat' first
    | exact Keeps.pure _
    | exact Keeps.throwIf _ _
    | exact Keeps.throwEx _
    | exact Keeps.failWith _
    | exact Keeps.getDev
    | exact Keeps.getSys
    | intro _
    | apply Keeps.bind
    | apply Keeps.ite
    | (apply Keeps.syscall; intro r; simp [OfKinds, Call.kind])
    | (apply Keeps.ioctl_ex; intro r; simp [OfKinds, Call.kind])
    | (apply Keeps.modifyDev; intro d; rfl)

theorem setFormat_keeps (drv : Driver) (fuel : Nat) (p : c920_parameters_t σ) :
    Keeps (OfKinds [.ioctl .VIDIOC_S_FMT]) id
      (setFormat drv fuel p : Prog σ _) := by
  unfold setFormat
  repeat' first
    | exact Keeps.pure _
    | exact Keeps.throwIf _ _
    | exact Keeps.throwEx _
    | exact Keeps.failWith _
    | exact Keeps.getDev
    | exact Keeps.getSys
    | intro _
    | apply Keeps.bind
    | apply Keeps.ite
    | (apply Keeps.syscall; intro r; simp [OfKinds, Call.kind])
    | (apply Keeps.ioctl_ex; intro r; simp [OfKinds, Call.kind])
    | (apply Keeps.modifyDev; intro d; rfl)

theorem setFrameRate_keeps (drv : Driver) (fuel : Nat) (p : c920_parameters_t σ) :
    Keeps (OfKinds [.ioctl .VIDIOC_G_PARM, .ioctl .VIDIOC_S_PARM]) id
      (setFrameRate drv fuel p : Prog σ _) := by
  unfold setFrameRate
  repeat' first
    | exact Keeps.pure _
    | exact Keeps.throwIf _ _
    | exact Keeps.throwEx _
    | exact Keeps.failWith _
    | exact Keeps.getDev
    | exact Keeps.getSys
    | intro _
    | apply Keeps.bind
    | apply Keeps.ite
    | (apply Keeps.syscall; intro r; simp [OfKinds, Call.kind])
    | (apply Keeps.ioctl_ex; intro r; simp [OfKinds, Call.kind])
    | (apply Keeps.modifyDev; intro d; rfl)

theorem requestBuffers_keeps (drv : Driver) (fuel : Nat) :
    Keeps (OfKinds [.ioctl .VIDIOC_REQBUFS]) id
      (requestBuffers drv fuel : Prog σ _) := by
  unfold requestBuffers
  repeat' first
    | exact Keeps.pure _
    | exact Keeps.throwIf _ _
    | exact Keeps.throwEx _
    | exact Keeps.failWith _
    | exact Keeps.getDev
    | exact Keeps.getSys
    | intro _
    | apply Keeps.bind
    | apply Keeps.ite
    | (apply Keeps.syscall; intro r; simp [OfKinds, Call.kind])
    | (apply Keeps.ioctl_ex; intro r; simp [OfKinds, Call.kind])
    | (apply Keeps.modifyDev; intro d; rfl)

theorem mapBuffer_keeps (drv : Driver) (fuel : Nat) :
    Keeps (OfKinds [.ioctl .VIDIOC_QUERYBUF, .mmap]) (fun d => (d._playing, d._fd, d._num_buffers, d._c920_parameters))
      (mapBuffer drv fuel : Prog σ _) := by
  unfold mapBuffer
  repeat' first
    | exact Keeps.pure _
    | exact Keeps.throwIf _ _
    | exact Keeps.throwEx _
    | exact Keeps.failWith _
    | exact Keeps.getDev
    | exact Keeps.getSys
    | intro _
    | apply Keeps.bind
    | apply Keeps.ite
    | (apply Keeps.syscall; intro r; simp [OfKinds, Call.kind])
    | (apply Keeps.ioctl_ex; intro r; simp [OfKinds, Call.kind])
    | (apply Keeps.modifyDev; intro d; rfl)

theorem mapBuffers_keeps (drv : Driver) (fuel count n : Nat) :
    Keeps (OfKinds [.ioctl .VIDIOC_QUERYBUF, .mmap])
      (fun d => (d._playing, d._fd, d._c920_parameters))
      (mapBuffers drv fuel count n : Prog σ _) := by
  induction n with
  | zero => exact Keeps.pure ()
  | succ n ih =>
    rw [mapBuffers]
    refine Keeps.bind Keeps.getDev fun d => Keeps.ite _ ?_ (Keeps.pure ())
    refine Keeps.bind ((mapBuffer_keeps drv fuel).mono (fun _ h => h) ?_) fun _ => ?_
    · intro d d' h
      simp only [Prod.mk.injEq] at h ⊢
      exact ⟨h.1, h.2.1, h.2.2.2⟩
    · exact Keeps.bind (Keeps.modifyDev _ fun d => rfl) fun _ => ih

theorem allocateBuffers_keeps (drv : Driver) (fuel count : Nat) :
    Keeps (OfKinds [.calloc, .ioctl .VIDIOC_QUERYBUF, .mmap])
      (fun d => (d._playing, d._fd, d._c920_parameters))
      (allocateBuffers drv fuel count : Prog σ _) := by
  unfold allocateBuffers
  refine Keeps.bind (Keeps.syscall _ _ fun r => by simp [OfKinds, Call.kind]) fun _ => ?_
  refine Keeps.bind (Keeps.modifyDev _ fun d => rfl) fun _ => ?_
  refine Keeps.bind (Keeps.throwIf _ _) fun _ => ?_
  refine Keeps.bind (Keeps.modifyDev _ fun d => rfl) fun _ => ?_
  exact (mapBuffers_keeps drv fuel count count).mono
    (fun e h => by simp only [OfKinds, List.mem_cons] at h ⊢; exact Or.inr h) fun _ _ h => h

theorem queueBuffer_keeps (drv : Driver) (fuel i : Nat) :
    Keeps (OfKinds [.ioctl .VIDIOC_QBUF]) id
      (queueBuffer drv fuel i : Prog σ _) := by
  unfold queueBuffer
  repeat' first
    | exact Keeps.pure _
    | exact Keeps.throwIf _ _
    | exact Keeps.throwEx _
    | exact Keeps.failWith _
    | exact Keeps.getDev
    | exact Keeps.getSys
    | intro _
    | apply Keeps.bind
    | apply Keeps.ite
    | (apply Keeps.syscall; intro r; simp [OfKinds, Call.kind])
    | (apply Keeps.ioctl_ex; intro r; simp [OfKinds, Call.kind])
    | (apply Keeps.modifyDev; intro d; rfl)

theorem queueBuffers_keeps (drv : Driver) (fuel : Nat) :
    Keeps (OfKinds [.ioctl .VIDIOC_QBUF]) id (queueBuffers drv fuel : Prog σ _) := by
  unfold queueBuffers
  exact Keeps.bind Keeps.getDev fun d =>
    Keeps.forRange (fun i => queueBuffer_keeps drv fuel i) 0 d._num_buffers

theorem copyDeviceName_keeps (drv : Driver) (p : c920_parameters_t σ) :
    Keeps (OfKinds [.malloc]) (fun d => (d._playing, d._fd, d._num_buffers, d._buffers, d._c920_parameters))
      (copyDeviceName drv p : Prog σ _) := by
  unfold copyDeviceName
  repeat' first
    | exact Keeps.pure _
    | exact Keeps.throwIf _ _
    | exact Keeps.throwEx _
    | exact Keeps.failWith _
    | exact Keeps.getDev
    | exact Keeps.getSys
    | intro _
    | apply Keeps.bind
    | apply Keeps.ite
    | (apply Keeps.syscall; intro r; simp [OfKinds, Call.kind])
    | (apply Keeps.ioctl_ex; intro r; simp [OfKinds, Call.kind])
    | (apply Keeps.modifyDev; intro d; rfl)

theorem set_bitrate_keeps (drv : Driver) (fuel : Nat) (bmin : Int) :
    Keeps (OfKinds [.ioctl .UVCIOC_CTRL_QUERY]) id
      (set_bitrate drv fuel bmin : Prog σ _) := by
  unfold set_bitrate
  repeat' first
    | exact Keeps.pure _
    | exact Keeps.throwIf _ _
    | exact Keeps.throwEx _
    | exact Keeps.failWith _
    | exact Keeps.getDev
    | exact Keeps.getSys
    | intro _
    | apply Keeps.bind
    | apply Keeps.ite
    | (apply Keeps.syscall; intro r; simp [OfKinds, Call.kind])
    | (apply Keeps.ioctl_ex; intro r; simp [OfKinds, Call.kind])
    | (apply Keeps.modifyDev; intro d; rfl)

theorem OfKinds.weaken {ks ks' : List Kind} (h : ∀ k ∈ ks, k ∈ ks') (e : Event) :
    OfKinds ks e → OfKinds ks' e := fun he => h _ he

/-- After its first statement the constructor only makes calls of `newKinds`,
and changes neither `_playing` nor `_c920_parameters`, nor the sink. -/
theorem new_kept (drv : Driver) (fuel : Nat) (p : c920_parameters_t σ) (s : Sys σ) :
    Kept (OfKinds newKinds) (fun d => (d._playing, d._c920_parameters))
      { s with dev := { s.dev with _device_name := none, _playing := false,
                                   _c920_parameters := p } }
      (c920_device_t.new drv fuel p s).2 := by
  unfold c920_device_t.new
  rw [run_bind, run_modifyDev]
  dsimp only
  refine (?_ : Keeps _ _ _) _
  refine Keeps.bind ((identifyDevice_keeps drv p).mono (OfKinds.weaken (by decide)) ?_) fun _ => ?_
  · intro d d' h; cases h; rfl
  refine Keeps.bind ((openDevice_keeps drv p).mono (OfKinds.weaken (by decide)) ?_) fun _ => ?_
  · intro d d' h; simp only [Prod.mk.injEq] at h ⊢; exact ⟨h.1, h.2.2.2⟩
  refine Keeps.bind ((queryCapabilities_keeps drv fuel).mono (OfKinds.weaken (by decide)) ?_) fun _ => ?_
  · intro d d' h; cases h; rfl
  refine Keeps.bind ((setCrop_keeps drv fuel).mono (OfKinds.weaken (by decide)) ?_) fun _ => ?_
  · intro d d' h; cases h; rfl
  refine Keeps.bind ((setFormat_keeps drv fuel p).mono (OfKinds.weaken (by decide)) ?_) fun _ => ?_
  · intro d d' h; cases h; rfl
  refine Keeps.bind ((setFrameRate_keeps drv fuel p).mono (OfKinds.weaken (by decide)) ?_) fun _ => ?_
  · intro d d' h; cases h; rfl
  refine Keeps.bind ((requestBuffers_keeps drv fuel).mono (OfKinds.weaken (by decide)) ?_) fun count => ?_
  · intro d d' h; cases h; rfl
  refine Keeps.bind ((allocateBuffers_keeps drv fuel count).mono (OfKinds.weaken (by decide)) ?_) fun _ => ?_
  · intro d d' h; simp only [Prod.mk.injEq] at h ⊢; exact ⟨h.1, h.2.2⟩
  refine Keeps.bind ((queueBuffers_keeps drv fuel).mono (OfKinds.weaken (by decide)) ?_) fun _ => ?_
  · intro d d' h; cases h; rfl
  refine (copyDeviceName_keeps drv p).mono (OfKinds.weaken (by decide)) ?_
  intro d d' h; simp only [Prod.mk.injEq] at h ⊢; exact ⟨h.1, h.2.2.2.2⟩

end Sections

/-! ## Construction and resources (C1) -/

section Construction

variable {σ : Type}

theorem foldl_stepFds_of_noRelease (evs : List Event) (fds : List Int)
    (h : ∀ e ∈ evs, e.call.isRelease = false) :
    evs.foldl stepFds fds = fds ++ openedFds evs := by
  induction evs generalizing fds with
  | nil => simp [openedFds]
  | cons e es ih =>
    have he := h e (List.mem_cons_self _ _)
    have hes : ∀ x ∈ es, x.call.isRelease = false := fun x hx => h x (List.mem_cons_of_mem _ hx)
    rw [List.foldl_cons, ih _ hes]
    rcases e with ⟨c, r⟩
    cases c <;> simp_all [stepFds, openedFds, Call.isRelease, List.filterMap_cons] <;>
      split <;> simp_all

theorem foldl_stepMaps_of_noRelease (evs : List Event) (m : List (Int × Nat))
    (h : ∀ e ∈ evs, e.call.isRelease = false) :
    evs.foldl stepMaps m = m ++ (mappedBuffers evs).map fun b => (b.data, b.length) := by
  induction evs generalizing m with
  | nil => simp [mappedBuffers]
  | cons e es ih =>
    have he := h e (List.mem_cons_self _ _)
    have hes : ∀ x ∈ es, x.call.isRelease = false := fun x hx => h x (List.mem_cons_of_mem _ hx)
    rw [List.foldl_cons, ih _ hes]
    rcases e with ⟨c, r⟩
    cases c <;> simp_all [stepMaps, mappedBuffers, okMap, Call.isRelease, List.filterMap_cons] <;>
      split <;> simp_all

theorem newKinds_noRelease (e : Event) (h : OfKinds newKinds e) : e.call.isRelease = false := by
  rcases e with ⟨c, r⟩
  cases c <;> simp_all [OfKinds, newKinds, Call.kind, Call.isRelease]

/-- C1 (as amended): whatever the configuration, the driver and the way the
constructor ends, it issues no `close` and no `munmap`.  So when construction
fails after the device was opened, the handle it opened is still open and every
buffer it mapped is still mapped when the exception propagates: the open
handles are those from before plus each handle a successful `open` returned,
the mappings are those from before plus each region a successful `mmap`
returned. -/
theorem construction_releases_nothing (drv : Driver) (fuel : Nat)
    (p : c920_parameters_t σ) (s : Sys σ) :
    ∃ evs, (c920_device_t.new drv fuel p s).2.trace = s.trace ++ evs ∧
      (∀ e ∈ evs, e.call.isRelease = false) ∧
      openFds (c920_device_t.new drv fuel p s).2.trace = openFds s.trace ++ openedFds evs ∧
      liveMaps (c920_device_t.new drv fuel p s).2.trace =
        liveMaps s.trace ++ (mappedBuffers evs).map fun b => (b.data, b.length) := by
  obtain ⟨⟨evs, ht, hp⟩, -, -⟩ := new_kept drv fuel p s
  have hr : ∀ e ∈ evs, e.call.isRelease = false := fun e he => newKinds_noRelease e (hp e he)
  refine ⟨evs, ht, hr, ?_, ?_⟩
  · rw [ht, openFds, List.foldl_append, foldl_stepFds_of_noRelease _ _ hr]; rfl
  · rw [ht, liveMaps, List.foldl_append, foldl_stepMaps_of_noRelease _ _ hr]; rfl

/-- C1, counterexample: on a character device that is not a V4L2 device the
constructor opens handle 3, throws at the capability query, and handle 3 is
still open when the exception propagates. -/
theorem construction_failure_leaves_handle_open :
    (c920_device_t.new notV4L2Driver 1 exampleParams (rawSys exampleParams Statics.init)).1
        = .fail (.thrown ⟨.not_valid_v4l2, EINVAL⟩) ∧
      openFds (c920_device_t.new notV4L2Driver 1 exampleParams
        (rawSys exampleParams Statics.init)).2.trace = [3] := by
  decide

end Construction

/-! ## Runs of `ioctl_ex` -/

section IoctlRuns

variable {σ : Type}

theorem errnoAfter_append (n : Int) (evs : List Event) (e : Event) :
    errnoAfter n (evs ++ [e]) = if e.reply.ret = -1 then e.reply.err else errnoAfter n evs := by
  simp [errnoAfter, List.foldl_append]

theorem IoctlEvents.cons {c : Call} {evs : List Event} {res : Option Reply} (r : Reply)
    (hi : Interrupted ⟨c, r⟩) (h : IoctlEvents c evs res) : IoctlEvents c (⟨c, r⟩ :: evs) res := by
  cases h with
  | hang evs h =>
    refine IoctlEvents.hang _ ?_
    intro e he
    rcases List.mem_cons.mp he with rfl | he
    · exact ⟨rfl, hi⟩
    · exact h e he
  | done pre r' h hr =>
    rw [← List.cons_append]
    refine IoctlEvents.done _ r' ?_ hr
    intro e he
    rcases List.mem_cons.mp he with rfl | he
    · exact ⟨rfl, hi⟩
    · exact h e he

/-- A run of `ioctl_ex` appends to the history the attempts it made, sets
`errno` as they did, and changes nothing else; its result is the one of the
last attempt. -/
theorem ioctl_ex_run (drv : Driver) (fuel : Nat) (fh : Int) (request : Request) (arg : Arg)
    (s : Sys σ) :
    ∃ evs res, IoctlEvents (.ioctl fh request arg) evs res ∧
      ioctl_ex drv fuel fh request arg s =
        (ioctlResult arg res, afterIoctl s evs) ∧ (fuel ≠ 0 → evs ≠ []) := by
  induction fuel generalizing s with
  | zero =>
    refine ⟨[], none, IoctlEvents.hang _ (by simp), ?_, by simp⟩
    simp [ioctlResult, errnoAfter, afterIoctl]
  | succ n ih =>
    by_cases hc : (drv s.trace (.ioctl fh request arg)).ret = -1 ∧
        (drv s.trace (.ioctl fh request arg)).err = EINTR
    · rw [run_ioctl_ex_retry drv n fh request arg s hc.1 hc.2]
      obtain ⟨evs, res, he, hrun, -⟩ := ih
        { s with trace := s.trace ++ [⟨.ioctl fh request arg, drv s.trace (.ioctl fh request arg)⟩],
                 errno := EINTR }
      refine ⟨⟨.ioctl fh request arg, drv s.trace (.ioctl fh request arg)⟩ :: evs, res,
        IoctlEvents.cons _ hc he, ?_, by simp⟩
      rw [hrun]
      simp [errnoAfter, afterIoctl, hc.1, hc.2]
    · rw [run_ioctl_ex_done drv n fh request arg s hc]
      refine ⟨[⟨.ioctl fh request arg, drv s.trace (.ioctl fh request arg)⟩], some _,
        IoctlEvents.done [] _ (by simp) hc, ?_, by simp⟩
      simp [ioctlResult, errnoAfter, afterIoctl]

end IoctlRuns

/-! ## Runs of `process()` -/

section ProcessRuns

variable {σ : Type}

theorem process_select_failed (drv : Driver) (fuel : Nat) (s : Sys σ)
    (h : (drv s.trace (selectCall s.dev)).ret = -1) :
    process drv fuel s =
      (if (drv s.trace (selectCall s.dev)).err = EINTR then .ok 1
       else .fail (.thrown ⟨.could_not_select, (drv s.trace (selectCall s.dev)).err⟩),
       afterCall s (selectCall s.dev) (drv s.trace (selectCall s.dev))) := by
  unfold selectCall at h ⊢
  unfold process afterCall
  simp only [run_bind, run_getDev, run_syscall, run_getSys, h, if_true]
  split <;> simp_all

theorem process_select_timeout (drv : Driver) (fuel : Nat) (s : Sys σ)
    (h : (drv s.trace (selectCall s.dev)).ret = 0) :
    process drv fuel s =
      (.fail (.thrown ⟨.timeout, s.errno⟩),
       afterCall s (selectCall s.dev) (drv s.trace (selectCall s.dev))) := by
  unfold selectCall at h ⊢
  unfold process afterCall
  simp [run_bind, run_getDev, run_syscall, run_getSys, h]


theorem errnoAfter_done (n : Int) (pre : List Event) (c : Call) (r : Reply) (h : r.ret = -1) :
    errnoAfter n (pre ++ [⟨c, r⟩]) = r.err := by
  rw [errnoAfter_append]; simp [h]

theorem run_invokeSink (d : c920_device_t σ) (s : Sys σ) (buffer : Arg) :
    invokeSink d buffer s = (.ok (sinkResult d buffer s.sink).1, afterSink d s buffer) := by
  unfold invokeSink afterSink sinkEvents sinkResult sinkData
  cases h : d._c920_parameters.cb with
  | none => simp
  | some cb => simp [callSink]

/-- The function `process()` after a `select` that reports data, step by step
on the state. -/
theorem process_unfold (drv : Driver) (fuel : Nat) (s : Sys σ)
    (h1 : (drv s.trace (selectCall s.dev)).ret ≠ -1)
    (h0 : (drv s.trace (selectCall s.dev)).ret ≠ 0) :
    process drv fuel s =
        match ioctl_ex drv fuel s.dev._fd .VIDIOC_DQBUF
            { type := V4L2_BUF_TYPE_VIDEO_CAPTURE, memory := V4L2_MEMORY_MMAP }
            (afterCall s (selectCall s.dev) (drv s.trace (selectCall s.dev))) with
        | (.fail e, s2) => (.fail e, s2)
        | (.ok dq, s2) =>
          if dq.1 = -1 then
            (if s2.errno = EAGAIN then .ok 1 else .fail (.thrown ⟨.error_dqbuf, s2.errno⟩), s2)
          else if u32 dq.2.index < s.dev._num_buffers then
            match ioctl_ex drv fuel s.dev._fd .VIDIOC_QBUF dq.2 (afterSink s.dev s2 dq.2) with
            | (.fail e, s4) => (.fail e, s4)
            | (.ok q, s4) =>
              if q.1 = -1 then (.fail (.thrown ⟨.error_qbuf, s4.errno⟩), s4)
              else (.ok (sinkResult s.dev dq.2 s2.sink).1, s4)
          else (.fail .assert_failed, s2) := by
  have hs : (syscall drv (selectCall s.dev) : Prog σ Reply) s =
      (.ok (drv s.trace (selectCall s.dev)),
       afterCall s (selectCall s.dev) (drv s.trace (selectCall s.dev))) := rfl
  unfold process
  simp only [run_bind, run_getDev, run_getSys]
  rw [show Call.select (s.dev._fd + 1) s.dev._fd 2 = selectCall s.dev from rfl, hs]
  simp only [h1, h0, if_false, run_bind, run_getSys]
  generalize ioctl_ex drv fuel s.dev._fd .VIDIOC_DQBUF
      { type := V4L2_BUF_TYPE_VIDEO_CAPTURE, memory := V4L2_MEMORY_MMAP }
      (afterCall s (selectCall s.dev) (drv s.trace (selectCall s.dev))) = res
  rcases res with ⟨o, s2⟩
  cases o with
  | fail e => rfl
  | ok dq =>
    simp only
    by_cases hd : dq.1 = -1
    · simp only [hd, if_true]
      split <;> simp_all
    · simp only [hd, if_false]
      by_cases hi : u32 dq.2.index < s.dev._num_buffers
      · simp only [hi, if_true, run_pure, run_bind]
        rw [run_invokeSink]
        simp only
        generalize ioctl_ex drv fuel s.dev._fd .VIDIOC_QBUF dq.2 (afterSink s.dev s2 dq.2) = res
        rcases res with ⟨o, s4⟩
        cases o with
        | fail e => rfl
        | ok q =>
          simp only [run_throwIf]
          by_cases hq : q.1 = -1
          · simp [hq]
          · simp [hq]
      · simp [hi]

/-- The run of `process()` when `select` reports data: the outcome and the
state, from how the attempts to dequeue and to queue again ended. -/
theorem process_dequeue (drv : Driver) (fuel : Nat) (s : Sys σ)
    (h1 : (drv s.trace (selectCall s.dev)).ret ≠ -1)
    (h0 : (drv s.trace (selectCall s.dev)).ret ≠ 0) :
    ∃ dqevs dqres, IoctlEvents (dqbufCall s.dev) dqevs dqres ∧
      match dqres with
      | none =>
        process drv fuel s = (.fail .hang,
          afterIoctl (afterCall s (selectCall s.dev) (drv s.trace (selectCall s.dev))) dqevs)
      | some r =>
        if r.ret = -1 then
          process drv fuel s =
            (if r.err = EAGAIN then .ok 1 else .fail (.thrown ⟨.error_dqbuf, r.err⟩),
             afterIoctl (afterCall s (selectCall s.dev) (drv s.trace (selectCall s.dev))) dqevs)
        else if u32 r.arg.index < s.dev._num_buffers then
          ∃ qevs qres, IoctlEvents (.ioctl s.dev._fd .VIDIOC_QBUF r.arg) qevs qres ∧
            qevs ≠ [] ∧ process drv fuel s =
              (match qres with
               | none => .fail .hang
               | some q =>
                 if q.ret = -1 then .fail (.thrown ⟨.error_qbuf, q.err⟩)
                 else .ok (sinkResult s.dev r.arg s.sink).1,
               afterIoctl (afterSink s.dev (afterIoctl (afterCall s (selectCall s.dev)
                 (drv s.trace (selectCall s.dev))) dqevs) r.arg) qevs)
        else
          process drv fuel s = (.fail .assert_failed,
            afterIoctl (afterCall s (selectCall s.dev) (drv s.trace (selectCall s.dev))) dqevs) := by
  obtain ⟨dqevs, dqres, hev, hrun, -⟩ := ioctl_ex_run drv fuel s.dev._fd .VIDIOC_DQBUF
    { type := V4L2_BUF_TYPE_VIDEO_CAPTURE, memory := V4L2_MEMORY_MMAP }
    (afterCall s (selectCall s.dev) (drv s.trace (selectCall s.dev)))
  refine ⟨dqevs, dqres, hev, ?_⟩
  have hfuel : dqres ≠ none → fuel ≠ 0 := by
    intro hres hf
    subst hf
    rw [run_ioctl_ex_zero] at hrun
    cases dqres with
    | none => exact hres rfl
    | some r => simp [ioctlResult] at hrun
  rw [process_unfold drv fuel s h1 h0, hrun]
  clear hrun
  cases hev with
  | hang evs h => simp [ioctlResult]
  | done pre r h hr =>
    simp only [ioctlResult]
    by_cases hd : r.ret = -1
    · simp only [hd, if_true]
      have he : ∀ (t : Sys σ) (c : Call), (afterIoctl t (pre ++ [⟨c, r⟩])).errno = r.err :=
        fun t c => errnoAfter_done _ _ _ _ hd
      by_cases ha : r.err = EAGAIN
      · simp [he, ha]
      · simp [he, ha]
    · simp only [hd, if_false]
      by_cases hi : u32 r.arg.index < s.dev._num_buffers
      · simp only [hi, if_true]
        obtain ⟨qevs, qres, hqev, hqrun, hqne⟩ := ioctl_ex_run drv fuel s.dev._fd .VIDIOC_QBUF r.arg
          (afterSink s.dev (afterIoctl (afterCall s (selectCall s.dev)
            (drv s.trace (selectCall s.dev))) (pre ++ [⟨_, r⟩])) r.arg)
        refine ⟨qevs, qres, hqev, hqne (hfuel (by simp)), ?_⟩
        rw [hqrun]
        cases hqev with
        | hang evs h => simp [ioctlResult]
        | done qpre q hq hqr =>
          simp only [ioctlResult]
          by_cases hq1 : q.ret = -1
          · have he : ∀ (t : Sys σ) (c : Call), (afterIoctl t (qpre ++ [⟨c, q⟩])).errno = q.err :=
              fun t c => errnoAfter_done _ _ _ _ hq1
            simp [hq1, he]
          · simp [hq1]
            rfl
      · simp [hi]

end ProcessRuns

section ProcessShape

variable {σ : Type}

/-- Every run of `process()` is one of the runs of `ProcessRun`; it leaves the
device object as it was. -/
theorem process_run (drv : Driver) (fuel : Nat) (s : Sys σ) :
    ∃ evs, ProcessRun s.dev s.sink s.errno (process drv fuel s).1 evs (process drv fuel s).2.sink ∧
      (process drv fuel s).2.trace = s.trace ++ evs ∧ (process drv fuel s).2.dev = s.dev := by
  by_cases h1 : (drv s.trace (selectCall s.dev)).ret = -1
  · rw [process_select_failed drv fuel s h1]
    by_cases h : (drv s.trace (selectCall s.dev)).err = EINTR
    · rw [if_pos h]
      exact ⟨_, ProcessRun.interrupted _ h1 h, rfl, rfl⟩
    · rw [if_neg h]
      exact ⟨_, ProcessRun.select_failed _ h1 h, rfl, rfl⟩
  by_cases h0 : (drv s.trace (selectCall s.dev)).ret = 0
  · rw [process_select_timeout drv fuel s h0]
    exact ⟨_, ProcessRun.timeout _ h0, rfl, rfl⟩
  obtain ⟨dq, dqres, hdq, h⟩ := process_dequeue drv fuel s h1 h0
  cases dqres with
  | none =>
    simp only at h
    rw [h]
    exact ⟨_, ProcessRun.dequeue_hang _ h1 h0 dq hdq, by simp [afterIoctl, afterCall], rfl⟩
  | some x =>
    simp only at h
    by_cases hx : x.ret = -1
    · rw [if_pos hx] at h
      rw [h]
      exact ⟨_, ProcessRun.dequeue_failed _ h1 h0 dq x hdq hx, by simp [afterIoctl, afterCall], rfl⟩
    · rw [if_neg hx] at h
      by_cases hi : u32 x.arg.index < s.dev._num_buffers
      · rw [if_pos hi] at h
        obtain ⟨q, qres, hq, hne, h⟩ := h
        rw [h]
        cases qres with
        | none =>
          exact ⟨_, ProcessRun.queue_hang _ h1 h0 dq x hdq hx hi q hq hne,
            by simp [afterIoctl, afterCall, afterSink], rfl⟩
        | some y =>
          by_cases hy : y.ret = -1
          · simp only [hy, if_true]
            exact ⟨_, ProcessRun.queue_failed _ h1 h0 dq x hdq hx hi q y hq hy,
              by simp [afterIoctl, afterCall, afterSink], rfl⟩
          · simp only [hy, if_false]
            exact ⟨_, ProcessRun.done _ h1 h0 dq x hdq hx hi q y hq hy,
              by simp [afterIoctl, afterCall, afterSink], rfl⟩
      · rw [if_neg hi] at h
        rw [h]
        exact ⟨_, ProcessRun.out_of_range _ h1 h0 dq x hdq hx hi, by simp [afterIoctl, afterCall], rfl⟩

end ProcessShape

/-! ## The readiness wait of `process()` (C6) -/

section Wait

variable {σ : Type}

/-- C6: whatever the state of the device, when the 2-second `select` of
`process()` returns 0 (timeout) `process()` throws the timeout exception, and
when it returns -1 with `EINTR` (interrupted) `process()` returns 1; in both
cases the only call made is the `select` itself, so nothing is dequeued, the
sink is not called and nothing is queued, and the device object and the sink
are left as they were. -/
theorem process_wait_timeout_or_interrupted (drv : Driver) (fuel : Nat) (s : Sys σ)
    (h : (drv s.trace (.select (s.dev._fd + 1) s.dev._fd 2)).ret = 0 ∨
      ((drv s.trace (.select (s.dev._fd + 1) s.dev._fd 2)).ret = -1 ∧
       (drv s.trace (.select (s.dev._fd + 1) s.dev._fd 2)).err = EINTR)) :
    (process drv fuel s).1 =
        (if (drv s.trace (.select (s.dev._fd + 1) s.dev._fd 2)).ret = 0
          then .fail (.thrown ⟨.timeout, s.errno⟩) else .ok 1) ∧
      (process drv fuel s).2.trace =
        s.trace ++ [⟨.select (s.dev._fd + 1) s.dev._fd 2,
                     drv s.trace (.select (s.dev._fd + 1) s.dev._fd 2)⟩] ∧
      (process drv fuel s).2.dev = s.dev ∧ (process drv fuel s).2.sink = s.sink := by
  rcases h with h0 | ⟨h1, he⟩
  · have h0' : (drv s.trace (selectCall s.dev)).ret = 0 := h0
    rw [process_select_timeout drv fuel s h0', if_pos h0]
    exact ⟨rfl, rfl, rfl, rfl⟩
  · have h1' : (drv s.trace (selectCall s.dev)).ret = -1 := h1
    have he' : (drv s.trace (selectCall s.dev)).err = EINTR := he
    have hn : ¬ (drv s.trace (.select (s.dev._fd + 1) s.dev._fd 2)).ret = 0 := by
      rw [h1]; decide
    rw [process_select_failed drv fuel s h1', if_pos he', if_neg hn]
    exact ⟨rfl, rfl, rfl, rfl⟩

/-- C6, witness: a timeout on `idleDriver` and an interrupted wait on
`interruptDriver`, both on the streaming device `streamingSys`. -/
theorem process_wait_timeout_or_interrupted_witness :
    ((process idleDriver 1 streamingSys).1 = .fail (.thrown ⟨.timeout, 0⟩) ∧
      (process idleDriver 1 streamingSys).2.trace = [⟨.select 4 3 2, {}⟩]) ∧
    ((process interruptDriver 1 streamingSys).1 = .ok 1 ∧
      (process interruptDriver 1 streamingSys).2.trace =
        [⟨.select 4 3 2, { ret := -1, err := EINTR }⟩]) :=
  ⟨⟨(process_wait_timeout_or_interrupted idleDriver 1 streamingSys (Or.inl rfl)).1,
    (process_wait_timeout_or_interrupted idleDriver 1 streamingSys (Or.inl rfl)).2.1⟩,
   ⟨(process_wait_timeout_or_interrupted interruptDriver 1 streamingSys (Or.inr ⟨rfl, rfl⟩)).1,
    (process_wait_timeout_or_interrupted interruptDriver 1 streamingSys (Or.inr ⟨rfl, rfl⟩)).2.1⟩⟩

end Wait

/-! ## Facts about the attempts of `ioctl_ex` and about claimed buffers -/

section Attempts

variable {σ : Type}

theorem IoctlEvents.call_eq {c : Call} {evs : List Event} {res : Option Reply}
    (h : IoctlEvents c evs res) : ∀ e ∈ evs, e.call = c := by
  cases h with
  | hang evs h => exact fun e he => (h e he).1
  | done pre r h hr =>
    intro e he
    rcases List.mem_append.mp he with he | he
    · exact (h e he).1
    · rw [List.mem_singleton.mp he]

theorem IoctlEvents.interrupted_of_none {c : Call} {evs : List Event}
    (h : IoctlEvents c evs none) : ∀ e ∈ evs, Interrupted e := by
  cases h with
  | hang evs h => exact fun e he => (h e he).2

theorem IoctlEvents.split_of_some {c : Call} {evs : List Event} {r : Reply}
    (h : IoctlEvents c evs (some r)) :
    ∃ pre, evs = pre ++ [⟨c, r⟩] ∧ (∀ e ∈ pre, e.call = c ∧ Interrupted e) ∧
      ¬ Interrupted ⟨c, r⟩ := by
  cases h with
  | done pre r h hr => exact ⟨pre, rfl, h, hr⟩

theorem IoctlEvents.reply_of_not_interrupted {c : Call} {evs : List Event} {res : Option Reply}
    (h : IoctlEvents c evs res) (e : Event) (he : e ∈ evs) (hn : ¬ Interrupted e) :
    res = some e.reply := by
  cases h with
  | hang evs h => exact absurd (h e he).2 hn
  | done pre r h hr =>
    rcases List.mem_append.mp he with he | he
    · exact absurd (h e he).2 hn
    · rw [List.mem_singleton.mp he]

theorem IoctlEvents.ret_of_mem {c : Call} {evs : List Event} {r : Reply}
    (h : IoctlEvents c evs (some r)) (hr : r.ret = -1) : ∀ e ∈ evs, e.reply.ret = -1 := by
  obtain ⟨pre, rfl, hp, -⟩ := h.split_of_some
  intro e he
  rcases List.mem_append.mp he with he | he
  · exact (hp e he).2.1
  · rw [List.mem_singleton.mp he]; exact hr

/-- Events that neither claim nor give back a buffer leave the claimed buffers
as they are. -/
theorem claimed_of_inert (evs : List Event) (c : List Nat)
    (h : ∀ e ∈ evs, ∀ c, stepClaimed c e = c) : claimed c evs = c := by
  induction evs generalizing c with
  | nil => rfl
  | cons e es ih =>
    rw [claimed, List.foldl_cons, h e (List.mem_cons_self _ _)]
    exact ih c fun x hx => h x (List.mem_cons_of_mem _ hx)

theorem stepClaimed_of_failed (e : Event) (h : e.reply.ret = -1) (c : List Nat) :
    stepClaimed c e = c := by
  rcases e with ⟨call, r⟩
  cases call <;> simp only [stepClaimed]
  rename_i fd request arg
  cases request <;> simp_all

theorem stepClaimed_select {σ : Type} (d : c920_device_t σ) (r : Reply) (c : List Nat) :
    stepClaimed c ⟨selectCall d, r⟩ = c := rfl

theorem stepClaimed_sinkEvents {σ : Type} (d : c920_device_t σ) (buffer : Arg) (k : σ) :
    ∀ e ∈ sinkEvents d buffer k, ∀ c, stepClaimed c e = c := by
  intro e he c
  unfold sinkEvents at he
  cases hcb : d._c920_parameters.cb with
  | none => simp [hcb] at he
  | some cb =>
    simp only [hcb, List.mem_singleton] at he
    rw [he]; rfl

end Attempts

/-! ## A failing dequeue (C5) -/

section DequeueFailure

variable {σ : Type}

theorem not_dqbuf_of_select {σ : Type} (d : c920_device_t σ) (r : Reply) (e : Event)
    (he : e = ⟨selectCall d, r⟩) : e.call.isRequest .VIDIOC_DQBUF = false := by
  rw [he]; rfl

theorem not_dqbuf_of_sinkEvents {σ : Type} (d : c920_device_t σ) (buffer : Arg) (k : σ)
    (e : Event) (he : e ∈ sinkEvents d buffer k) : e.call.isIoctl = false := by
  unfold sinkEvents at he
  cases hcb : d._c920_parameters.cb with
  | none => simp [hcb] at he
  | some cb =>
    simp only [hcb, List.mem_singleton] at he
    rw [he]; rfl

/-- C5: whatever the state of the device, when a run of `process()` contains a
`VIDIOC_DQBUF` attempt that failed with an error other than `EINTR` (so the
readiness wait had succeeded), then `process()` returns 1 if the error is
`EAGAIN` and throws the dequeue exception for any other error; in both cases
the run calls no sink and issues no `VIDIOC_QBUF`, and it leaves the sink, the
device object and the set of claimed buffers as they were. -/
theorem process_dequeue_failure (drv : Driver) (fuel : Nat) (s : Sys σ) (evs : List Event)
    (ht : (process drv fuel s).2.trace = s.trace ++ evs) (e : Event) (he : e ∈ evs)
    (hc : e.call.isRequest .VIDIOC_DQBUF = true) (hr : e.reply.ret = -1)
    (hn : e.reply.err ≠ EINTR) :
    (process drv fuel s).1 =
        (if e.reply.err = EAGAIN then .ok 1
         else .fail (.thrown ⟨.error_dqbuf, e.reply.err⟩)) ∧
      (∀ x ∈ evs, x.call.isCallback = false ∧ x.call.isRequest .VIDIOC_QBUF = false) ∧
      (process drv fuel s).2.sink = s.sink ∧ (process drv fuel s).2.dev = s.dev ∧
      ∀ c, claimed c evs = c := by
  obtain ⟨evs', hrun, ht', hd⟩ := process_run drv fuel s
  have hevs : evs = evs' := List.append_cancel_left (ht.symm.trans ht')
  subst hevs
  have hni : ¬ Interrupted e := fun h => hn h.2
  have hcf : e.call.isRequest .VIDIOC_DQBUF ≠ false := by rw [hc]; decide
  revert hrun
  generalize (process drv fuel s).1 = o
  generalize (process drv fuel s).2.sink = k'
  intro hrun
  cases hrun with
  | interrupted r h1 h =>
    exact absurd (not_dqbuf_of_select _ _ _ (List.mem_singleton.mp he)) hcf
  | select_failed r h1 h =>
    exact absurd (not_dqbuf_of_select _ _ _ (List.mem_singleton.mp he)) hcf
  | timeout r h0 =>
    exact absurd (not_dqbuf_of_select _ _ _ (List.mem_singleton.mp he)) hcf
  | dequeue_hang r h1 h0 dq hdq =>
    rcases List.mem_cons.mp he with he | he
    · exact absurd (not_dqbuf_of_select _ _ _ he) hcf
    · exact absurd (hdq.interrupted_of_none e he) hni
  | dequeue_failed r h1 h0 dq x hdq hx =>
    rcases List.mem_cons.mp he with he | he
    · exact absurd (not_dqbuf_of_select _ _ _ he) hcf
    · have hxe : x = e.reply := Option.some.inj (hdq.reply_of_not_interrupted e he hni)
      subst hxe
      refine ⟨rfl, ?_, rfl, hd, ?_⟩
      · intro y hy
        rcases List.mem_cons.mp hy with hy | hy
        · rw [hy]; exact ⟨rfl, rfl⟩
        · rw [hdq.call_eq y hy]; exact ⟨rfl, rfl⟩
      · intro c
        refine claimed_of_inert _ _ ?_
        intro y hy c
        rcases List.mem_cons.mp hy with hy | hy
        · rw [hy]; rfl
        · exact stepClaimed_of_failed y (hdq.ret_of_mem hx y hy) c
  | out_of_range r h1 h0 dq x hdq hx hi =>
    rcases List.mem_cons.mp he with he | he
    · exact absurd (not_dqbuf_of_select _ _ _ he) hcf
    · have hxe : x = e.reply := Option.some.inj (hdq.reply_of_not_interrupted e he hni)
      exact absurd (hxe ▸ hr) hx
  | queue_hang r h1 h0 dq x hdq hx hi q hq hne =>
    rcases List.mem_cons.mp he with he | he
    · exact absurd (not_dqbuf_of_select _ _ _ he) hcf
    rcases List.mem_append.mp he with he | he
    · have hxe : x = e.reply := Option.some.inj (hdq.reply_of_not_interrupted e he hni)
      exact absurd (hxe ▸ hr) hx
    rcases List.mem_append.mp he with he | he
    · have := not_dqbuf_of_sinkEvents _ _ _ e he
      rcases e with ⟨call, rep⟩
      cases call <;> simp_all [Call.isRequest, Call.isIoctl]
    · have := hq.call_eq e he
      rw [this] at hc
      simp [qbufCall, Call.isRequest] at hc
  | queue_failed r h1 h0 dq x hdq hx hi q y hq hy =>
    rcases List.mem_cons.mp he with he | he
    · exact absurd (not_dqbuf_of_select _ _ _ he) hcf
    rcases List.mem_append.mp he with he | he
    · have hxe : x = e.reply := Option.some.inj (hdq.reply_of_not_interrupted e he hni)
      exact absurd (hxe ▸ hr) hx
    rcases List.mem_append.mp he with he | he
    · have := not_dqbuf_of_sinkEvents _ _ _ e he
      rcases e with ⟨call, rep⟩
      cases call <;> simp_all [Call.isRequest, Call.isIoctl]
    · have := hq.call_eq e he
      rw [this] at hc
      simp [qbufCall, Call.isRequest] at hc
  | done r h1 h0 dq x hdq hx hi q y hq hy =>
    rcases List.mem_cons.mp he with he | he
    · exact absurd (not_dqbuf_of_select _ _ _ he) hcf
    rcases List.mem_append.mp he with he | he
    · have hxe : x = e.reply := Option.some.inj (hdq.reply_of_not_interrupted e he hni)
      exact absurd (hxe ▸ hr) hx
    rcases List.mem_append.mp he with he | he
    · have := not_dqbuf_of_sinkEvents _ _ _ e he
      rcases e with ⟨call, rep⟩
      cases call <;> simp_all [Call.isRequest, Call.isIoctl]
    · have := hq.call_eq e he
      rw [this] at hc
      simp [qbufCall, Call.isRequest] at hc


/-- C5, witness: on `againDriver` the dequeue of the streaming device fails with
`EAGAIN` and `process()` returns 1 after the `select` and that one attempt; on
`brokenDriver` it fails with `EINVAL` and `process()` throws. -/
theorem process_dequeue_failure_witness :
    ((process againDriver 1 streamingSys).2.trace =
        streamingSys.trace ++
          [⟨.select 4 3 2, { ret := 1 }⟩,
           ⟨dqbufCall streamingSys.dev, { ret := -1, err := EAGAIN }⟩] ∧
      (process againDriver 1 streamingSys).1 = .ok 1 ∧
      (process againDriver 1 streamingSys).2.sink = streamingSys.sink) ∧
    ((process brokenDriver 1 streamingSys).2.trace =
        streamingSys.trace ++
          [⟨.select 4 3 2, { ret := 1 }⟩,
           ⟨dqbufCall streamingSys.dev, { ret := -1, err := EINVAL }⟩] ∧
      (process brokenDriver 1 streamingSys).1 = .fail (.thrown ⟨.error_dqbuf, EINVAL⟩)) := by
  have h1 : (process againDriver 1 streamingSys).2.trace =
      streamingSys.trace ++
        [⟨.select 4 3 2, { ret := 1 }⟩,
         ⟨dqbufCall streamingSys.dev, { ret := -1, err := EAGAIN }⟩] := by decide
  have h2 : (process brokenDriver 1 streamingSys).2.trace =
      streamingSys.trace ++
        [⟨.select 4 3 2, { ret := 1 }⟩,
         ⟨dqbufCall streamingSys.dev, { ret := -1, err := EINVAL }⟩] := by decide
  have t1 := process_dequeue_failure againDriver 1 streamingSys _ h1
    ⟨dqbufCall streamingSys.dev, { ret := -1, err := EAGAIN }⟩ (by simp) rfl rfl (by decide)
  have t2 := process_dequeue_failure brokenDriver 1 streamingSys _ h2
    ⟨dqbufCall streamingSys.dev, { ret := -1, err := EINVAL }⟩ (by simp) rfl rfl (by decide)
  exact ⟨⟨h1, t1.1, t1.2.2.1⟩, ⟨h2, t2.1⟩⟩

end DequeueFailure

/-! ## The return value of `process()` (C2) -/

section ReturnValue

variable {σ : Type}

/-- In a run of `process()`, a `VIDIOC_DQBUF` event is one of the attempts to
dequeue. -/
theorem mem_dequeue_of_isRequest (d : c920_device_t σ) (r : Reply) (b : Arg)
    (dq sk qs : List Event) (hdq : ∀ x ∈ dq, x.call = dqbufCall d)
    (hsk : ∀ x ∈ sk, x.call.isIoctl = false) (hqs : ∀ x ∈ qs, x.call = qbufCall d b)
    (e : Event) (he : e ∈ (⟨selectCall d, r⟩ : Event) :: (dq ++ (sk ++ qs)))
    (hc : e.call.isRequest .VIDIOC_DQBUF = true) : e ∈ dq := by
  rcases List.mem_cons.mp he with he | he
  · rw [he] at hc; simp [selectCall, Call.isRequest] at hc
  rcases List.mem_append.mp he with he | he
  · exact he
  rcases List.mem_append.mp he with he | he
  · have := hsk e he
    rcases e with ⟨call, rep⟩
    cases call <;> simp_all [Call.isRequest, Call.isIoctl]
  · rw [hqs e he] at hc; simp [qbufCall, Call.isRequest] at hc

/-- In a run of `process()`, a `VIDIOC_QBUF` event is one of the attempts to
queue the buffer again. -/
theorem mem_queue_of_isRequest (d : c920_device_t σ) (r : Reply) (b : Arg)
    (dq sk qs : List Event) (hdq : ∀ x ∈ dq, x.call = dqbufCall d)
    (hsk : ∀ x ∈ sk, x.call.isIoctl = false) (hqs : ∀ x ∈ qs, x.call = qbufCall d b)
    (e : Event) (he : e ∈ (⟨selectCall d, r⟩ : Event) :: (dq ++ (sk ++ qs)))
    (hc : e.call.isRequest .VIDIOC_QBUF = true) : e ∈ qs := by
  rcases List.mem_cons.mp he with he | he
  · rw [he] at hc; simp [selectCall, Call.isRequest] at hc
  rcases List.mem_append.mp he with he | he
  · rw [hdq e he] at hc; simp [dqbufCall, Call.isRequest] at hc
  rcases List.mem_append.mp he with he | he
  · have := hsk e he
    rcases e with ⟨call, rep⟩
    cases call <;> simp_all [Call.isRequest, Call.isIoctl]
  · exact he

theorem not_interrupted_of_ret {e : Event} (h : e.reply.ret ≠ -1) : ¬ Interrupted e :=
  fun hi => h hi.1

/-- When a run of `process()` contains a successful dequeue and a successful
queue, it is the run `ProcessRun.done`: it returns what the sink returned for
the dequeued block. -/
theorem process_done (drv : Driver) (fuel : Nat) (s : Sys σ) (evs : List Event)
    (ht : (process drv fuel s).2.trace = s.trace ++ evs)
    (e : Event) (he : e ∈ evs) (hc : e.call.isRequest .VIDIOC_DQBUF = true)
    (hr : e.reply.ret ≠ -1)
    (q : Event) (hq : q ∈ evs) (hqc : q.call.isRequest .VIDIOC_QBUF = true)
    (hqr : q.reply.ret ≠ -1) :
    (process drv fuel s).1 = .ok (sinkResult s.dev e.reply.arg s.sink).1 ∧
      (process drv fuel s).2.sink = (sinkResult s.dev e.reply.arg s.sink).2 ∧
      u32 e.reply.arg.index < s.dev._num_buffers ∧
      ∃ r dq qs, evs = ⟨selectCall s.dev, r⟩ ::
          (dq ++ (sinkEvents s.dev e.reply.arg s.sink ++ qs)) ∧
        IoctlEvents (dqbufCall s.dev) dq (some e.reply) ∧
        IoctlEvents (qbufCall s.dev e.reply.arg) qs (some q.reply) := by
  obtain ⟨evs', hrun, ht', hd⟩ := process_run drv fuel s
  have hevs : evs = evs' := List.append_cancel_left (ht.symm.trans ht')
  subst hevs
  have hne : ¬ Interrupted e := not_interrupted_of_ret hr
  have hnq : ¬ Interrupted q := not_interrupted_of_ret hqr
  have hnil : ∀ x ∈ ([] : List Event), x.call.isIoctl = false := by simp
  have hnilq : ∀ b, ∀ x ∈ ([] : List Event), x.call = qbufCall s.dev b := by simp
  have hnild : ∀ x ∈ ([] : List Event), x.call = dqbufCall s.dev := by simp
  revert hrun
  generalize (process drv fuel s).1 = o
  generalize (process drv fuel s).2.sink = k'
  intro hrun
  cases hrun with
  | interrupted r h1 h =>
    have := mem_dequeue_of_isRequest s.dev r {} [] [] [] hnild hnil (hnilq _) e (by simpa using he) hc
    simp at this
  | select_failed r h1 h =>
    have := mem_dequeue_of_isRequest s.dev r {} [] [] [] hnild hnil (hnilq _) e (by simpa using he) hc
    simp at this
  | timeout r h0 =>
    have := mem_dequeue_of_isRequest s.dev r {} [] [] [] hnild hnil (hnilq _) e (by simpa using he) hc
    simp at this
  | dequeue_hang r h1 h0 dq hdq =>
    have := mem_dequeue_of_isRequest s.dev r {} dq [] [] hdq.call_eq hnil (hnilq _) e
      (by simpa using he) hc
    exact absurd (hdq.interrupted_of_none e this) hne
  | dequeue_failed r h1 h0 dq x hdq hx =>
    have := mem_dequeue_of_isRequest s.dev r {} dq [] [] hdq.call_eq hnil (hnilq _) e
      (by simpa using he) hc
    exact absurd (hdq.ret_of_mem hx e this) hr
  | out_of_range r h1 h0 dq x hdq hx hi =>
    have := mem_queue_of_isRequest s.dev r {} dq [] [] hdq.call_eq hnil (hnilq _) q
      (by simpa using hq) hqc
    simp at this
  | queue_hang r h1 h0 dq x hdq hx hi qs hqs hne =>
    have := mem_queue_of_isRequest s.dev r x.arg dq _ qs hdq.call_eq
      (not_dqbuf_of_sinkEvents _ _ _) hqs.call_eq q hq hqc
    exact absurd (hqs.interrupted_of_none q this) hnq
  | queue_failed r h1 h0 dq x hdq hx hi qs y hqs hy =>
    have := mem_queue_of_isRequest s.dev r x.arg dq _ qs hdq.call_eq
      (not_dqbuf_of_sinkEvents _ _ _) hqs.call_eq q hq hqc
    exact absurd (hqs.ret_of_mem hy q this) hqr
  | done r h1 h0 dq x hdq hx hi qs y hqs hy =>
    have hed := mem_dequeue_of_isRequest s.dev r x.arg dq _ qs hdq.call_eq
      (not_dqbuf_of_sinkEvents _ _ _) hqs.call_eq e he hc
    have hqq := mem_queue_of_isRequest s.dev r x.arg dq _ qs hdq.call_eq
      (not_dqbuf_of_sinkEvents _ _ _) hqs.call_eq q hq hqc
    have hxe : x = e.reply := Option.some.inj (hdq.reply_of_not_interrupted e hed hne)
    have hyq : y = q.reply := Option.some.inj (hqs.reply_of_not_interrupted q hqq hnq)
    subst hxe hyq
    exact ⟨rfl, rfl, hi, r, dq, qs, rfl, hdq, hqs⟩

theorem sinkReturns_of_not_callback (evs : List Event)
    (h : ∀ e ∈ evs, e.call.isCallback = false) : sinkReturns evs = [] := by
  unfold sinkReturns
  rw [List.filterMap_eq_nil_iff]
  intro e he
  have := h e he
  rcases e with ⟨call, rep⟩
  cases call <;> simp_all [Call.isCallback]

theorem sinkReturns_append (a b : List Event) :
    sinkReturns (a ++ b) = sinkReturns a ++ sinkReturns b := by
  simp [sinkReturns, List.filterMap_append]

theorem isCallback_of_call_eq {c : Call} (hc : c.isCallback = false) {evs : List Event}
    (h : ∀ e ∈ evs, e.call = c) : ∀ e ∈ evs, e.call.isCallback = false :=
  fun e he => by rw [h e he]; exact hc

/-- The sink returns recorded by a run of `process()` are those of the call of
the sink. -/
theorem sinkReturns_run (d : c920_device_t σ) (r : Reply) (b : Arg) (k : σ)
    (dq qs : List Event) (hdq : ∀ x ∈ dq, x.call = dqbufCall d)
    (hqs : ∀ x ∈ qs, x.call = qbufCall d b) :
    sinkReturns (⟨selectCall d, r⟩ :: (dq ++ (sinkEvents d b k ++ qs))) =
      sinkReturns (sinkEvents d b k) := by
  rw [← List.singleton_append, sinkReturns_append, sinkReturns_append, sinkReturns_append,
    sinkReturns_of_not_callback [_] (by simp [selectCall, Call.isCallback]),
    sinkReturns_of_not_callback dq (isCallback_of_call_eq (c := dqbufCall d) rfl hdq),
    sinkReturns_of_not_callback qs (isCallback_of_call_eq (c := qbufCall d b) rfl hqs)]
  simp

/-- C2 (as amended): whatever the configuration and the driver, when a run of
`process()` contains a successful `VIDIOC_DQBUF` and a successful
`VIDIOC_QBUF`, its return value is the return value of the frame sink, called
once on the dequeued buffer, when a sink is configured, and it is 0 (stop), not
1, when no sink is configured, in which case no sink call is recorded. -/
theorem process_returns_sink_value (drv : Driver) (fuel : Nat) (s : Sys σ) (evs : List Event)
    (ht : (process drv fuel s).2.trace = s.trace ++ evs)
    (e : Event) (he : e ∈ evs) (hc : e.call.isRequest .VIDIOC_DQBUF = true)
    (hr : e.reply.ret ≠ -1)
    (q : Event) (hq : q ∈ evs) (hqc : q.call.isRequest .VIDIOC_QBUF = true)
    (hqr : q.reply.ret ≠ -1) :
    match s.dev._c920_parameters.cb with
    | some cb =>
      (process drv fuel s).1 =
          .ok (cb (s.dev._buffers.getD (u32 e.reply.arg.index) ⟨0, 0⟩).data
            (u32 e.reply.arg.bytesused) s.dev._c920_parameters.toc920_values s.sink).1 ∧
        sinkReturns evs =
          [(cb (s.dev._buffers.getD (u32 e.reply.arg.index) ⟨0, 0⟩).data
            (u32 e.reply.arg.bytesused) s.dev._c920_parameters.toc920_values s.sink).1]
    | none => (process drv fuel s).1 = .ok 0 ∧ sinkReturns evs = [] := by
  obtain ⟨ho, -, -, r, dq, qs, hevs, hdq, hqs⟩ :=
    process_done drv fuel s evs ht e he hc hr q hq hqc hqr
  have hs := sinkReturns_run s.dev r e.reply.arg s.sink dq qs hdq.call_eq hqs.call_eq
  rw [← hevs] at hs
  rw [ho, hs]
  unfold sinkEvents sinkResult sinkData
  cases hcb : s.dev._c920_parameters.cb with
  | none => simp [sinkReturns]
  | some cb => simp [sinkReturns]

/-- C2, witness: on `frameDriver` the streaming device dequeues buffer 0, calls
`process_frame`, which returns 1, queues buffer 0 again, and returns 1. -/
theorem process_returns_sink_value_witness :
    (process frameDriver 1 streamingSys).1 = .ok 1 ∧
      sinkReturns (process frameDriver 1 streamingSys).2.trace = [1] := by
  have ht : (process frameDriver 1 streamingSys).2.trace = streamingSys.trace ++
      [⟨.select 4 3 2, { ret := 1 }⟩,
       ⟨dqbufCall streamingSys.dev,
        { arg := { type := 1, memory := 1, index := 0, bytesused := 100 } }⟩,
       ⟨.callback 4096 100, { ret := 1 }⟩,
       ⟨qbufCall streamingSys.dev { type := 1, memory := 1, index := 0, bytesused := 100 },
        { arg := { type := 1, memory := 1, index := 0, bytesused := 100 } }⟩] := by decide
  have t := process_returns_sink_value frameDriver 1 streamingSys _ ht
    ⟨dqbufCall streamingSys.dev,
      { arg := { type := 1, memory := 1, index := 0, bytesused := 100 } }⟩ (by simp) rfl
    (by decide)
    ⟨qbufCall streamingSys.dev { type := 1, memory := 1, index := 0, bytesused := 100 },
      { arg := { type := 1, memory := 1, index := 0, bytesused := 100 } }⟩ (by simp) rfl
    (by decide)
  rw [ht]
  exact ⟨t.1.trans (by decide), t.2.trans (by decide)⟩

/-- C2, counterexample: with no sink configured, on `frameDriver`, `process()`
dequeues buffer 0 and queues it again successfully, and returns 0, not 1. -/
theorem process_without_sink_returns_zero :
    noSinkSys.dev._c920_parameters.cb.isNone = true ∧
      (process frameDriver 1 noSinkSys).2.trace =
        [⟨.select 4 3 2, { ret := 1 }⟩,
         ⟨dqbufCall noSinkSys.dev,
          { arg := { type := 1, memory := 1, index := 0, bytesused := 100 } }⟩,
         ⟨qbufCall noSinkSys.dev { type := 1, memory := 1, index := 0, bytesused := 100 },
          { arg := { type := 1, memory := 1, index := 0, bytesused := 100 } }⟩] ∧
      (process frameDriver 1 noSinkSys).1 = .ok 0 ∧
      (process frameDriver 1 noSinkSys).1 ≠ .ok 1 := by
  decide

end ReturnValue

/-! ## Buffer ownership in `process()` (C4) -/

section Ownership

variable {σ : Type}

theorem claimed_append (c : List Nat) (a b : List Event) :
    claimed c (a ++ b) = claimed (claimed c a) b := by
  simp [claimed, List.foldl_append]

theorem claimed_of_failed (c : List Nat) (evs : List Event)
    (h : ∀ e ∈ evs, e.reply.ret = -1) : claimed c evs = c :=
  claimed_of_inert evs c fun e he c => stepClaimed_of_failed e (h e he) c

theorem claimed_of_interrupted (c : List Nat) (evs : List Event)
    (h : ∀ e ∈ evs, Interrupted e) : claimed c evs = c :=
  claimed_of_failed c evs fun e he => (h e he).1

/-- The attempts of a successful dequeue claim the buffer the driver named. -/
theorem claimed_dequeue (d : c920_device_t σ) (dq : List Event) (x : Reply)
    (h : IoctlEvents (dqbufCall d) dq (some x)) (hx : x.ret ≠ -1) (c : List Nat) :
    claimed c dq = c ++ [u32 x.arg.index] := by
  obtain ⟨pre, rfl, hp, -⟩ := h.split_of_some
  rw [claimed_append, claimed_of_interrupted c pre fun e he => (hp e he).2]
  simp [claimed, stepClaimed, dqbufCall, hx]

/-- The attempts of a successful queue give the buffer of the block back. -/
theorem claimed_queue (d : c920_device_t σ) (b : Arg) (qs : List Event) (y : Reply)
    (h : IoctlEvents (qbufCall d b) qs (some y)) (hy : y.ret ≠ -1) (c : List Nat) :
    claimed c qs = c.erase (u32 b.index) := by
  obtain ⟨pre, rfl, hp, -⟩ := h.split_of_some
  rw [claimed_append, claimed_of_interrupted c pre fun e he => (hp e he).2]
  simp [claimed, stepClaimed, qbufCall, hy]

theorem claimed_sinkEvents (d : c920_device_t σ) (b : Arg) (k : σ) (c : List Nat) :
    claimed c (sinkEvents d b k) = c :=
  claimed_of_inert _ c (stepClaimed_sinkEvents d b k)

theorem claimed_select (d : c920_device_t σ) (r : Reply) (c : List Nat) (evs : List Event) :
    claimed c (⟨selectCall d, r⟩ :: evs) = claimed c evs := rfl

/-- The claimed buffers grow by at most one per successful dequeue. -/
theorem claimed_length_le (evs : List Event) (c : List Nat) :
    (claimed c evs).length ≤ c.length +
      evs.countP fun e => e.call.isRequest .VIDIOC_DQBUF && decide (e.reply.ret ≠ -1) := by
  induction evs generalizing c with
  | nil => simp [claimed]
  | cons e es ih =>
    rw [claimed, List.foldl_cons, List.countP_cons]
    refine le_trans (ih _) ?_
    rcases e with ⟨call, rep⟩
    cases call with
    | ioctl fd request arg =>
      cases request <;> simp only [stepClaimed, Call.isRequest] <;>
        by_cases hr : rep.ret = -1 <;> simp [hr] <;>
        have := List.length_erase_le (u32 arg.index) c <;> omega
    | _ => simp [stepClaimed, Call.isRequest]

theorem countP_dequeue_of_call {c : Call} (hc : c.isRequest .VIDIOC_DQBUF = false)
    (evs : List Event) (h : ∀ e ∈ evs, e.call = c) :
    evs.countP (fun e => e.call.isRequest .VIDIOC_DQBUF && decide (e.reply.ret ≠ -1)) = 0 := by
  rw [List.countP_eq_zero]
  intro e he
  simp [h e he, hc]

theorem countP_dequeue_sinkEvents (d : c920_device_t σ) (b : Arg) (k : σ) :
    (sinkEvents d b k).countP
      (fun e => e.call.isRequest .VIDIOC_DQBUF && decide (e.reply.ret ≠ -1)) = 0 := by
  rw [List.countP_eq_zero]
  intro e he
  have := not_dqbuf_of_sinkEvents d b k e he
  rcases e with ⟨call, rep⟩
  cases call <;> simp_all [Call.isRequest, Call.isIoctl]

/-- A run of `ioctl_ex` has at most one attempt that succeeds. -/
theorem countP_dequeue_attempts {c : Call} {evs : List Event} {res : Option Reply}
    (h : IoctlEvents c evs res) :
    evs.countP (fun e => e.call.isRequest .VIDIOC_DQBUF && decide (e.reply.ret ≠ -1)) ≤ 1 := by
  have hz : ∀ l : List Event, (∀ e ∈ l, e.call = c ∧ Interrupted e) →
      l.countP (fun e => e.call.isRequest .VIDIOC_DQBUF && decide (e.reply.ret ≠ -1)) = 0 := by
    intro l hl
    rw [List.countP_eq_zero]
    intro e he
    simp [(hl e he).2.1]
  cases h with
  | hang evs h => rw [hz evs h]; omega
  | done pre r h hr =>
    rw [List.countP_append, hz pre h, List.countP_singleton]
    split <;> omega


theorem IoctlEvents.eq_last_of_not_interrupted {c : Call} {evs : List Event} {x : Reply}
    (h : IoctlEvents c evs (some x)) (e : Event) (he : e ∈ evs) (hn : ¬ Interrupted e) :
    ∃ pre, evs = pre ++ [e] := by
  obtain ⟨pre, rfl, hp, -⟩ := h.split_of_some
  rcases List.mem_append.mp he with he | he
  · exact absurd (hp e he).2 hn
  · exact ⟨pre, by rw [List.mem_singleton.mp he]⟩

theorem IoctlEvents.ne_nil_of_some {c : Call} {evs : List Event} {x : Reply}
    (h : IoctlEvents c evs (some x)) : evs ≠ [] := by
  obtain ⟨pre, rfl, -, -⟩ := h.split_of_some
  simp

/-- A run of `process()` has at most one successful dequeue. -/
theorem countP_dequeue_run {d : c920_device_t σ} {k k' : σ} {n : Int} {o : Outcome Int}
    {evs : List Event} (h : ProcessRun d k n o evs k') :
    evs.countP (fun e => e.call.isRequest .VIDIOC_DQBUF && decide (e.reply.ret ≠ -1)) ≤ 1 := by
  have hsel : ∀ (r : Reply) (l : List Event),
      List.countP (fun e => e.call.isRequest .VIDIOC_DQBUF && decide (e.reply.ret ≠ -1))
        (⟨selectCall d, r⟩ :: l) =
      List.countP (fun e => e.call.isRequest .VIDIOC_DQBUF && decide (e.reply.ret ≠ -1)) l := by
    intro r l
    rw [List.countP_cons]
    simp [selectCall, Call.isRequest]
  have hqz : ∀ (b : Arg) (qs : List Event) (res : Option Reply),
      IoctlEvents (qbufCall d b) qs res →
      List.countP (fun e => e.call.isRequest .VIDIOC_DQBUF && decide (e.reply.ret ≠ -1)) qs = 0 :=
    fun b qs res hq => countP_dequeue_of_call (c := qbufCall d b) rfl qs hq.call_eq
  cases h with
  | interrupted r h1 h => rw [hsel]; simp
  | select_failed r h1 h => rw [hsel]; simp
  | timeout r h0 => rw [hsel]; simp
  | dequeue_hang r h1 h0 dq hdq => rw [hsel]; exact countP_dequeue_attempts hdq
  | dequeue_failed r h1 h0 dq x hdq hx => rw [hsel]; exact countP_dequeue_attempts hdq
  | out_of_range r h1 h0 dq x hdq hx hi => rw [hsel]; exact countP_dequeue_attempts hdq
  | queue_hang r h1 h0 dq x hdq hx hi qs hqs hne =>
    rw [hsel, List.countP_append, List.countP_append, countP_dequeue_sinkEvents,
      hqz _ _ _ hqs]
    exact countP_dequeue_attempts hdq
  | queue_failed r h1 h0 dq x hdq hx hi qs y hqs hy =>
    rw [hsel, List.countP_append, List.countP_append, countP_dequeue_sinkEvents,
      hqz _ _ _ hqs]
    exact countP_dequeue_attempts hdq
  | done r h1 h0 dq x hdq hx hi qs y hqs hy =>
    rw [hsel, List.countP_append, List.countP_append, countP_dequeue_sinkEvents,
      hqz _ _ _ hqs]
    exact countP_dequeue_attempts hdq

/-- A run of `process()` that returns leaves no buffer claimed. -/
theorem claimed_run_of_ok {d : c920_device_t σ} {k k' : σ} {n : Int} {o : Outcome Int}
    {evs : List Event} (h : ProcessRun d k n o evs k') (v : Int) (ho : o = .ok v) :
    claimed [] evs = [] := by
  cases h with
  | interrupted r h1 h => rfl
  | select_failed r h1 h => cases ho
  | timeout r h0 => cases ho
  | dequeue_hang r h1 h0 dq hdq => cases ho
  | dequeue_failed r h1 h0 dq x hdq hx =>
    rw [claimed_select]
    exact claimed_of_failed _ _ (hdq.ret_of_mem hx)
  | out_of_range r h1 h0 dq x hdq hx hi => cases ho
  | queue_hang r h1 h0 dq x hdq hx hi qs hqs hne => cases ho
  | queue_failed r h1 h0 dq x hdq hx hi qs y hqs hy => cases ho
  | done r h1 h0 dq x hdq hx hi qs y hqs hy =>
    rw [claimed_select, claimed_append, claimed_append, claimed_dequeue d dq x hdq hx,
      claimed_sinkEvents, claimed_queue d x.arg qs y hqs hy]
    simp

end Ownership

section Requeue

variable {σ : Type}

/-- C4: in every run of `process()`, whatever the sink returns (0 included),
a successful dequeue of a buffer of the pool is followed by the call of the
sink (when one is configured) and then by at least one `VIDIOC_QBUF` attempt,
each for the block just dequeued, so for the same buffer index, and these end
the run; when `process()` returns, one of these attempts succeeded and no
buffer is left claimed; and at every moment of the run at most one buffer is
claimed. -/
theorem process_requeues_dequeued_buffer (drv : Driver) (fuel : Nat) (s : Sys σ)
    (evs : List Event) (ht : (process drv fuel s).2.trace = s.trace ++ evs) :
    (∀ e ∈ evs, e.call.isRequest .VIDIOC_DQBUF = true → e.reply.ret ≠ -1 →
        u32 e.reply.arg.index < s.dev._num_buffers →
        ∃ pre qs, evs = pre ++ e :: (sinkEvents s.dev e.reply.arg s.sink ++ qs) ∧ qs ≠ [] ∧
          (∀ q ∈ qs, q.call = .ioctl s.dev._fd .VIDIOC_QBUF e.reply.arg) ∧
          ∀ v, (process drv fuel s).1 = .ok v → ∃ q ∈ qs, q.reply.ret ≠ -1) ∧
      (∀ v, (process drv fuel s).1 = .ok v → claimed [] evs = []) ∧
      (∀ pre, pre <+: evs → (claimed [] pre).length ≤ 1) := by
  obtain ⟨evs', hrun, ht', hd⟩ := process_run drv fuel s
  have hevs : evs = evs' := List.append_cancel_left (ht.symm.trans ht')
  subst hevs
  refine ⟨?_, fun v hv => claimed_run_of_ok hrun v hv, ?_⟩
  · intro e he hc hr hi
    have hne : ¬ Interrupted e := not_interrupted_of_ret hr
    have hnil : ∀ x ∈ ([] : List Event), x.call.isIoctl = false := by simp
    have hnilq : ∀ b, ∀ x ∈ ([] : List Event), x.call = qbufCall s.dev b := by simp
    have hnild : ∀ x ∈ ([] : List Event), x.call = dqbufCall s.dev := by simp
    revert hrun
    generalize (process drv fuel s).1 = o
    generalize (process drv fuel s).2.sink = k'
    intro hrun
    cases hrun with
    | interrupted r h1 h =>
      have := mem_dequeue_of_isRequest s.dev r {} [] [] [] hnild hnil (hnilq _) e (by simpa using he) hc
      simp at this
    | select_failed r h1 h =>
      have := mem_dequeue_of_isRequest s.dev r {} [] [] [] hnild hnil (hnilq _) e (by simpa using he) hc
      simp at this
    | timeout r h0 =>
      have := mem_dequeue_of_isRequest s.dev r {} [] [] [] hnild hnil (hnilq _) e (by simpa using he) hc
      simp at this
    | dequeue_hang r h1 h0 dq hdq =>
      have := mem_dequeue_of_isRequest s.dev r {} dq [] [] hdq.call_eq hnil (hnilq _) e
        (by simpa using he) hc
      exact absurd (hdq.interrupted_of_none e this) hne
    | dequeue_failed r h1 h0 dq x hdq hx =>
      have := mem_dequeue_of_isRequest s.dev r {} dq [] [] hdq.call_eq hnil (hnilq _) e
        (by simpa using he) hc
      exact absurd (hdq.ret_of_mem hx e this) hr
    | out_of_range r h1 h0 dq x hdq hx hi' =>
      have hed := mem_dequeue_of_isRequest s.dev r {} dq [] [] hdq.call_eq hnil (hnilq _) e
        (by simpa using he) hc
      have hxe : x = e.reply := Option.some.inj (hdq.reply_of_not_interrupted e hed hne)
      exact absurd (hxe ▸ hi) hi'
    | queue_hang r h1 h0 dq x hdq hx hi' qs hqs hqne =>
      have hed := mem_dequeue_of_isRequest s.dev r x.arg dq _ qs hdq.call_eq
        (not_dqbuf_of_sinkEvents _ _ _) hqs.call_eq e he hc
      have hxe : x = e.reply := Option.some.inj (hdq.reply_of_not_interrupted e hed hne)
      subst hxe
      obtain ⟨pre, rfl⟩ := hdq.eq_last_of_not_interrupted e hed hne
      refine ⟨⟨selectCall s.dev, r⟩ :: pre, qs, by simp, hqne, hqs.call_eq, ?_⟩
      intro v hv; cases hv
    | queue_failed r h1 h0 dq x hdq hx hi' qs y hqs hy =>
      have hed := mem_dequeue_of_isRequest s.dev r x.arg dq _ qs hdq.call_eq
        (not_dqbuf_of_sinkEvents _ _ _) hqs.call_eq e he hc
      have hxe : x = e.reply := Option.some.inj (hdq.reply_of_not_interrupted e hed hne)
      subst hxe
      obtain ⟨pre, rfl⟩ := hdq.eq_last_of_not_interrupted e hed hne
      refine ⟨⟨selectCall s.dev, r⟩ :: pre, qs, by simp, hqs.ne_nil_of_some, hqs.call_eq, ?_⟩
      intro v hv; cases hv
    | done r h1 h0 dq x hdq hx hi' qs y hqs hy =>
      have hed := mem_dequeue_of_isRequest s.dev r x.arg dq _ qs hdq.call_eq
        (not_dqbuf_of_sinkEvents _ _ _) hqs.call_eq e he hc
      have hxe : x = e.reply := Option.some.inj (hdq.reply_of_not_interrupted e hed hne)
      subst hxe
      obtain ⟨pre, rfl⟩ := hdq.eq_last_of_not_interrupted e hed hne
      refine ⟨⟨selectCall s.dev, r⟩ :: pre, qs, by simp, hqs.ne_nil_of_some, hqs.call_eq, ?_⟩
      intro v hv
      obtain ⟨qpre, rfl, -, -⟩ := hqs.split_of_some
      exact ⟨⟨qbufCall s.dev e.reply.arg, y⟩, by simp, hy⟩
  · intro pre hpre
    have h1 := claimed_length_le pre []
    have h2 := hpre.sublist.countP_le
      (fun e => e.call.isRequest .VIDIOC_DQBUF && decide (e.reply.ret ≠ -1))
    have h3 := countP_dequeue_run hrun
    simp only [List.length_nil, Nat.zero_add] at h1
    omega


/-- C4, witness: on `frameDriver`, with a frame-count limit of 1, `process()`
dequeues buffer 0, the sink returns 0 (stop), buffer 0 is queued again, and
`process()` returns 0 with no buffer claimed. -/
theorem process_requeues_dequeued_buffer_witness :
    (process frameDriver 1 lastFrameSys).1 = .ok 0 ∧
      (process frameDriver 1 lastFrameSys).2.trace = lastFrameSys.trace ++
        [⟨.select 4 3 2, { ret := 1 }⟩,
         ⟨dqbufCall lastFrameSys.dev,
          { arg := { type := 1, memory := 1, index := 0, bytesused := 100 } }⟩,
         ⟨.callback 4096 100, { ret := 0 }⟩,
         ⟨qbufCall lastFrameSys.dev { type := 1, memory := 1, index := 0, bytesused := 100 },
          { arg := { type := 1, memory := 1, index := 0, bytesused := 100 } }⟩] ∧
      claimed []
        [⟨.select 4 3 2, { ret := 1 }⟩,
         ⟨dqbufCall lastFrameSys.dev,
          { arg := { type := 1, memory := 1, index := 0, bytesused := 100 } }⟩,
         ⟨.callback 4096 100, { ret := 0 }⟩,
         ⟨qbufCall lastFrameSys.dev { type := 1, memory := 1, index := 0, bytesused := 100 },
          { arg := { type := 1, memory := 1, index := 0, bytesused := 100 } }⟩] = [] := by
  have ho : (process frameDriver 1 lastFrameSys).1 = .ok 0 := by decide
  have ht : (process frameDriver 1 lastFrameSys).2.trace = lastFrameSys.trace ++
      [⟨.select 4 3 2, { ret := 1 }⟩,
       ⟨dqbufCall lastFrameSys.dev,
        { arg := { type := 1, memory := 1, index := 0, bytesused := 100 } }⟩,
       ⟨.callback 4096 100, { ret := 0 }⟩,
       ⟨qbufCall lastFrameSys.dev { type := 1, memory := 1, index := 0, bytesused := 100 },
        { arg := { type := 1, memory := 1, index := 0, bytesused := 100 } }⟩] := by decide
  exact ⟨ho, ht, (process_requeues_dequeued_buffer frameDriver 1 lastFrameSys _ ht).2.1 0 ho⟩

end Requeue

/-! ## Runs of `set_bitrate`, `start()` and `stop()` -/

section StartStop

variable {σ : Type}

theorem afterIoctl_append (s : Sys σ) (a b : List Event) :
    afterIoctl (afterIoctl s a) b = afterIoctl s (a ++ b) := by
  simp [afterIoctl, errnoAfter, List.foldl_append]

/-- Every run of `set_bitrate` is one of the runs of `BitrateRun`: it returns
or hangs, it never throws, and it only appends its control queries. -/
theorem set_bitrate_run (drv : Driver) (fuel : Nat) (bmin : Int) (s : Sys σ) :
    ∃ evs ok, BitrateRun s.dev._fd bmin ok evs ∧
      set_bitrate drv fuel bmin s =
        (if ok then .ok () else .fail .hang, afterIoctl s evs) := by
  unfold set_bitrate
  simp only [run_bind, run_getDev]
  obtain ⟨g, res1, hg, hrun1, -⟩ := ioctl_ex_run drv fuel s.dev._fd .UVCIOC_CTRL_QUERY bitrateGet s
  have hfuel : res1 ≠ none → fuel ≠ 0 := by
    intro hres hf
    subst hf
    rw [run_ioctl_ex_zero] at hrun1
    cases res1 with
    | none => exact hres rfl
    | some r => simp [ioctlResult] at hrun1
  rw [hrun1]
  cases res1 with
  | none => exact ⟨g, false, BitrateRun.get_hang g hg, by simp [ioctlResult]⟩
  | some r1 =>
    simp only [ioctlResult]
    by_cases h1 : r1.ret = 0
    · have hn1 : ¬ r1.ret = -1 := by rw [h1]; decide
      simp only [h1, hn1, (by decide : ¬ (0 : Int) = -1), if_false, ne_eq, not_true_eq_false,
        run_bind]
      obtain ⟨st, res2, hs, hrun2, hne⟩ := ioctl_ex_run drv fuel s.dev._fd .UVCIOC_CTRL_QUERY
        (bitrateSet r1.arg bmin) (afterIoctl s g)
      rw [hrun2]
      cases res2 with
      | none =>
        exact ⟨g ++ st, false, BitrateRun.set_hang g r1 hg h1 st hs (hne (hfuel (by simp))),
          by simp [ioctlResult, afterIoctl_append]⟩
      | some r2 =>
        simp only [ioctlResult]
        by_cases h2 : r2.ret = 0
        · have hn2 : ¬ r2.ret = -1 := by rw [h2]; decide
          simp only [h2, hn2, (by decide : ¬ (0 : Int) = -1), if_false, ne_eq,
            not_true_eq_false, run_bind]
          obtain ⟨ck, res3, hc, hrun3, -⟩ := ioctl_ex_run drv fuel s.dev._fd .UVCIOC_CTRL_QUERY
            (bitrateCheck r2.arg) (afterIoctl (afterIoctl s g) st)
          rw [hrun3]
          refine ⟨g ++ (st ++ ck), res3.isSome, BitrateRun.check g r1 hg h1 st r2 hs h2 ck res3 hc,
            ?_⟩
          cases res3 with
          | none => simp [ioctlResult, afterIoctl_append]
          | some r3 => simp [ioctlResult, afterIoctl_append]
        · refine ⟨g ++ st, true, BitrateRun.set_failed g r1 hg h1 st r2 hs h2, ?_⟩
          simp [h2, afterIoctl_append]
    · refine ⟨g, true, BitrateRun.get_failed g r1 hg h1, ?_⟩
      simp [h1]

end StartStop

section StartStopRuns

variable {σ : Type}

theorem start_of_playing (drv : Driver) (fuel : Nat) (s : Sys σ) (h : s.dev._playing = true) :
    start drv fuel s = (.ok (), s) := by
  unfold start
  simp [run_bind, run_getDev, h]

theorem stop_of_stopped (drv : Driver) (fuel : Nat) (s : Sys σ) (h : s.dev._playing = false) :
    stop drv fuel s = (.ok (), s) := by
  unfold stop
  simp [run_bind, run_getDev, h]

/-- The run of `start()` on a stopped device: the flag is set first, then
`VIDIOC_STREAMON` is attempted; a failure throws, a success is followed by
`set_bitrate`. -/
theorem start_of_stopped (drv : Driver) (fuel : Nat) (s : Sys σ) (h : s.dev._playing = false) :
    ∃ ons res,
      IoctlEvents (.ioctl s.dev._fd .VIDIOC_STREAMON { type := V4L2_BUF_TYPE_VIDEO_CAPTURE })
        ons res ∧ (fuel ≠ 0 → ons ≠ []) ∧
      match res with
      | none =>
        start drv fuel s =
          (.fail .hang, afterIoctl { s with dev := { s.dev with _playing := true } } ons)
      | some r =>
        if r.ret = -1 then
          start drv fuel s =
            (.fail (.thrown ⟨.error_streamon, r.err⟩),
             afterIoctl { s with dev := { s.dev with _playing := true } } ons)
        else
          ∃ evs ok, BitrateRun s.dev._fd s.dev._c920_parameters.bitrate ok evs ∧
            start drv fuel s =
              (if ok then .ok () else .fail .hang,
               afterIoctl (afterIoctl { s with dev := { s.dev with _playing := true } } ons) evs) := by
  obtain ⟨ons, res, hon, hrun, hne⟩ := ioctl_ex_run drv fuel s.dev._fd .VIDIOC_STREAMON
    { type := V4L2_BUF_TYPE_VIDEO_CAPTURE } { s with dev := { s.dev with _playing := true } }
  refine ⟨ons, res, hon, hne, ?_⟩
  have hs : start drv fuel s =
      (ioctl_ex drv fuel s.dev._fd .VIDIOC_STREAMON { type := V4L2_BUF_TYPE_VIDEO_CAPTURE } >>=
        fun r => throwIf (r.1 = -1) .error_streamon >>=
          fun _ => set_bitrate drv fuel s.dev._c920_parameters.bitrate)
        { s with dev := { s.dev with _playing := true } } := by
    unfold start
    simp [run_bind, run_getDev, h]
  rw [hs, run_bind, hrun]
  cases hon with
  | hang evs hh => simp [ioctlResult]
  | done pre r hp hr =>
    simp only [ioctlResult]
    by_cases h1 : r.ret = -1
    · have he : ∀ (t : Sys σ) (c : Call), (afterIoctl t (pre ++ [⟨c, r⟩])).errno = r.err :=
        fun t c => errnoAfter_done _ _ _ _ h1
      simp [h1, he]
    · simp only [h1, if_false, run_bind, run_throwIf_neg, not_false_eq_true]
      obtain ⟨evs, ok, hb, hrunb⟩ := set_bitrate_run drv fuel s.dev._c920_parameters.bitrate
        (afterIoctl { s with dev := { s.dev with _playing := true } } (pre ++ [⟨_, r⟩]))
      exact ⟨evs, ok, hb, hrunb⟩

/-- The run of `stop()` on a streaming device: the flag is cleared first, then
`VIDIOC_STREAMOFF` is attempted; a failure throws, a success is followed by the
queueing loop. -/
theorem stop_of_playing (drv : Driver) (fuel : Nat) (s : Sys σ) (h : s.dev._playing = true) :
    ∃ off res,
      IoctlEvents (.ioctl s.dev._fd .VIDIOC_STREAMOFF { type := V4L2_BUF_TYPE_VIDEO_CAPTURE })
        off res ∧ (fuel ≠ 0 → off ≠ []) ∧
      match res with
      | none =>
        stop drv fuel s =
          (.fail .hang, afterIoctl { s with dev := { s.dev with _playing := false } } off)
      | some r =>
        if r.ret = -1 then
          stop drv fuel s =
            (.fail (.thrown ⟨.error_streamoff, r.err⟩),
             afterIoctl { s with dev := { s.dev with _playing := false } } off)
        else
          stop drv fuel s =
            queueBuffers drv fuel
              (afterIoctl { s with dev := { s.dev with _playing := false } } off) := by
  obtain ⟨off, res, hoff, hrun, hne⟩ := ioctl_ex_run drv fuel s.dev._fd .VIDIOC_STREAMOFF
    { type := V4L2_BUF_TYPE_VIDEO_CAPTURE } { s with dev := { s.dev with _playing := false } }
  refine ⟨off, res, hoff, hne, ?_⟩
  have hs : stop drv fuel s =
      (ioctl_ex drv fuel s.dev._fd .VIDIOC_STREAMOFF { type := V4L2_BUF_TYPE_VIDEO_CAPTURE } >>=
        fun r => throwIf (r.1 = -1) .error_streamoff >>= fun _ => queueBuffers drv fuel)
        { s with dev := { s.dev with _playing := false } } := by
    unfold stop
    simp [run_bind, run_getDev, h]
  rw [hs, run_bind, hrun]
  cases hoff with
  | hang evs hh => simp [ioctlResult]
  | done pre r hp hr =>
    simp only [ioctlResult]
    by_cases h1 : r.ret = -1
    · have he : ∀ (t : Sys σ) (c : Call), (afterIoctl t (pre ++ [⟨c, r⟩])).errno = r.err :=
        fun t c => errnoAfter_done _ _ _ _ h1
      simp [h1, he]
    · simp only [h1, if_false, run_bind, run_throwIf_neg, not_false_eq_true]

end StartStopRuns

/-! ## `start()` twice (C7) -/

section StartTwice

variable {σ : Type}

/-- After `start()`, however it ends, the device object is the one from before
with the flag `_playing` set. -/
theorem start_dev (drv : Driver) (fuel : Nat) (s : Sys σ) :
    (start drv fuel s).2.dev = { s.dev with _playing := true } := by
  cases hp : s.dev._playing with
  | true =>
    rw [start_of_playing drv fuel s hp]
    rcases hs : s.dev with ⟨a, b, c, d, e, f⟩
    rw [hs] at hp
    simp only at hp
    simp [hp]
  | false =>
    obtain ⟨ons, res, -, -, h⟩ := start_of_stopped drv fuel s hp
    cases res with
    | none => simp only at h; rw [h]; rfl
    | some r =>
      simp only at h
      by_cases h1 : r.ret = -1
      · rw [if_pos h1] at h; rw [h]; rfl
      · rw [if_neg h1] at h
        obtain ⟨evs, ok, -, h⟩ := h
        rw [h]; rfl

/-- C7: whatever the device and the driver, a second `start()` right after a
first one is a no-op: it returns at once, issues no call (no `VIDIOC_STREAMON`,
no bitrate control query) and leaves the whole state, the history included, as
the first call left it; so calling `start()` twice in a row is the same as
calling it once. -/
theorem start_twice (drv : Driver) (fuel : Nat) (s : Sys σ) (drv' : Driver) (fuel' : Nat) :
    start drv' fuel' (start drv fuel s).2 = (.ok (), (start drv fuel s).2) ∧
      (start drv fuel >>= fun _ => start drv' fuel') s = start drv fuel s := by
  have h1 : start drv' fuel' (start drv fuel s).2 = (.ok (), (start drv fuel s).2) :=
    start_of_playing drv' fuel' _ (by rw [start_dev])
  refine ⟨h1, ?_⟩
  rw [run_bind]
  rcases hs : start drv fuel s with ⟨o, s1⟩
  rw [hs] at h1
  cases o with
  | ok a => simpa using h1
  | fail e => rfl

end StartTwice

/-! ## Failures of `VIDIOC_STREAMON` and `VIDIOC_STREAMOFF` -/

section StreamFailures

variable {σ : Type}

theorem BitrateRun.query_of_mem {fd : Int} {bmin : Int} {ok : Bool} {evs : List Event}
    (h : BitrateRun fd bmin ok evs) :
    ∀ e ∈ evs, ∃ arg, e.call = .ioctl fd .UVCIOC_CTRL_QUERY arg ∧
      (arg.query = UVC_SET_CUR →
        arg.dwPeakBitrate = u32OfInt bmin ∧ arg.dwAverageBitrate = u32OfInt bmin) := by
  have hget : bitrateGet.query = UVC_SET_CUR → bitrateGet.dwPeakBitrate = u32OfInt bmin ∧
      bitrateGet.dwAverageBitrate = u32OfInt bmin := by
    intro hq; simp [bitrateGet, UVC_GET_CUR, UVC_SET_CUR] at hq
  have hset : ∀ conf : Arg, (bitrateSet conf bmin).query = UVC_SET_CUR →
      (bitrateSet conf bmin).dwPeakBitrate = u32OfInt bmin ∧
      (bitrateSet conf bmin).dwAverageBitrate = u32OfInt bmin := fun conf _ => ⟨rfl, rfl⟩
  have hck : ∀ conf : Arg, (bitrateCheck conf).query = UVC_SET_CUR →
      (bitrateCheck conf).dwPeakBitrate = u32OfInt bmin ∧
      (bitrateCheck conf).dwAverageBitrate = u32OfInt bmin := by
    intro conf hq; simp [bitrateCheck, UVC_GET_CUR, UVC_SET_CUR] at hq
  intro e he
  cases h with
  | get_hang g hg => exact ⟨_, hg.call_eq e he, hget⟩
  | get_failed g r1 hg h1 => exact ⟨_, hg.call_eq e he, hget⟩
  | set_hang g r1 hg h1 st hs hne =>
    rcases List.mem_append.mp he with he | he
    · exact ⟨_, hg.call_eq e he, hget⟩
    · exact ⟨_, hs.call_eq e he, hset _⟩
  | set_failed g r1 hg h1 st r2 hs h2 =>
    rcases List.mem_append.mp he with he | he
    · exact ⟨_, hg.call_eq e he, hget⟩
    · exact ⟨_, hs.call_eq e he, hset _⟩
  | check g r1 hg h1 st r2 hs h2 ck res hc =>
    rcases List.mem_append.mp he with he | he
    · exact ⟨_, hg.call_eq e he, hget⟩
    rcases List.mem_append.mp he with he | he
    · exact ⟨_, hs.call_eq e he, hset _⟩
    · exact ⟨_, hc.call_eq e he, hck _⟩

/-- On a stopped device, `start()` throws exactly when an attempt of
`VIDIOC_STREAMON` failed with an error other than `EINTR`; it then throws the
stream-on exception with that error, having made no other call. -/
theorem start_streamon (drv : Driver) (fuel : Nat) (s : Sys σ) (h : s.dev._playing = false)
    (evs : List Event) (ht : (start drv fuel s).2.trace = s.trace ++ evs) :
    (∀ e ∈ evs, e.call.isRequest .VIDIOC_STREAMON = true → e.reply.ret = -1 →
        e.reply.err ≠ EINTR →
        (start drv fuel s).1 = .fail (.thrown ⟨.error_streamon, e.reply.err⟩) ∧
          ∀ x ∈ evs, x.call.isRequest .VIDIOC_STREAMON = true) ∧
      (∀ t, (start drv fuel s).1 = .fail (.thrown t) →
        ∃ e ∈ evs, e.call.isRequest .VIDIOC_STREAMON = true ∧ e.reply.ret = -1 ∧
          e.reply.err ≠ EINTR) := by
  obtain ⟨ons, res, hon, -, hs⟩ := start_of_stopped drv fuel s h
  cases res with
  | none =>
    simp only at hs
    rw [hs] at ht ⊢
    have hevs : evs = ons := List.append_cancel_left (ht.symm.trans (by simp [afterIoctl]))
    subst hevs
    refine ⟨?_, fun t ht => by cases ht⟩
    intro e he hc hr hn
    exact absurd (hon.interrupted_of_none e he).2 hn
  | some r =>
    simp only at hs
    by_cases h1 : r.ret = -1
    · rw [if_pos h1] at hs
      rw [hs] at ht ⊢
      have hevs : evs = ons := List.append_cancel_left (ht.symm.trans (by simp [afterIoctl]))
      subst hevs
      obtain ⟨pre, hpre, hp, hni⟩ := hon.split_of_some
      refine ⟨?_, ?_⟩
      · intro e he hc hr hn
        have hre : some r = some e.reply :=
          hon.reply_of_not_interrupted e he (fun hi => hn hi.2)
        cases hre
        exact ⟨rfl, fun x hx => by rw [hon.call_eq x hx]; rfl⟩
      · intro t _
        have hmem : (⟨.ioctl s.dev._fd .VIDIOC_STREAMON { type := V4L2_BUF_TYPE_VIDEO_CAPTURE }, r⟩
            : Event) ∈ evs := by rw [hpre]; simp
        exact ⟨_, hmem, rfl, h1, fun he => hni ⟨h1, he⟩⟩
    · rw [if_neg h1] at hs
      obtain ⟨bevs, ok, hb, hs⟩ := hs
      rw [hs] at ht ⊢
      have hevs : evs = ons ++ bevs :=
        List.append_cancel_left (ht.symm.trans (by simp [afterIoctl]))
      subst hevs
      refine ⟨?_, ?_⟩
      · intro e he hc hr hn
        rcases List.mem_append.mp he with he | he
        · have hre : some r = some e.reply :=
            hon.reply_of_not_interrupted e he (fun hi => hn hi.2)
          cases hre
          exact absurd hr h1
        · obtain ⟨arg, hcall, -⟩ := hb.query_of_mem e he
          rw [hcall] at hc
          simp [Call.isRequest] at hc
      · intro t ht
        cases ok <;> simp at ht


/-- After `stop()`, however it ends, the device object is the one from before
with the flag `_playing` cleared. -/
theorem stop_dev (drv : Driver) (fuel : Nat) (s : Sys σ) :
    (stop drv fuel s).2.dev = { s.dev with _playing := false } := by
  cases hp : s.dev._playing with
  | false =>
    rw [stop_of_stopped drv fuel s hp]
    rcases hs : s.dev with ⟨a, b, c, d, e, f⟩
    rw [hs] at hp
    simp only at hp
    simp [hp]
  | true =>
    obtain ⟨off, res, -, -, h⟩ := stop_of_playing drv fuel s hp
    cases res with
    | none => simp only at h; rw [h]; rfl
    | some r =>
      simp only at h
      by_cases h1 : r.ret = -1
      · rw [if_pos h1] at h; rw [h]; rfl
      · rw [if_neg h1] at h
        rw [h]
        exact (queueBuffers_keeps drv fuel _).2.1

/-- On a streaming device, when an attempt of `VIDIOC_STREAMOFF` failed with an
error other than `EINTR`, `stop()` throws the stream-off exception with that
error, having made no other call. -/
theorem stop_streamoff (drv : Driver) (fuel : Nat) (s : Sys σ) (h : s.dev._playing = true)
    (evs : List Event) (ht : (stop drv fuel s).2.trace = s.trace ++ evs)
    (e : Event) (he : e ∈ evs) (hc : e.call.isRequest .VIDIOC_STREAMOFF = true)
    (hr : e.reply.ret = -1) (hn : e.reply.err ≠ EINTR) :
    (stop drv fuel s).1 = .fail (.thrown ⟨.error_streamoff, e.reply.err⟩) ∧
      ∀ x ∈ evs, x.call.isRequest .VIDIOC_STREAMOFF = true := by
  obtain ⟨off, res, hoff, -, hs⟩ := stop_of_playing drv fuel s h
  cases res with
  | none =>
    simp only at hs
    rw [hs] at ht ⊢
    have hevs : evs = off := List.append_cancel_left (ht.symm.trans (by simp [afterIoctl]))
    subst hevs
    exact absurd (hoff.interrupted_of_none e he).2 hn
  | some r =>
    simp only at hs
    by_cases h1 : r.ret = -1
    · rw [if_pos h1] at hs
      rw [hs] at ht ⊢
      have hevs : evs = off := List.append_cancel_left (ht.symm.trans (by simp [afterIoctl]))
      subst hevs
      have hre : some r = some e.reply :=
        hoff.reply_of_not_interrupted e he (fun hi => hn hi.2)
      cases hre
      exact ⟨rfl, fun x hx => by rw [hoff.call_eq x hx]; rfl⟩
    · rw [if_neg h1] at hs
      rw [hs] at ht
      obtain ⟨⟨qevs, hq, hqk⟩, -, -⟩ := queueBuffers_keeps drv fuel
        (afterIoctl { s with dev := { s.dev with _playing := false } } off)
      rw [hq] at ht
      have hevs : evs = off ++ qevs :=
        List.append_cancel_left (ht.symm.trans (by simp [afterIoctl]))
      subst hevs
      rcases List.mem_append.mp he with he | he
      · have hre : some r = some e.reply :=
          hoff.reply_of_not_interrupted e he (fun hi => hn hi.2)
        cases hre
        exact absurd hr h1
      · have hk := hqk e he
        rcases e with ⟨call, rep⟩
        cases call <;> simp_all [OfKinds, Call.kind, Call.isRequest]

/-- What follows a program in a sequence only appends to the history the
program left. -/
theorem bind_trace_extends {α β γ : Type} {P : Event → Prop} {π : c920_device_t σ → γ}
    (m : Prog σ α) {f : α → Prog σ β} (hf : ∀ a, Keeps P π (f a)) (s : Sys σ) :
    ∃ more, ((m >>= f) s).2.trace = (m s).2.trace ++ more := by
  rw [run_bind]
  rcases m s with ⟨o, s1⟩
  cases o with
  | ok a =>
    obtain ⟨⟨more, hm, -⟩, -, -⟩ := hf a s1
    exact ⟨more, hm⟩
  | fail e => exact ⟨[], by simp⟩

/-- With fuel left, the first thing `ioctl_ex` does is the call itself. -/
theorem ioctl_ex_first (drv : Driver) (fuel : Nat) (fh : Int) (request : Request) (arg : Arg)
    (s : Sys σ) :
    ∃ rest, (ioctl_ex drv (fuel + 1) fh request arg s).2.trace =
      s.trace ++ ⟨.ioctl fh request arg, drv s.trace (.ioctl fh request arg)⟩ :: rest := by
  by_cases hc : (drv s.trace (.ioctl fh request arg)).ret = -1 ∧
      (drv s.trace (.ioctl fh request arg)).err = EINTR
  · rw [run_ioctl_ex_retry drv fuel fh request arg s hc.1 hc.2]
    obtain ⟨⟨rest, hr, -⟩, -, -⟩ :=
      Keeps.ioctl_ex (P := fun _ => True) (π := fun _ => ()) drv fuel fh request arg
        (fun _ => trivial)
        { s with trace := s.trace ++ [⟨.ioctl fh request arg, drv s.trace (.ioctl fh request arg)⟩],
                 errno := EINTR }
    exact ⟨rest, by rw [hr]; simp⟩
  · rw [run_ioctl_ex_done drv fuel fh request arg s hc]
    exact ⟨[], rfl⟩

theorem stop_eq_of_playing (drv : Driver) (fuel : Nat) (s : Sys σ) (h : s.dev._playing = true) :
    stop drv fuel s =
      (ioctl_ex drv fuel s.dev._fd .VIDIOC_STREAMOFF { type := V4L2_BUF_TYPE_VIDEO_CAPTURE } >>=
        fun r => throwIf (r.1 = -1) .error_streamoff >>= fun _ => queueBuffers drv fuel)
        { s with dev := { s.dev with _playing := false } } := by
  unfold stop
  simp [run_bind, run_getDev, h]

/-- The destructor of a device whose flag `_playing` is set calls `stop()`:
its first call is `VIDIOC_STREAMOFF`. -/
theorem delete_of_playing (drv : Driver) (fuel : Nat) (s : Sys σ) (h : s.dev._playing = true) :
    ∃ rest, (c920_device_t.delete drv (fuel + 1) s).2.trace =
      s.trace ++
        ⟨.ioctl s.dev._fd .VIDIOC_STREAMOFF { type := V4L2_BUF_TYPE_VIDEO_CAPTURE },
         drv s.trace (.ioctl s.dev._fd .VIDIOC_STREAMOFF { type := V4L2_BUF_TYPE_VIDEO_CAPTURE })⟩
          :: rest := by
  obtain ⟨r1, h1⟩ := ioctl_ex_first drv fuel s.dev._fd .VIDIOC_STREAMOFF
    { type := V4L2_BUF_TYPE_VIDEO_CAPTURE } { s with dev := { s.dev with _playing := false } }
  have h2 : ∃ more, (stop drv (fuel + 1) s).2.trace =
      (ioctl_ex drv (fuel + 1) s.dev._fd .VIDIOC_STREAMOFF { type := V4L2_BUF_TYPE_VIDEO_CAPTURE }
        { s with dev := { s.dev with _playing := false } }).2.trace ++ more := by
    rw [stop_eq_of_playing drv (fuel + 1) s h]
    refine bind_trace_extends (P := fun _ => True) (π := fun _ => ()) _ ?_ _
    intro r
    refine Keeps.bind (Keeps.throwIf _ _) fun _ => ?_
    exact (queueBuffers_keeps drv (fuel + 1)).mono (fun _ _ => trivial) (fun _ _ _ => rfl)
  obtain ⟨r2, h2⟩ := h2
  have h3 : ∃ more, (c920_device_t.delete drv (fuel + 1) s).2.trace =
      (stop drv (fuel + 1) s).2.trace ++ more := by
    unfold c920_device_t.delete
    rw [run_bind, run_getDev]
    simp only [h, if_true]
    refine bind_trace_extends (P := fun _ => True) (π := fun _ => ()) _ ?_ _
    intro _
    repeat' first
      | exact Keeps.pure _
      | exact Keeps.throwIf _ _
      | exact Keeps.getDev
      | intro _
      | apply Keeps.bind
      | (apply Keeps.syscall; intro r; trivial)
      | (apply Keeps.forRange; intro i; unfold unmapBuffer)
  obtain ⟨r3, h3⟩ := h3
  exact ⟨r1 ++ r2 ++ r3, by rw [h3, h2, h1]; simp⟩

end StreamFailures

/-! ## The flag is updated before the ioctl (C12) -/

section FlagFirst

variable {σ : Type}

/-- C12: `start()` and `stop()` update `_playing` before their ioctl.  When an
attempt `e` of `VIDIOC_STREAMON` fails (with an error other than `EINTR`) in
`start()` on a stopped device, `start()` throws and the device object is left
with `_playing` set; so a later `start()` is a no-op that issues nothing, and
the destructor calls `stop()`, whose first call is `VIDIOC_STREAMOFF`.  When an
attempt `e` of `VIDIOC_STREAMOFF` fails in `stop()` on a streaming device,
`stop()` throws, the device object is left with `_playing` cleared, and no
`VIDIOC_QBUF` was issued. -/
theorem flag_updated_before_ioctl (drv : Driver) (fuel : Nat) (s : Sys σ) (evs : List Event)
    (e : Event) (he : e ∈ evs) (hr : e.reply.ret = -1) (hn : e.reply.err ≠ EINTR) :
    (s.dev._playing = false → (start drv fuel s).2.trace = s.trace ++ evs →
      e.call.isRequest .VIDIOC_STREAMON = true →
      (start drv fuel s).1 = .fail (.thrown ⟨.error_streamon, e.reply.err⟩) ∧
        (start drv fuel s).2.dev = { s.dev with _playing := true } ∧
        (∀ (drv' : Driver) (fuel' : Nat),
          start drv' fuel' (start drv fuel s).2 = (.ok (), (start drv fuel s).2)) ∧
        ∀ (drv' : Driver) (fuel' : Nat), ∃ rest,
          (c920_device_t.delete drv' (fuel' + 1) (start drv fuel s).2).2.trace =
            (start drv fuel s).2.trace ++
              ⟨.ioctl s.dev._fd .VIDIOC_STREAMOFF { type := V4L2_BUF_TYPE_VIDEO_CAPTURE },
               drv' (start drv fuel s).2.trace
                 (.ioctl s.dev._fd .VIDIOC_STREAMOFF { type := V4L2_BUF_TYPE_VIDEO_CAPTURE })⟩
                :: rest) ∧
    (s.dev._playing = true → (stop drv fuel s).2.trace = s.trace ++ evs →
      e.call.isRequest .VIDIOC_STREAMOFF = true →
      (stop drv fuel s).1 = .fail (.thrown ⟨.error_streamoff, e.reply.err⟩) ∧
        (stop drv fuel s).2.dev = { s.dev with _playing := false } ∧
        ∀ x ∈ evs, x.call.isRequest .VIDIOC_QBUF = false) := by
  constructor
  · intro hp ht hc
    have hd := start_dev drv fuel s
    refine ⟨((start_streamon drv fuel s hp evs ht).1 e he hc hr hn).1, hd, ?_, ?_⟩
    · intro drv' fuel'
      exact start_of_playing drv' fuel' _ (by rw [hd])
    · intro drv' fuel'
      have := delete_of_playing drv' fuel' (start drv fuel s).2 (by rw [hd])
      rw [hd] at this
      exact this
  · intro hp ht hc
    obtain ⟨h1, h2⟩ := stop_streamoff drv fuel s hp evs ht e he hc hr hn
    refine ⟨h1, stop_dev drv fuel s, ?_⟩
    intro x hx
    have := h2 x hx
    rcases x with ⟨call, rep⟩
    cases call <;> simp_all [Call.isRequest]

/-- C12, witness: on a device whose ioctls all fail with `EINVAL`, `start()` on
the stopped device throws with `_playing` set, and `stop()` on the streaming
device throws with `_playing` cleared. -/
theorem flag_updated_before_ioctl_witness :
    ((start notV4L2Driver 1 stoppedSys).1 = .fail (.thrown ⟨.error_streamon, EINVAL⟩) ∧
      (start notV4L2Driver 1 stoppedSys).2.dev._playing = true) ∧
    ((stop notV4L2Driver 1 streamingSys).1 = .fail (.thrown ⟨.error_streamoff, EINVAL⟩) ∧
      (stop notV4L2Driver 1 streamingSys).2.dev._playing = false) := by
  have t1 : (start notV4L2Driver 1 stoppedSys).2.trace = stoppedSys.trace ++
      [⟨.ioctl 3 .VIDIOC_STREAMON { type := 1 }, { ret := -1, err := EINVAL }⟩] := by decide
  have t2 : (stop notV4L2Driver 1 streamingSys).2.trace = streamingSys.trace ++
      [⟨.ioctl 3 .VIDIOC_STREAMOFF { type := 1 }, { ret := -1, err := EINVAL }⟩] := by decide
  have a := (flag_updated_before_ioctl notV4L2Driver 1 stoppedSys _
    ⟨.ioctl 3 .VIDIOC_STREAMON { type := 1 }, { ret := -1, err := EINVAL }⟩
    (List.mem_singleton.mpr rfl) rfl (by decide)).1 rfl t1 rfl
  have b := (flag_updated_before_ioctl notV4L2Driver 1 streamingSys _
    ⟨.ioctl 3 .VIDIOC_STREAMOFF { type := 1 }, { ret := -1, err := EINVAL }⟩
    (List.mem_singleton.mpr rfl) rfl (by decide)).2 rfl t2 rfl
  exact ⟨⟨a.1, by rw [a.2.1]⟩, ⟨b.1, by rw [b.2.1]⟩⟩

end FlagFirst

/-! ## Bitrate control is best effort (C11) -/

section Bitrate

variable {σ : Type}

theorem BitrateRun.set_of_success {fd : Int} {bmin : Int} {ok : Bool} {evs : List Event}
    (h : BitrateRun fd bmin ok evs) (e : Event) (he : e ∈ evs) (h0 : e.reply.ret = 0) :
    ∃ x ∈ evs, ∃ conf, x.call = .ioctl fd .UVCIOC_CTRL_QUERY (bitrateSet conf bmin) := by
  have hni : ¬ Interrupted e := fun hi => by
    have := hi.1; rw [h0] at this; exact absurd this (by decide)
  have pick : ∀ (st : List Event) (res : Option Reply) (conf : Arg),
      IoctlEvents (.ioctl fd .UVCIOC_CTRL_QUERY (bitrateSet conf bmin)) st res → st ≠ [] →
      ∃ x ∈ st, ∃ conf, x.call = .ioctl fd .UVCIOC_CTRL_QUERY (bitrateSet conf bmin) := by
    intro st res conf hs hne
    obtain ⟨x, hx⟩ := List.exists_mem_of_ne_nil st hne
    exact ⟨x, hx, conf, hs.call_eq x hx⟩
  cases h with
  | get_hang g hg => exact absurd (hg.interrupted_of_none e he) hni
  | get_failed g r1 hg h1 =>
    have hre : some r1 = some e.reply := hg.reply_of_not_interrupted e he hni
    cases hre
    exact absurd h0 h1
  | set_hang g r1 hg h1 st hs hne =>
    obtain ⟨x, hx, hc⟩ := pick st _ _ hs hne
    exact ⟨x, List.mem_append_right _ hx, hc⟩
  | set_failed g r1 hg h1 st r2 hs h2 =>
    obtain ⟨x, hx, hc⟩ := pick st _ _ hs hs.ne_nil_of_some
    exact ⟨x, List.mem_append_right _ hx, hc⟩
  | check g r1 hg h1 st r2 hs h2 ck res hc =>
    obtain ⟨x, hx, hc⟩ := pick st _ _ hs hs.ne_nil_of_some
    exact ⟨x, List.mem_append_right _ (List.mem_append_left _ hx), hc⟩

end Bitrate

/-! ## The constructor in three parts -/

section Parts

variable {σ α β γ : Type}

theorem prog_bind_assoc (m : Prog σ α) (f : α → Prog σ β) (g : β → Prog σ γ) :
    (m >>= f) >>= g = m >>= fun a => f a >>= g := by
  funext s
  simp only [run_bind]
  rcases m s with ⟨o, s1⟩
  cases o <;> rfl

theorem run_bind_ok_inv {m : Prog σ α} {f : α → Prog σ β} {s s' : Sys σ} {b : β}
    (h : (m >>= f) s = (.ok b, s')) : ∃ a s1, m s = (.ok a, s1) ∧ f a s1 = (.ok b, s') := by
  rw [run_bind] at h
  rcases hm : m s with ⟨o, s1⟩
  rw [hm] at h
  cases o with
  | ok a => exact ⟨a, s1, rfl, h⟩
  | fail e => simp at h

/-- The constructor is its first part, then "Initialize MMAP", then its last
part. -/
theorem new_eq (drv : Driver) (fuel : Nat) (p : c920_parameters_t σ) :
    c920_device_t.new drv fuel p =
      (negotiate drv fuel p >>= fun _ => requestBuffers drv fuel >>= fun count =>
        primeBuffers drv fuel p count) := by
  unfold c920_device_t.new negotiate primeBuffers
  simp only [prog_bind_assoc]

theorem negotiate_keeps (drv : Driver) (fuel : Nat) (p : c920_parameters_t σ) :
    Keeps (OfKinds negotiateKinds) (fun _ => ()) (negotiate drv fuel p) := by
  unfold negotiate
  refine Keeps.bind (Keeps.modifyDev _ fun _ => rfl) fun _ => ?_
  refine Keeps.bind ((identifyDevice_keeps drv p).mono (OfKinds.weaken (by decide))
    fun _ _ _ => rfl) fun _ => ?_
  refine Keeps.bind ((openDevice_keeps drv p).mono (OfKinds.weaken (by decide))
    fun _ _ _ => rfl) fun _ => ?_
  refine Keeps.bind ((queryCapabilities_keeps drv fuel).mono (OfKinds.weaken (by decide))
    fun _ _ _ => rfl) fun _ => ?_
  refine Keeps.bind ((setCrop_keeps drv fuel).mono (OfKinds.weaken (by decide))
    fun _ _ _ => rfl) fun _ => ?_
  refine Keeps.bind ((setFormat_keeps drv fuel p).mono (OfKinds.weaken (by decide))
    fun _ _ _ => rfl) fun _ => ?_
  exact (setFrameRate_keeps drv fuel p).mono (OfKinds.weaken (by decide)) fun _ _ _ => rfl

end Parts

/-! ## Successful runs of the buffer sections of the constructor -/

section Pool

variable {σ : Type}

theorem okIndex_of_failed (request : Request) (e : Event) (h : e.reply.ret = -1) :
    okIndex request e = none := by
  unfold okIndex
  split <;> simp [h]

theorem okIndex_of_kind (request : Request) (ks : List Kind) (hk : Kind.ioctl request ∉ ks)
    (e : Event) (h : OfKinds ks e) : okIndex request e = none := by
  unfold okIndex
  split
  · rename_i fd r arg hc
    have : r ≠ request := by
      intro hr
      apply hk
      have h2 : e.call.kind ∈ ks := h
      rw [hc] at h2
      rw [← hr]
      exact h2
    simp [this]
  · rfl

theorem okMap_of_kind (ks : List Kind) (hk : Kind.mmap ∉ ks) (e : Event) (h : OfKinds ks e) :
    okMap e = none := by
  unfold okMap
  split
  · rename_i len fd off hc
    exfalso
    apply hk
    have h2 : e.call.kind ∈ ks := h
    rw [hc] at h2
    exact h2
  · rfl

theorem filterMap_eq_nil_of_forall {α β : Type} (f : α → Option β) (l : List α)
    (h : ∀ a ∈ l, f a = none) : l.filterMap f = [] := by
  induction l with
  | nil => rfl
  | cons a t ih =>
    rw [List.filterMap_cons, h a (List.mem_cons_self _ _)]
    exact ih fun b hb => h b (List.mem_cons_of_mem _ hb)

theorem queuedIndices_of_kinds (ks : List Kind) (hk : Kind.ioctl .VIDIOC_QBUF ∉ ks)
    (evs : List Event) (h : ∀ e ∈ evs, OfKinds ks e) : queuedIndices evs = [] :=
  filterMap_eq_nil_of_forall _ _ fun e he => okIndex_of_kind _ ks hk e (h e he)

theorem queriedIndices_of_kinds (ks : List Kind) (hk : Kind.ioctl .VIDIOC_QUERYBUF ∉ ks)
    (evs : List Event) (h : ∀ e ∈ evs, OfKinds ks e) : queriedIndices evs = [] :=
  filterMap_eq_nil_of_forall _ _ fun e he => okIndex_of_kind _ ks hk e (h e he)

theorem mappedBuffers_of_kinds (ks : List Kind) (hk : Kind.mmap ∉ ks)
    (evs : List Event) (h : ∀ e ∈ evs, OfKinds ks e) : mappedBuffers evs = [] :=
  filterMap_eq_nil_of_forall _ _ fun e he => okMap_of_kind ks hk e (h e he)

theorem queuedIndices_append (a b : List Event) :
    queuedIndices (a ++ b) = queuedIndices a ++ queuedIndices b := by
  simp [queuedIndices, List.filterMap_append]

theorem queriedIndices_append (a b : List Event) :
    queriedIndices (a ++ b) = queriedIndices a ++ queriedIndices b := by
  simp [queriedIndices, List.filterMap_append]

theorem mappedBuffers_append (a b : List Event) :
    mappedBuffers (a ++ b) = mappedBuffers a ++ mappedBuffers b := by
  simp [mappedBuffers, List.filterMap_append]

/-- The successful attempt of a run of `ioctl_ex` is the only one that counts
for `okIndex`. -/
theorem filterMap_okIndex_run {fh : Int} {request : Request} {arg : Arg} {evs : List Event}
    {r : Reply} (h : IoctlEvents (.ioctl fh request arg) evs (some r)) (hr : r.ret ≠ -1) :
    evs.filterMap (okIndex request) = [u32 arg.index] := by
  obtain ⟨pre, rfl, hp, -⟩ := h.split_of_some
  rw [List.filterMap_append,
    filterMap_eq_nil_of_forall _ pre fun e he => okIndex_of_failed _ e (hp e he).2.1]
  simp [okIndex, hr]

theorem ofKinds_run {fh : Int} {request : Request} {arg : Arg} {evs : List Event}
    {res : Option Reply} (h : IoctlEvents (.ioctl fh request arg) evs res) (ks : List Kind)
    (hk : Kind.ioctl request ∈ ks) : ∀ e ∈ evs, OfKinds ks e := by
  intro e he
  have hc := h.call_eq e he
  unfold OfKinds
  rw [hc]
  exact hk

theorem take_set_succ {α : Type} (l : List α) (i : Nat) (b : α) (h : i < l.length) :
    (l.set i b).take (i + 1) = l.take i ++ [b] := by
  induction l generalizing i with
  | nil => simp at h
  | cons a t ih =>
    cases i with
    | zero => simp
    | succ j =>
      simp only [List.length_cons, Nat.add_lt_add_iff_right] at h
      simp [ih j h]

/-- A pass of the mapping loop that completes: one successful
`VIDIOC_QUERYBUF` for the index `_num_buffers`, one successful `mmap`, whose
region is stored at that index. -/
theorem mapBuffer_ok (drv : Driver) (fuel : Nat) (s s' : Sys σ)
    (h : mapBuffer drv fuel s = (.ok (), s')) :
    ∃ evs b, s'.trace = s.trace ++ evs ∧
      (∀ e ∈ evs, OfKinds [.ioctl .VIDIOC_QUERYBUF, .mmap] e) ∧
      queriedIndices evs = [u32 s.dev._num_buffers] ∧ mappedBuffers evs = [b] ∧
      s'.dev = { s.dev with _buffers := s.dev._buffers.set s.dev._num_buffers b } := by
  obtain ⟨qs, res, hq, hrun, -⟩ := ioctl_ex_run drv fuel s.dev._fd .VIDIOC_QUERYBUF
    { type := V4L2_BUF_TYPE_VIDEO_CAPTURE, memory := V4L2_MEMORY_MMAP,
      index := u32 s.dev._num_buffers } s
  unfold mapBuffer at h
  rw [run_bind, run_getDev] at h
  dsimp only at h
  rw [run_bind, hrun] at h
  cases res with
  | none => simp [ioctlResult] at h
  | some r =>
    simp only [ioctlResult] at h
    by_cases h1 : r.ret = -1
    · simp [h1] at h
    · simp only [h1, if_false, run_bind, run_throwIf_neg, not_false_eq_true, run_syscall,
        run_modifyDev] at h
      by_cases h2 : (drv (afterIoctl s qs).trace
          (.mmap (u32 r.arg.length) s.dev._fd (u32 r.arg.offset))).ret = MAP_FAILED
      · simp [h2] at h
      · simp only [h2, run_throwIf_neg, not_false_eq_true, Prod.mk.injEq, true_and] at h
        subst h
        refine ⟨qs ++ [⟨.mmap (u32 r.arg.length) s.dev._fd (u32 r.arg.offset),
          drv (afterIoctl s qs).trace (.mmap (u32 r.arg.length) s.dev._fd (u32 r.arg.offset))⟩],
          ⟨(drv (afterIoctl s qs).trace
            (.mmap (u32 r.arg.length) s.dev._fd (u32 r.arg.offset))).ret, u32 r.arg.length⟩,
          ?_, ?_, ?_, ?_, ?_⟩
        · simp [afterIoctl]
        · intro e he
          rcases List.mem_append.mp he with he | he
          · exact ofKinds_run hq _ (by simp) e he
          · rw [List.mem_singleton.mp he]; simp [OfKinds, Call.kind]
        · rw [queriedIndices_append]
          have := filterMap_okIndex_run hq h1
          simp only [queriedIndices]
          rw [this]
          simp [okIndex, u32]
        · rw [mappedBuffers_append,
            mappedBuffers_of_kinds [.ioctl .VIDIOC_QUERYBUF] (by decide) qs
              (ofKinds_run hq _ (by simp))]
          simp [mappedBuffers, okMap, h2]
        · simp [afterIoctl]

end Pool

section PoolLoops

variable {σ : Type}

theorem u32_of_lt {n : Nat} (h : n < 2 ^ 32) : u32 n = n := Nat.mod_eq_of_lt h

/-- A mapping loop that completes from `_num_buffers = i` with `n` passes left,
`i + n = count`: it queries the indices `i, ..., count - 1` in order, maps one
region per index and stores it at that index. -/
theorem mapBuffers_ok (drv : Driver) (fuel count : Nat) (hc : count < 2 ^ 32) :
    ∀ (n : Nat) (s s' : Sys σ), s.dev._num_buffers + n = count →
      s.dev._buffers.length = count →
      mapBuffers drv fuel count n s = (.ok (), s') →
      ∃ evs, s'.trace = s.trace ++ evs ∧
        (∀ e ∈ evs, OfKinds [.ioctl .VIDIOC_QUERYBUF, .mmap] e) ∧
        queriedIndices evs = List.range' s.dev._num_buffers n ∧
        (mappedBuffers evs).length = n ∧
        s'.dev._num_buffers = count ∧
        s'.dev._buffers = s.dev._buffers.take s.dev._num_buffers ++ mappedBuffers evs := by
  intro n
  induction n with
  | zero =>
    intro s s' hn hl h
    rw [mapBuffers, run_pure] at h
    cases h
    refine ⟨[], by simp, by simp, by simp [queriedIndices], by simp [mappedBuffers], by simpa using hn, ?_⟩
    simp only [mappedBuffers, List.filterMap_nil, List.append_nil]
    rw [List.take_of_length_le]
    omega
  | succ n ih =>
    intro s s' hn hl h
    have hlt : s.dev._num_buffers < count := by omega
    rw [mapBuffers, run_bind, run_getDev] at h
    dsimp only at h
    rw [if_pos hlt] at h
    obtain ⟨u, s1, h1, h⟩ := run_bind_ok_inv h
    obtain ⟨evs1, b, ht1, hk1, hq1, hm1, hd1⟩ := mapBuffer_ok drv fuel s s1 h1
    rw [run_bind, run_modifyDev] at h
    dsimp only at h
    have hnum : s1.dev._num_buffers = s.dev._num_buffers := by rw [hd1]
    have hbuf : s1.dev._buffers = s.dev._buffers.set s.dev._num_buffers b := by rw [hd1]
    obtain ⟨evs2, ht2, hk2, hq2, hm2, hn2, hb2⟩ := ih
      { s1 with dev := { s1.dev with _num_buffers := s1.dev._num_buffers + 1 } } s'
      (by simp only [hnum]; omega) (by simp only [hbuf, List.length_set]; exact hl) h
    simp only [hnum, hbuf] at hq2 hb2 ht2
    refine ⟨evs1 ++ evs2, ?_, ?_, ?_, ?_, hn2, ?_⟩
    · rw [ht2, ht1, List.append_assoc]
    · intro e he
      rcases List.mem_append.mp he with he | he
      · exact hk1 e he
      · exact hk2 e he
    · rw [queriedIndices_append, hq1, hq2, u32_of_lt (by omega)]
      rfl
    · rw [mappedBuffers_append, List.length_append, hm1, hm2]
      simp [Nat.add_comm]
    · rw [hb2, take_set_succ _ _ _ (by omega), mappedBuffers_append, hm1, List.append_assoc]

/-- The section "Allocate buffers to map", when it completes for `count`
granted buffers: the indices `0, ..., count - 1` were queried in order, `count`
regions were mapped, and the pool is these regions in that order. -/
theorem allocateBuffers_ok (drv : Driver) (fuel count : Nat) (hc : count < 2 ^ 32)
    (s s' : Sys σ) (h : allocateBuffers drv fuel count s = (.ok (), s')) :
    ∃ evs, s'.trace = s.trace ++ evs ∧
      (∀ e ∈ evs, OfKinds [.calloc, .ioctl .VIDIOC_QUERYBUF, .mmap] e) ∧
      queriedIndices evs = List.range count ∧ (mappedBuffers evs).length = count ∧
      s'.dev._num_buffers = count ∧ s'.dev._buffers = mappedBuffers evs := by
  unfold allocateBuffers at h
  rw [run_bind, run_syscall] at h
  dsimp only at h
  rw [run_bind, run_modifyDev] at h
  dsimp only at h
  obtain ⟨u, s1, h1, h⟩ := run_bind_ok_inv h
  by_cases hm : (drv s.trace (.calloc count)).ret = 0
  · rw [run_throwIf_pos hm] at h1
    simp at h1
  rw [run_throwIf_neg hm] at h1
  cases h1
  rw [run_bind, run_modifyDev] at h
  dsimp only at h
  obtain ⟨evs, ht, hk, hq, hl, hn, hb⟩ := mapBuffers_ok drv fuel count hc count _ s' (by simp)
    (by simp) h
  simp only [List.take_zero, List.nil_append] at hb ht hq
  refine ⟨⟨.calloc count, drv s.trace (.calloc count)⟩ :: evs, ?_, ?_, ?_, ?_, hn, ?_⟩
  · rw [ht]; simp
  · intro e he
    rcases List.mem_cons.mp he with rfl | he
    · simp [OfKinds, Call.kind]
    · exact OfKinds.weaken (by decide) e (hk e he)
  · have : queriedIndices (⟨.calloc count, drv s.trace (.calloc count)⟩ :: evs) =
        queriedIndices evs := by simp [queriedIndices, List.filterMap_cons, okIndex]
    rw [this, hq, List.range_eq_range']
  · have : mappedBuffers (⟨.calloc count, drv s.trace (.calloc count)⟩ :: evs) =
        mappedBuffers evs := by simp [mappedBuffers, List.filterMap_cons, okMap]
    rw [this, hl]
  · have : mappedBuffers (⟨.calloc count, drv s.trace (.calloc count)⟩ :: evs) =
        mappedBuffers evs := by simp [mappedBuffers, List.filterMap_cons, okMap]
    rw [this, hb]

/-- A pass of the queueing loop that completes: one successful `VIDIOC_QBUF`
for the index `i`. -/
theorem queueBuffer_ok (drv : Driver) (fuel i : Nat) (s s' : Sys σ)
    (h : queueBuffer drv fuel i s = (.ok (), s')) :
    ∃ evs, s'.trace = s.trace ++ evs ∧ (∀ e ∈ evs, OfKinds [.ioctl .VIDIOC_QBUF] e) ∧
      queuedIndices evs = [u32 i] ∧ s'.dev = s.dev := by
  obtain ⟨qs, res, hq, hrun, -⟩ := ioctl_ex_run drv fuel s.dev._fd .VIDIOC_QBUF
    { type := V4L2_BUF_TYPE_VIDEO_CAPTURE, memory := V4L2_MEMORY_MMAP, index := u32 i } s
  unfold queueBuffer at h
  rw [run_bind, run_getDev] at h
  dsimp only at h
  rw [run_bind, hrun] at h
  cases res with
  | none => simp [ioctlResult] at h
  | some r =>
    simp only [ioctlResult] at h
    by_cases h1 : r.ret = -1
    · simp [h1] at h
    · simp only [h1, if_false, run_throwIf_neg, not_false_eq_true, Prod.mk.injEq, true_and] at h
      subst h
      refine ⟨qs, by simp [afterIoctl], ofKinds_run hq _ (by simp), ?_, by simp [afterIoctl]⟩
      have := filterMap_okIndex_run hq h1
      simp only [queuedIndices]
      rw [this]
      simp [u32]

/-- A queueing loop that completes queues the indices `i, ..., i + n - 1` in
order and leaves the device object as it is. -/
theorem forRange_queueBuffer_ok (drv : Driver) (fuel : Nat) :
    ∀ (n i : Nat) (s s' : Sys σ), i + n ≤ 2 ^ 32 →
      forRange (queueBuffer drv fuel) i n s = (.ok (), s') →
      ∃ evs, s'.trace = s.trace ++ evs ∧ (∀ e ∈ evs, OfKinds [.ioctl .VIDIOC_QBUF] e) ∧
        queuedIndices evs = List.range' i n ∧ s'.dev = s.dev := by
  intro n
  induction n with
  | zero =>
    intro i s s' hi h
    rw [forRange, run_pure] at h
    cases h
    exact ⟨[], by simp, by simp, by simp [queuedIndices], rfl⟩
  | succ n ih =>
    intro i s s' hi h
    rw [forRange] at h
    obtain ⟨u, s1, h1, h⟩ := run_bind_ok_inv h
    obtain ⟨evs1, ht1, hk1, hq1, hd1⟩ := queueBuffer_ok drv fuel i s s1 h1
    obtain ⟨evs2, ht2, hk2, hq2, hd2⟩ := ih (i + 1) s1 s' (by omega) h
    refine ⟨evs1 ++ evs2, ?_, ?_, ?_, by rw [hd2, hd1]⟩
    · rw [ht2, ht1, List.append_assoc]
    · intro e he
      rcases List.mem_append.mp he with he | he
      · exact hk1 e he
      · exact hk2 e he
    · rw [queuedIndices_append, hq1, hq2, u32_of_lt (by omega)]
      rfl

/-- The queueing loop over the pool, when it completes: every index of the pool
was queued once, in increasing order. -/
theorem queueBuffers_ok (drv : Driver) (fuel : Nat) (s s' : Sys σ)
    (hn : s.dev._num_buffers ≤ 2 ^ 32) (h : queueBuffers drv fuel s = (.ok (), s')) :
    ∃ evs, s'.trace = s.trace ++ evs ∧ (∀ e ∈ evs, OfKinds [.ioctl .VIDIOC_QBUF] e) ∧
      queuedIndices evs = List.range s.dev._num_buffers ∧ s'.dev = s.dev := by
  unfold queueBuffers at h
  rw [run_bind, run_getDev] at h
  dsimp only at h
  obtain ⟨evs, ht, hk, hq, hd⟩ := forRange_queueBuffer_ok drv fuel _ 0 s s' (by omega) h
  exact ⟨evs, ht, hk, by rw [hq, List.range_eq_range'], hd⟩

end PoolLoops

/-! ## Runs of the constructor -/

section Construction

variable {σ : Type}

/-- The run of the section "Initialize MMAP": the attempts of
`VIDIOC_REQBUFS`, and the outcome from the last one. -/
theorem requestBuffers_run (drv : Driver) (fuel : Nat) (s : Sys σ) :
    ∃ evs res,
      IoctlEvents (.ioctl s.dev._fd .VIDIOC_REQBUFS
        { count := 4, type := V4L2_BUF_TYPE_VIDEO_CAPTURE, memory := V4L2_MEMORY_MMAP }) evs res ∧
      (requestBuffers drv fuel s).2 = afterIoctl s evs ∧
      match res with
      | none => (requestBuffers drv fuel s).1 = .fail .hang
      | some r =>
        if r.ret = -1 then
          ∃ t, t ≠ Throw.insufficient_memory ∧
            (requestBuffers drv fuel s).1 = .fail (.thrown ⟨t, r.err⟩)
        else if u32 r.arg.count < 2 then
          (requestBuffers drv fuel s).1 =
            .fail (.thrown ⟨.insufficient_memory, errnoAfter s.errno evs⟩)
        else (requestBuffers drv fuel s).1 = .ok (u32 r.arg.count) := by
  obtain ⟨evs, res, hev, hrun, -⟩ := ioctl_ex_run drv fuel s.dev._fd .VIDIOC_REQBUFS
    { count := 4, type := V4L2_BUF_TYPE_VIDEO_CAPTURE, memory := V4L2_MEMORY_MMAP } s
  refine ⟨evs, res, hev, ?_⟩
  unfold requestBuffers
  rw [run_bind, run_getDev]
  dsimp only
  rw [run_bind, hrun]
  cases hev with
  | hang evs hh => simp [ioctlResult]
  | done pre r hp hr =>
    simp only [ioctlResult]
    by_cases h1 : r.ret = -1
    · have he : ∀ (t : Sys σ) (c : Call), (afterIoctl t (pre ++ [⟨c, r⟩])).errno = r.err :=
        fun t c => errnoAfter_done _ _ _ _ h1
      by_cases h2 : r.err = EINVAL
      · simp only [h1, if_true, run_bind, run_getSys, he, h2, run_throwEx, true_and]
        exact ⟨.no_mmap, by decide, rfl⟩
      · simp only [h1, if_true, run_bind, run_getSys, he, h2, if_false, run_throwEx, true_and]
        exact ⟨.error_reqbufs, by decide, rfl⟩
    · by_cases h2 : u32 r.arg.count < 2
      · simp [h1, h2, afterIoctl]
      · simp [h1, h2]

theorem primeBuffers_keeps (drv : Driver) (fuel : Nat) (p : c920_parameters_t σ) (count : Nat) :
    Keeps (OfKinds [.calloc, .ioctl .VIDIOC_QUERYBUF, .mmap, .ioctl .VIDIOC_QBUF, .malloc])
      (fun _ => ()) (primeBuffers drv fuel p count) := by
  unfold primeBuffers
  refine Keeps.bind ((allocateBuffers_keeps drv fuel count).mono (OfKinds.weaken (by decide))
    fun _ _ _ => rfl) fun _ => ?_
  refine Keeps.bind ((queueBuffers_keeps drv fuel).mono (OfKinds.weaken (by decide))
    fun _ _ _ => rfl) fun _ => ?_
  exact (copyDeviceName_keeps drv p).mono (OfKinds.weaken (by decide)) fun _ _ _ => rfl

/-- The last part of the constructor, when it completes for `count` granted
buffers: every index below `count` was queried, mapped and queued once, in
increasing order, and the pool holds the mapped regions. -/
theorem primeBuffers_ok (drv : Driver) (fuel : Nat) (p : c920_parameters_t σ) (count : Nat)
    (hc : count < 2 ^ 32) (s s' : Sys σ) (h : primeBuffers drv fuel p count s = (.ok (), s')) :
    ∃ evs, s'.trace = s.trace ++ evs ∧
      (∀ e ∈ evs,
        OfKinds [.calloc, .ioctl .VIDIOC_QUERYBUF, .mmap, .ioctl .VIDIOC_QBUF, .malloc] e) ∧
      queriedIndices evs = List.range count ∧ queuedIndices evs = List.range count ∧
      (mappedBuffers evs).length = count ∧ s'.dev._num_buffers = count ∧
      s'.dev._buffers = mappedBuffers evs := by
  unfold primeBuffers at h
  obtain ⟨u, s1, h1, h⟩ := run_bind_ok_inv h
  obtain ⟨u2, s2, h2, h3⟩ := run_bind_ok_inv h
  obtain ⟨e1, ht1, hk1, hq1, hl1, hn1, hb1⟩ := allocateBuffers_ok drv fuel count hc s s1 h1
  obtain ⟨e2, ht2, hk2, hq2, hd2⟩ := queueBuffers_ok drv fuel s1 s2 (by omega) h2
  obtain ⟨⟨e3, ht3, hk3⟩, hd3, -⟩ := copyDeviceName_keeps drv p s2
  rw [h3] at ht3 hd3
  simp only [Prod.mk.injEq] at hd3
  have hQ1 := queuedIndices_of_kinds _ (by decide) e1 hk1
  have hQ3 := queuedIndices_of_kinds _ (by decide) e3 hk3
  have hR2 := queriedIndices_of_kinds _ (by decide) e2 hk2
  have hR3 := queriedIndices_of_kinds _ (by decide) e3 hk3
  have hM2 := mappedBuffers_of_kinds _ (by decide) e2 hk2
  have hM3 := mappedBuffers_of_kinds _ (by decide) e3 hk3
  refine ⟨e1 ++ (e2 ++ e3), ?_, ?_, ?_, ?_, ?_, ?_, ?_⟩
  · rw [ht3, ht2, ht1]; simp
  · intro e he
    rcases List.mem_append.mp he with he | he
    · exact OfKinds.weaken (by decide) e (hk1 e he)
    · rcases List.mem_append.mp he with he | he
      · exact OfKinds.weaken (by decide) e (hk2 e he)
      · exact OfKinds.weaken (by decide) e (hk3 e he)
  · simp [queriedIndices_append, hq1, hR2, hR3]
  · simp [queuedIndices_append, hQ1, hq2, hQ3, hn1]
  · simp [mappedBuffers_append, hM2, hM3, hl1]
  · rw [hd3.2.2.1, hd2, hn1]
  · rw [hd3.2.2.2.1, hd2, hb1]; simp [mappedBuffers_append, hM2, hM3]

/-- How a run of the constructor goes through its three parts. -/
theorem new_cases (drv : Driver) (fuel : Nat) (p : c920_parameters_t σ) (s : Sys σ) :
    (∃ f, (negotiate drv fuel p s).1 = .fail f ∧
      c920_device_t.new drv fuel p s = negotiate drv fuel p s) ∨
    ∃ s1, negotiate drv fuel p s = (.ok (), s1) ∧
      ((∃ f, (requestBuffers drv fuel s1).1 = .fail f ∧
          c920_device_t.new drv fuel p s = (.fail f, (requestBuffers drv fuel s1).2)) ∨
       ∃ count s2, requestBuffers drv fuel s1 = (.ok count, s2) ∧
          c920_device_t.new drv fuel p s = primeBuffers drv fuel p count s2) := by
  rw [new_eq, run_bind]
  rcases hn : negotiate drv fuel p s with ⟨o, s1⟩
  cases o with
  | fail f => exact Or.inl ⟨f, rfl, rfl⟩
  | ok u =>
    refine Or.inr ⟨s1, rfl, ?_⟩
    dsimp only
    rw [run_bind]
    rcases hr : requestBuffers drv fuel s1 with ⟨o2, s2⟩
    cases o2 with
    | fail f => exact Or.inl ⟨f, rfl, rfl⟩
    | ok count => exact Or.inr ⟨count, s2, rfl, rfl⟩

theorem isRequest_of_kind (request : Request) (ks : List Kind) (hk : Kind.ioctl request ∉ ks)
    (e : Event) (h : OfKinds ks e) : e.call.isRequest request = false := by
  have h2 : e.call.kind ∈ ks := h
  cases hc : e.call with
  | ioctl fd r arg =>
    rw [hc] at h2
    simp only [Call.isRequest, beq_eq_false_iff_ne, ne_eq]
    intro hr
    apply hk
    rw [← hr]
    exact h2
  | _ => rfl

theorem isRequest_of_run {fh : Int} {request : Request} {arg : Arg} {evs : List Event}
    {res : Option Reply} (h : IoctlEvents (.ioctl fh request arg) evs res) :
    ∀ e ∈ evs, e.call.isRequest request = true := by
  intro e he
  rw [h.call_eq e he]
  simp [Call.isRequest]

/-- A successful construction: the driver granted `N` buffers, at least 2, by
the one successful `VIDIOC_REQBUFS`; the pool has `N` entries, the regions
mapped, in order; the indices below `N` were queried and queued once each, in
increasing order; the device is stopped, holds the parameters, and the sink
was not called. -/
theorem new_ok (drv : Driver) (fuel : Nat) (p : c920_parameters_t σ) (s s' : Sys σ)
    (h : c920_device_t.new drv fuel p s = (.ok (), s')) :
    ∃ evs, s'.trace = s.trace ++ evs ∧ 2 ≤ s'.dev._num_buffers ∧
      s'.dev._num_buffers < 2 ^ 32 ∧
      s'.dev._buffers = mappedBuffers evs ∧
      (mappedBuffers evs).length = s'.dev._num_buffers ∧
      queriedIndices evs = List.range s'.dev._num_buffers ∧
      queuedIndices evs = List.range s'.dev._num_buffers ∧
      s'.dev._playing = false ∧ s'.dev._c920_parameters = p ∧ s'.sink = s.sink ∧
      (∃ e ∈ evs, e.call.isRequest .VIDIOC_REQBUFS = true ∧ e.reply.ret ≠ -1) ∧
      ∀ e ∈ evs, e.call.isRequest .VIDIOC_REQBUFS = true → e.reply.ret ≠ -1 →
        u32 e.reply.arg.count = s'.dev._num_buffers := by
  have hkept := new_kept drv fuel p s
  rw [h] at hkept
  obtain ⟨-, hπ, hsink⟩ := hkept
  simp only [Prod.mk.injEq] at hπ
  rcases new_cases drv fuel p s with ⟨f, hf, he⟩ | ⟨s1, hn, hrest⟩
  · rw [he] at h; rw [h] at hf; cases hf
  rcases hrest with ⟨f, hf, he⟩ | ⟨count, s2, hr, he⟩
  · rw [he] at h; cases h
  rw [he] at h
  obtain ⟨⟨e1, ht1, hk1⟩, -, -⟩ := negotiate_keeps drv fuel p s
  rw [hn] at ht1
  dsimp only at ht1
  obtain ⟨e2, res, hev, hs2, hout⟩ := requestBuffers_run drv fuel s1
  rw [hr] at hs2 hout
  dsimp only at hs2 hout
  cases res with
  | none => cases hout
  | some r =>
    dsimp only at hout
    by_cases h1 : r.ret = -1
    · rw [if_pos h1] at hout
      obtain ⟨t, -, ht⟩ := hout
      cases ht
    rw [if_neg h1] at hout
    by_cases h2 : u32 r.arg.count < 2
    · rw [if_pos h2] at hout; cases hout
    rw [if_neg h2] at hout
    have hcount : count = u32 r.arg.count := by cases hout; rfl
    have hlt : count < 2 ^ 32 := by rw [hcount]; exact Nat.mod_lt _ (by decide)
    obtain ⟨e3, ht3, hk3, hq3, hQ3, hl3, hn3, hb3⟩ := primeBuffers_ok drv fuel p count hlt s2 s' h
    have hk2 : ∀ e ∈ e2, OfKinds [.ioctl .VIDIOC_REQBUFS] e := ofKinds_run hev _ (by simp)
    refine ⟨e1 ++ (e2 ++ e3), ?_, by omega, by omega, ?_, ?_, ?_, ?_, hπ.1, hπ.2, hsink, ?_, ?_⟩
    · rw [ht3, hs2]; simp [afterIoctl, ht1]
    · rw [hb3]
      simp [mappedBuffers_append, mappedBuffers_of_kinds _ (by decide) e1 hk1,
        mappedBuffers_of_kinds _ (by decide) e2 hk2]
    · simp [mappedBuffers_append, mappedBuffers_of_kinds _ (by decide) e1 hk1,
        mappedBuffers_of_kinds _ (by decide) e2 hk2, hl3, hn3]
    · simp [queriedIndices_append, queriedIndices_of_kinds _ (by decide) e1 hk1,
        queriedIndices_of_kinds _ (by decide) e2 hk2, hq3, hn3]
    · simp [queuedIndices_append, queuedIndices_of_kinds _ (by decide) e1 hk1,
        queuedIndices_of_kinds _ (by decide) e2 hk2, hQ3, hn3]
    · obtain ⟨pre, hpre, -, -⟩ := hev.split_of_some
      have hmem : ∃ x ∈ e2, x.reply = r := by
        rw [hpre]
        exact ⟨_, List.mem_append_right _ (List.mem_singleton_self _), rfl⟩
      obtain ⟨x, hx, hxr⟩ := hmem
      exact ⟨x, List.mem_append_right _ (List.mem_append_left _ hx),
        isRequest_of_run hev x hx, by rw [hxr]; exact h1⟩
    · intro e he hreq hret
      rcases List.mem_append.mp he with he | he
      · have := isRequest_of_kind .VIDIOC_REQBUFS _ (by decide) e (hk1 e he)
        rw [this] at hreq; cases hreq
      rcases List.mem_append.mp he with he | he
      · have := hev.reply_of_not_interrupted e he (fun hi => hret hi.1)
        cases this
        rw [hn3, hcount]
      · have := isRequest_of_kind .VIDIOC_REQBUFS _ (by decide) e (hk3 e he)
        rw [this] at hreq; cases hreq

/-- A successful `VIDIOC_REQBUFS` that reports fewer than 2 buffers makes the
constructor throw "insufficient memory". -/
theorem new_insufficient (drv : Driver) (fuel : Nat) (p : c920_parameters_t σ) (s : Sys σ)
    (evs : List Event) (ht : (c920_device_t.new drv fuel p s).2.trace = s.trace ++ evs)
    (e : Event) (he : e ∈ evs) (hreq : e.call.isRequest .VIDIOC_REQBUFS = true)
    (hret : e.reply.ret ≠ -1) (hlow : u32 e.reply.arg.count < 2) :
    ∃ n, (c920_device_t.new drv fuel p s).1 = .fail (.thrown ⟨.insufficient_memory, n⟩) := by
  obtain ⟨⟨e1, ht1, hk1⟩, -, -⟩ := negotiate_keeps drv fuel p s
  have hno1 : ∀ x ∈ e1, x.call.isRequest .VIDIOC_REQBUFS = false := fun x hx =>
    isRequest_of_kind .VIDIOC_REQBUFS _ (by decide) x (hk1 x hx)
  rcases new_cases drv fuel p s with ⟨f, hf, hnew⟩ | ⟨s1, hn, hrest⟩
  · rw [hnew, ht1] at ht
    have := List.append_cancel_left ht
    subst this
    rw [hno1 e he] at hreq; cases hreq
  rw [hn] at ht1
  dsimp only at ht1
  obtain ⟨e2, res, hev, hs2, hout⟩ := requestBuffers_run drv fuel s1
  have key : ∀ x ∈ e2, x.reply.ret ≠ -1 → u32 x.reply.arg.count < 2 →
      (requestBuffers drv fuel s1).1 =
        .fail (.thrown ⟨.insufficient_memory, errnoAfter s1.errno e2⟩) := by
    intro x hx hxr hxl
    have := hev.reply_of_not_interrupted x hx (fun hi => hxr hi.1)
    subst this
    dsimp only at hout
    rw [if_neg hxr, if_pos hxl] at hout
    exact hout
  rcases hrest with ⟨f, hf, hnew⟩ | ⟨count, s2, hr, hnew⟩
  · rw [hnew] at ht ⊢
    dsimp only at ht ⊢
    rw [hs2] at ht
    simp only [afterIoctl, ht1, List.append_assoc] at ht
    have := List.append_cancel_left ht
    subst this
    rcases List.mem_append.mp he with he | he
    · rw [hno1 e he] at hreq; cases hreq
    · rw [key e he hret hlow] at hf
      cases hf
      exact ⟨_, rfl⟩
  · obtain ⟨⟨e3, ht3, hk3⟩, -, -⟩ := primeBuffers_keeps drv fuel p count s2
    rw [hnew, ht3] at ht
    rw [hr] at hs2
    dsimp only at hs2
    rw [hs2] at ht
    simp only [afterIoctl, ht1, List.append_assoc] at ht
    have := List.append_cancel_left ht
    subst this
    rcases List.mem_append.mp he with he | he
    · rw [hno1 e he] at hreq; cases hreq
    rcases List.mem_append.mp he with he | he
    · have := key e he hret hlow
      rw [hr] at this
      cases this
    · have := isRequest_of_kind .VIDIOC_REQBUFS _ (by decide) e (hk3 e he)
      rw [this] at hreq; cases hreq

end Construction

/-! ## Runs on a cooperative driver -/

section Coop

variable {σ : Type}

/-- On a cooperative driver `ioctl_ex` makes one attempt, which succeeds. -/
theorem ioctl_ex_coop {drv : Driver} {n : Nat} (hc : Cooperative drv n) (fuel : Nat) (fh : Int)
    (request : Request) (arg : Arg) (s : Sys σ) :
    ioctl_ex drv (fuel + 1) fh request arg s =
      (.ok (0, (drv s.trace (.ioctl fh request arg)).arg),
       afterCall s (.ioctl fh request arg) (drv s.trace (.ioctl fh request arg))) := by
  rw [run_ioctl_ex_done drv fuel fh request arg s (by simp [hc.ioctl_ok])]
  simp [hc.ioctl_ok, afterCall]

theorem identifyDevice_coop {drv : Driver} {n : Nat} (hc : Cooperative drv n)
    (p : c920_parameters_t σ) : AlwaysOk (identifyDevice drv p) := by
  intro s
  refine ⟨(), ?_⟩
  simp [identifyDevice, (hc.stat_ok _ _).1, (hc.stat_ok _ _).2]

theorem openDevice_coop {drv : Driver} {n : Nat} (hc : Cooperative drv n)
    (p : c920_parameters_t σ) : AlwaysOk (openDevice drv p) := by
  intro s
  refine ⟨(), ?_⟩
  simp [openDevice, hc.open_ok]

theorem queryCapabilities_coop {drv : Driver} {n : Nat} (hc : Cooperative drv n) (fuel : Nat) :
    AlwaysOk (queryCapabilities drv (fuel + 1) : Prog σ Unit) := by
  intro s
  refine ⟨(), ?_⟩
  simp [queryCapabilities, ioctl_ex_coop hc, (hc.capture _ _ _).1, (hc.capture _ _ _).2]

theorem setCrop_coop {drv : Driver} {n : Nat} (hc : Cooperative drv n) (fuel : Nat) :
    AlwaysOk (setCrop drv (fuel + 1) : Prog σ Unit) := by
  intro s
  refine ⟨(), ?_⟩
  simp [setCrop, ioctl_ex_coop hc]

theorem setFormat_coop {drv : Driver} {n : Nat} (hc : Cooperative drv n) (fuel : Nat)
    (p : c920_parameters_t σ) (hf : p.format = YUYV ∨ p.format = MJPEG ∨ p.format = H264) :
    AlwaysOk (setFormat drv (fuel + 1) p) := by
  intro s
  refine ⟨(), ?_⟩
  rcases hf with hf | hf | hf <;>
    simp [setFormat, ioctl_ex_coop hc, hf, YUYV, MJPEG, H264]

theorem setFrameRate_coop {drv : Driver} {n : Nat} (hc : Cooperative drv n) (fuel : Nat)
    (p : c920_parameters_t σ) : AlwaysOk (setFrameRate drv (fuel + 1) p) := by
  intro s
  refine ⟨(), ?_⟩
  simp [setFrameRate, ioctl_ex_coop hc]

theorem requestBuffers_coop {drv : Driver} {n : Nat} (hc : Cooperative drv n) (fuel : Nat) :
    AlwaysOk (requestBuffers drv (fuel + 1) : Prog σ Nat) := by
  intro s
  refine ⟨n, ?_⟩
  have h2 := hc.two
  simp only [requestBuffers, run_bind, run_getDev, ioctl_ex_coop hc, run_getSys]
  rw [if_neg (by decide), run_pure]
  dsimp only
  rw [run_throwIf_neg (by rw [hc.count]; omega)]
  dsimp only
  rw [run_pure, hc.count]

theorem mapBuffer_coop {drv : Driver} {n : Nat} (hc : Cooperative drv n) (fuel : Nat) :
    AlwaysOk (mapBuffer drv (fuel + 1) : Prog σ Unit) := by
  intro s
  refine ⟨(), ?_⟩
  simp [mapBuffer, ioctl_ex_coop hc, hc.mmap_ok]

theorem mapBuffers_coop {drv : Driver} {n : Nat} (hc : Cooperative drv n) (fuel count k : Nat) :
    AlwaysOk (mapBuffers drv (fuel + 1) count k : Prog σ Unit) := by
  induction k with
  | zero => exact AlwaysOk.ok_pure ()
  | succ k ih =>
    rw [mapBuffers]
    refine AlwaysOk.ok_bind AlwaysOk.ok_getDev fun d _ _ => ?_
    by_cases h : d._num_buffers < count
    · rw [if_pos h]
      exact AlwaysOk.ok_bind (mapBuffer_coop hc fuel) fun _ _ _ =>
        AlwaysOk.ok_bind (AlwaysOk.ok_modifyDev _) fun _ _ _ => ih
    · rw [if_neg h]
      exact AlwaysOk.ok_pure ()

theorem allocateBuffers_coop {drv : Driver} {n : Nat} (hc : Cooperative drv n)
    (fuel count : Nat) : AlwaysOk (allocateBuffers drv (fuel + 1) count : Prog σ Unit) := by
  unfold allocateBuffers
  refine AlwaysOk.ok_bind (AlwaysOk.ok_syscall _ _) fun mem s hm => ?_
  have hmem : mem.ret ≠ 0 := by
    simp only [run_syscall] at hm
    cases hm
    exact hc.calloc_ok _ _
  exact AlwaysOk.ok_bind (AlwaysOk.ok_modifyDev _) fun _ _ _ =>
    AlwaysOk.ok_bind (AlwaysOk.ok_throwIf hmem _) fun _ _ _ =>
      AlwaysOk.ok_bind (AlwaysOk.ok_modifyDev _) fun _ _ _ => mapBuffers_coop hc fuel count count

theorem queueBuffer_coop {drv : Driver} {n : Nat} (hc : Cooperative drv n) (fuel i : Nat) :
    AlwaysOk (queueBuffer drv (fuel + 1) i : Prog σ Unit) := by
  intro s
  refine ⟨(), ?_⟩
  simp [queueBuffer, ioctl_ex_coop hc]

theorem queueBuffers_coop {drv : Driver} {n : Nat} (hc : Cooperative drv n) (fuel : Nat) :
    AlwaysOk (queueBuffers drv (fuel + 1) : Prog σ Unit) := by
  unfold queueBuffers
  exact AlwaysOk.ok_bind AlwaysOk.ok_getDev fun d _ _ =>
    AlwaysOk.ok_forRange (fun i => queueBuffer_coop hc fuel i) 0 d._num_buffers

theorem copyDeviceName_coop {drv : Driver} {n : Nat} (hc : Cooperative drv n)
    (p : c920_parameters_t σ) : AlwaysOk (copyDeviceName drv p) := by
  intro s
  refine ⟨(), ?_⟩
  simp [copyDeviceName, hc.malloc_ok]

/-- On a cooperative driver the constructor succeeds for each of the three
formats, as soon as `ioctl_ex` may make one attempt. -/
theorem new_coop {drv : Driver} {n : Nat} (hc : Cooperative drv n) (fuel : Nat)
    (p : c920_parameters_t σ) (hf : p.format = YUYV ∨ p.format = MJPEG ∨ p.format = H264)
    (s : Sys σ) : (c920_device_t.new drv (fuel + 1) p s).1 = .ok () := by
  have h : AlwaysOk (c920_device_t.new drv (fuel + 1) p) := by
    unfold c920_device_t.new
    refine AlwaysOk.ok_bind (AlwaysOk.ok_modifyDev _) fun _ _ _ => ?_
    refine AlwaysOk.ok_bind (identifyDevice_coop hc p) fun _ _ _ => ?_
    refine AlwaysOk.ok_bind (openDevice_coop hc p) fun _ _ _ => ?_
    refine AlwaysOk.ok_bind (queryCapabilities_coop hc fuel) fun _ _ _ => ?_
    refine AlwaysOk.ok_bind (setCrop_coop hc fuel) fun _ _ _ => ?_
    refine AlwaysOk.ok_bind (setFormat_coop hc fuel p hf) fun _ _ _ => ?_
    refine AlwaysOk.ok_bind (setFrameRate_coop hc fuel p) fun _ _ _ => ?_
    refine AlwaysOk.ok_bind (requestBuffers_coop hc fuel) fun count _ _ => ?_
    refine AlwaysOk.ok_bind (allocateBuffers_coop hc fuel count) fun _ _ _ => ?_
    exact AlwaysOk.ok_bind (queueBuffers_coop hc fuel) fun _ _ _ => copyDeviceName_coop hc p
  obtain ⟨u, hu⟩ := h s
  exact hu

/-- The driver `frameDriver` is cooperative and grants 4 buffers. -/
theorem frameDriver_cooperative : Cooperative frameDriver 4 where
  stat_ok := fun h path => by
    simp only [frameDriver, S_ISCHR]
    decide
  open_ok := fun h path => by simp [frameDriver]
  ioctl_ok := fun h fd request arg => by cases request <;> rfl
  capture := fun h fd arg => by
    simp [frameDriver, V4L2_CAP_VIDEO_CAPTURE, V4L2_CAP_STREAMING]
  count := fun h fd arg => by simp [frameDriver, u32]
  two := by decide
  calloc_ok := fun h k => by simp [frameDriver]
  malloc_ok := fun h k => by simp [frameDriver]
  mmap_ok := fun h len fd off => by
    simp only [frameDriver, MAP_FAILED]
    omega
  select_ok := fun h nfds fd t => rfl
  index_ok := fun h fd arg => by
    simp only [frameDriver, u32]
    omega
  munmap_ok := fun h addr len => by simp [frameDriver]
  close_ok := fun h fd => by simp [frameDriver]

end Coop

/-! ## The device after a successful construction (C3) -/

section Constructed

variable {σ : Type}

theorem eq_of_fst_ok {α : Type} {m : Prog σ α} {s : Sys σ} {a : α} (h : (m s).1 = .ok a) :
    m s = (.ok a, (m s).2) := by
  rw [← h]

/-- C3: for every configuration, driver behaviour and starting state, when the
constructor succeeds the buffer count `N` that the driver reported in the
successful `VIDIOC_REQBUFS` is at least 2, the pool has `N` entries, which are
the regions of the successful `mmap` calls in order, the indices `0, ..., N-1`
were queried and were queued to the driver once each in increasing order, and
`_playing` is false; and a successful `VIDIOC_REQBUFS` that reports fewer than
2 buffers makes the constructor throw "insufficient memory on device". -/
theorem construction_primes_pool (drv : Driver) (fuel : Nat) (p : c920_parameters_t σ)
    (s : Sys σ) (evs : List Event)
    (ht : (c920_device_t.new drv fuel p s).2.trace = s.trace ++ evs) :
    ((c920_device_t.new drv fuel p s).1 = .ok () →
      2 ≤ (c920_device_t.new drv fuel p s).2.dev._num_buffers ∧
      (∃ e ∈ evs, e.call.isRequest .VIDIOC_REQBUFS = true ∧ e.reply.ret ≠ -1) ∧
      (∀ e ∈ evs, e.call.isRequest .VIDIOC_REQBUFS = true → e.reply.ret ≠ -1 →
        u32 e.reply.arg.count = (c920_device_t.new drv fuel p s).2.dev._num_buffers) ∧
      (c920_device_t.new drv fuel p s).2.dev._buffers = mappedBuffers evs ∧
      (c920_device_t.new drv fuel p s).2.dev._buffers.length =
        (c920_device_t.new drv fuel p s).2.dev._num_buffers ∧
      queriedIndices evs = List.range (c920_device_t.new drv fuel p s).2.dev._num_buffers ∧
      queuedIndices evs = List.range (c920_device_t.new drv fuel p s).2.dev._num_buffers ∧
      (c920_device_t.new drv fuel p s).2.dev._playing = false) ∧
    (∀ e ∈ evs, e.call.isRequest .VIDIOC_REQBUFS = true → e.reply.ret ≠ -1 →
      u32 e.reply.arg.count < 2 →
      ∃ n, (c920_device_t.new drv fuel p s).1 = .fail (.thrown ⟨.insufficient_memory, n⟩) ∧
        Throw.insufficient_memory.message = "insufficient memory on device %s") := by
  constructor
  · intro hok
    obtain ⟨evs', ht', h2, -, hb, hl, hq, hQ, hp, -, -, hex, hall⟩ :=
      new_ok drv fuel p s _ (eq_of_fst_ok hok)
    rw [ht] at ht'
    have := List.append_cancel_left ht'
    subst this
    exact ⟨h2, hex, hall, hb, by rw [hb]; exact hl, hq, hQ, hp⟩
  · intro e he hreq hret hlow
    obtain ⟨n, hn⟩ := new_insufficient drv fuel p s evs ht e he hreq hret hlow
    exact ⟨n, hn, rfl⟩

/-- C3, example: on `frameDriver` the constructor succeeds, and then the pool
has at least 2 entries, each queued once in increasing order. -/
theorem construction_primes_pool_witness :
    (c920_device_t.new frameDriver 1 exampleParams (rawSys exampleParams Statics.init)).1
        = .ok () ∧
      2 ≤ (c920_device_t.new frameDriver 1 exampleParams
        (rawSys exampleParams Statics.init)).2.dev._num_buffers ∧
      queuedIndices (c920_device_t.new frameDriver 1 exampleParams
          (rawSys exampleParams Statics.init)).2.trace =
        List.range (c920_device_t.new frameDriver 1 exampleParams
          (rawSys exampleParams Statics.init)).2.dev._num_buffers := by
  have hok := new_coop frameDriver_cooperative 0 exampleParams (Or.inr (Or.inr rfl))
    (rawSys exampleParams Statics.init)
  have h := (construction_primes_pool frameDriver 1 exampleParams
    (rawSys exampleParams Statics.init) _ (List.nil_append _).symm).1 hok
  exact ⟨hok, h.1, h.2.2.2.2.2.2.1⟩

/-! ## `stop()` on a freshly constructed device (C8) -/

theorem isRequest_of_newKinds (request : Request) (hk : Kind.ioctl request ∉ newKinds)
    (e : Event) (h : OfKinds newKinds e) : e.call.isRequest request = false :=
  isRequest_of_kind request newKinds hk e h

/-- C8: for every configuration and driver behaviour, when the constructor has
succeeded and `start()` was not called, `stop()` returns at once, with the
state and the history as they were: it issues no call at all (no
`VIDIOC_STREAMOFF`, no `VIDIOC_QBUF`), `_playing` is still false, and the
history of the device is the one the constructor left, in which each index
`0, ..., N-1` was queued once and no buffer was dequeued. -/
theorem stop_after_construction (drv : Driver) (fuel : Nat) (p : c920_parameters_t σ)
    (s : Sys σ) (evs : List Event) (drv' : Driver) (fuel' : Nat)
    (hok : (c920_device_t.new drv fuel p s).1 = .ok ())
    (ht : (c920_device_t.new drv fuel p s).2.trace = s.trace ++ evs) :
    stop drv' fuel' (c920_device_t.new drv fuel p s).2 =
        (.ok (), (c920_device_t.new drv fuel p s).2) ∧
      (stop drv' fuel' (c920_device_t.new drv fuel p s).2).2.trace = s.trace ++ evs ∧
      (stop drv' fuel' (c920_device_t.new drv fuel p s).2).2.dev._playing = false ∧
      queuedIndices evs =
        List.range (stop drv' fuel' (c920_device_t.new drv fuel p s).2).2.dev._num_buffers ∧
      (∀ e ∈ evs, e.call.isRequest .VIDIOC_DQBUF = false) ∧
      (∀ e ∈ evs, e.call.isRequest .VIDIOC_STREAMON = false) := by
  obtain ⟨evs', ht', -, -, -, -, -, hQ, hp, -, -, -, -⟩ :=
    new_ok drv fuel p s _ (eq_of_fst_ok hok)
  rw [ht] at ht'
  have := List.append_cancel_left ht'
  subst this
  obtain ⟨⟨evs2, ht2, hk⟩, -, -⟩ := new_kept drv fuel p s
  rw [ht] at ht2
  have := List.append_cancel_left ht2
  subst this
  have hs := stop_of_stopped drv' fuel' _ hp
  refine ⟨hs, ?_, ?_, ?_, ?_, ?_⟩
  · rw [hs]; exact ht
  · rw [hs]; exact hp
  · rw [hs]; exact hQ
  · exact fun e he => isRequest_of_newKinds _ (by decide) e (hk e he)
  · exact fun e he => isRequest_of_newKinds _ (by decide) e (hk e he)

/-- C8, example: on `frameDriver` the constructor succeeds, and `stop()` on
the constructed device, even with a driver that fails every ioctl, returns at
once and leaves the state as it is. -/
theorem stop_after_construction_witness :
    (c920_device_t.new frameDriver 1 exampleParams (rawSys exampleParams Statics.init)).1
        = .ok () ∧
      stop notV4L2Driver 1
          (c920_device_t.new frameDriver 1 exampleParams (rawSys exampleParams Statics.init)).2 =
        (.ok (),
         (c920_device_t.new frameDriver 1 exampleParams (rawSys exampleParams Statics.init)).2) := by
  have hok := new_coop frameDriver_cooperative 0 exampleParams (Or.inr (Or.inr rfl))
    (rawSys exampleParams Statics.init)
  exact ⟨hok, (stop_after_construction frameDriver 1 exampleParams
    (rawSys exampleParams Statics.init) _ notV4L2Driver 1 hok (List.nil_append _).symm).1⟩

end Constructed

/-! ## An unknown format (C9) -/

section UnknownFormat

variable {σ : Type}

/-- An argument of `-f` that is none of the three names changes nothing. -/
theorem setParametersFromArgs_unknown (drv : Driver) (atoi : String → Int)
    (params : c920_parameters_t σ) (optarg : String)
    (hopt : optarg ≠ "YUYV" ∧ optarg ≠ "MJPEG" ∧ optarg ≠ "H264") (s : Sys σ) :
    setParametersFromArgs drv atoi params [('f', optarg)] s = (.ok params, s) := by
  simp [setParametersFromArgs, setParameter, hopt.1, hopt.2.1, hopt.2.2]

theorem run_bind_of_fst_fail {α β : Type} {m : Prog σ α} {g : α → Prog σ β} {s : Sys σ}
    {f : Fault} (h : (m s).1 = .fail f) : (m >>= g) s = (.fail f, (m s).2) := by
  rw [run_bind]
  rcases hm : m s with ⟨o, s1⟩
  rw [hm] at h
  cases o with
  | ok a => cases h
  | fail e =>
    cases h
    rfl

theorem negotiate_eq (drv : Driver) (fuel : Nat) (p : c920_parameters_t σ) :
    negotiate drv fuel p =
      (preFormat drv fuel p >>= fun _ => setFormat drv fuel p >>= fun _ =>
        setFrameRate drv fuel p) := by
  unfold negotiate preFormat
  simp only [prog_bind_assoc]

theorem preFormat_keeps (drv : Driver) (fuel : Nat) (p : c920_parameters_t σ) :
    Keeps (OfKinds preFormatKinds) (fun _ => ()) (preFormat drv fuel p) := by
  unfold preFormat
  refine Keeps.bind (Keeps.modifyDev _ fun _ => rfl) fun _ => ?_
  refine Keeps.bind ((identifyDevice_keeps drv p).mono (OfKinds.weaken (by decide))
    fun _ _ _ => rfl) fun _ => ?_
  refine Keeps.bind ((openDevice_keeps drv p).mono (OfKinds.weaken (by decide))
    fun _ _ _ => rfl) fun _ => ?_
  refine Keeps.bind ((queryCapabilities_keeps drv fuel).mono (OfKinds.weaken (by decide))
    fun _ _ _ => rfl) fun _ => ?_
  exact (setCrop_keeps drv fuel).mono (OfKinds.weaken (by decide)) fun _ _ _ => rfl

/-- With a format code that is none of the three formats, the section "Setting
video format" throws before it makes any call. -/
theorem setFormat_invalid (drv : Driver) (fuel : Nat) (p : c920_parameters_t σ)
    (hf : p.format ≠ YUYV ∧ p.format ≠ MJPEG ∧ p.format ≠ H264) (s : Sys σ) :
    setFormat drv fuel p s = (.fail (.thrown ⟨.invalid_format, s.errno⟩), s) := by
  unfold setFormat
  rw [run_bind, run_getDev]
  dsimp only
  rw [if_neg hf.2.1, if_neg hf.1, if_neg hf.2.2]
  rfl

/-- With a format code that is none of the three formats, the constructor ends
where the section "Setting video format" is reached or before: its run is the
run of what precedes that section, followed by the throw. -/
theorem new_invalid (drv : Driver) (fuel : Nat) (p : c920_parameters_t σ)
    (hf : p.format ≠ YUYV ∧ p.format ≠ MJPEG ∧ p.format ≠ H264) (s : Sys σ) :
    (c920_device_t.new drv fuel p s).2 = (preFormat drv fuel p s).2 ∧
      (∀ u, (c920_device_t.new drv fuel p s).1 ≠ .ok u) ∧
      ((preFormat drv fuel p s).1 = .ok () →
        (c920_device_t.new drv fuel p s).1 =
          .fail (.thrown ⟨.invalid_format, (preFormat drv fuel p s).2.errno⟩)) := by
  have hneg : negotiate drv fuel p s =
      match preFormat drv fuel p s with
      | (.ok _, s1) => (.fail (.thrown ⟨.invalid_format, s1.errno⟩), s1)
      | (.fail e, s1) => (.fail e, s1) := by
    rw [negotiate_eq, run_bind]
    rcases preFormat drv fuel p s with ⟨o, s1⟩
    cases o with
    | ok u =>
      dsimp only
      rw [run_bind, setFormat_invalid drv fuel p hf]
    | fail e => rfl
  rcases new_cases drv fuel p s with ⟨f, hfail, hnew⟩ | ⟨s1, hn, -⟩
  · rw [hnew, hneg]
    rcases preFormat drv fuel p s with ⟨o, s1⟩
    cases o with
    | ok u =>
      refine ⟨rfl, ?_, fun _ => rfl⟩
      intro u h
      cases h
    | fail e =>
      refine ⟨rfl, ?_, ?_⟩
      · intro u h
        cases h
      · intro h
        cases h
  · rw [hneg] at hn
    rcases hpf : preFormat drv fuel p s with ⟨o, s1⟩
    rw [hpf] at hn
    cases o with
    | ok u => simp at hn
    | fail e => simp at hn

theorem openedFds_append (a b : List Event) : openedFds (a ++ b) = openedFds a ++ openedFds b := by
  simp [openedFds, List.filterMap_append]

/-- The section "Open device", when it completes: one `open`, which
succeeded. -/
theorem openDevice_ok (drv : Driver) (p : c920_parameters_t σ) (s s' : Sys σ)
    (h : openDevice drv p s = (.ok (), s')) :
    ∃ r : Reply, r.ret ≠ -1 ∧ s'.trace = s.trace ++ [⟨.open_ p.device_name, r⟩] := by
  unfold openDevice at h
  rw [run_bind, run_syscall] at h
  dsimp only at h
  rw [run_bind, run_modifyDev] at h
  dsimp only at h
  by_cases hr : (drv s.trace (.open_ p.device_name)).ret = -1
  · rw [run_throwIf_pos hr] at h
    cases h
  · rw [run_throwIf_neg hr] at h
    cases h
    exact ⟨_, hr, rfl⟩

/-- When what precedes the section "Setting video format" completes, it has
opened a handle. -/
theorem preFormat_ok (drv : Driver) (fuel : Nat) (p : c920_parameters_t σ) (s s' : Sys σ)
    (evs : List Event) (h : preFormat drv fuel p s = (.ok (), s'))
    (ht : s'.trace = s.trace ++ evs) : openedFds evs ≠ [] := by
  unfold preFormat at h
  rw [run_bind, run_modifyDev] at h
  dsimp only at h
  obtain ⟨u1, s1, h1, h⟩ := run_bind_ok_inv h
  obtain ⟨u2, s2, h2, h⟩ := run_bind_ok_inv h
  obtain ⟨u3, s3, h3, h4⟩ := run_bind_ok_inv h
  obtain ⟨⟨e1, ht1, -⟩, -, -⟩ := identifyDevice_keeps drv p _
  rw [h1] at ht1
  obtain ⟨r, hr, ht2⟩ := openDevice_ok drv p s1 s2 h2
  obtain ⟨⟨e3, ht3, -⟩, -, -⟩ := queryCapabilities_keeps drv fuel s2
  rw [h3] at ht3
  obtain ⟨⟨e4, ht4, -⟩, -, -⟩ := setCrop_keeps drv fuel s3
  rw [h4] at ht4
  dsimp only at ht1 ht3 ht4
  rw [ht4, ht3, ht2, ht1] at ht
  simp only [List.append_assoc] at ht
  have := List.append_cancel_left ht
  subst this
  simp [openedFds_append, openedFds, hr]

theorem preFormatKinds_noRelease (e : Event) (h : OfKinds preFormatKinds e) :
    e.call.isRelease = false :=
  newKinds_noRelease e (OfKinds.weaken (by decide) e h)

end UnknownFormat

/-! ## Which sections can throw which exception -/

section Avoiding

variable {σ α β : Type}

theorem avoids_pure (t : Throw) (a : α) : Avoids t (pure a : Prog σ α) := by
  intro s n h
  cases h

theorem avoids_getDev (t : Throw) : Avoids t (getDev : Prog σ (c920_device_t σ)) := by
  intro s n h
  cases h

theorem avoids_getSys (t : Throw) : Avoids t (getSys : Prog σ (Sys σ)) := by
  intro s n h
  cases h

theorem avoids_modifyDev (t : Throw) (f : c920_device_t σ → c920_device_t σ) :
    Avoids t (modifyDev f) := by
  intro s n h
  cases h

theorem avoids_syscall (t : Throw) (drv : Driver) (c : Call) :
    Avoids t (syscall drv c : Prog σ Reply) := by
  intro s n h
  cases h

theorem avoids_failWith (t : Throw) (f : Fault) (hf : ∀ e, f ≠ .thrown e) :
    Avoids t (failWith f : Prog σ α) := by
  intro s n h
  rw [run_failWith] at h
  exact hf _ (Outcome.fail.inj h)

theorem avoids_throwEx (t t' : Throw) (ht : t' ≠ t) : Avoids t (throwEx t' : Prog σ α) := by
  intro s n h
  rw [run_throwEx] at h
  have := Outcome.fail.inj h
  have h2 := Fault.thrown.inj this
  exact ht (congrArg c920_exception_t.what h2)

theorem avoids_throwIf (t : Throw) (c : Prop) [Decidable c] (t' : Throw) (ht : t' ≠ t) :
    Avoids t (throwIf c t' : Prog σ Unit) := by
  unfold throwIf
  split
  · exact avoids_throwEx t t' ht
  · exact avoids_pure t ()

theorem avoids_bind {t : Throw} {m : Prog σ α} {f : α → Prog σ β} (hm : Avoids t m)
    (hf : ∀ a, Avoids t (f a)) : Avoids t (m >>= f) := by
  intro s n h
  rw [run_bind] at h
  rcases hms : m s with ⟨o, s1⟩
  rw [hms] at h
  cases o with
  | ok a => exact hf a s1 n h
  | fail e =>
    apply hm s n
    rw [hms]
    dsimp only at h ⊢
    exact congrArg Outcome.fail (Outcome.fail.inj h)

theorem avoids_ite {t : Throw} (c : Prop) [Decidable c] {m n : Prog σ α} (hm : Avoids t m)
    (hn : Avoids t n) : Avoids t (if c then m else n) := by
  split
  · exact hm
  · exact hn

theorem avoids_ioctl_ex (t : Throw) (drv : Driver) (fuel : Nat) (fh : Int) (request : Request)
    (arg : Arg) : Avoids t (ioctl_ex drv fuel fh request arg : Prog σ _) := by
  intro s n h
  obtain ⟨evs, res, -, hrun, -⟩ := ioctl_ex_run drv fuel fh request arg s
  rw [hrun] at h
  cases res with
  | none => cases h
  | some r => cases h

theorem avoids_forRange {t : Throw} {body : Nat → Prog σ Unit} (h : ∀ i, Avoids t (body i))
    (i n : Nat) : Avoids t (forRange body i n) := by
  induction n generalizing i with
  | zero => exact avoids_pure t ()
  | succ n ih =>
    rw [C920.forRange]
    exact avoids_bind (h i) fun _ => ih (i + 1)

theorem identifyDevice_avoids (drv : Driver) (p : c920_parameters_t σ) :
    Avoids .invalid_format (identifyDevice drv p) := by
  unfold identifyDevice
  exact avoids_bind (avoids_syscall _ _ _) fun _ =>
    avoids_bind (avoids_throwIf _ _ _ (by decide)) fun _ => avoids_throwIf _ _ _ (by decide)

theorem openDevice_avoids (drv : Driver) (p : c920_parameters_t σ) :
    Avoids .invalid_format (openDevice drv p) := by
  unfold openDevice
  exact avoids_bind (avoids_syscall _ _ _) fun _ =>
    avoids_bind (avoids_modifyDev _ _) fun _ => avoids_throwIf _ _ _ (by decide)

theorem queryCapabilities_avoids (drv : Driver) (fuel : Nat) :
    Avoids .invalid_format (queryCapabilities drv fuel : Prog σ Unit) := by
  unfold queryCapabilities
  refine avoids_bind (avoids_getDev _) fun d => ?_
  refine avoids_bind (avoids_ioctl_ex _ _ _ _ _ _) fun cap => ?_
  refine avoids_bind (avoids_getSys _) fun s => ?_
  refine avoids_bind ?_ fun _ => ?_
  · exact avoids_ite _ (avoids_ite _ (avoids_throwEx _ _ (by decide))
      (avoids_throwEx _ _ (by decide))) (avoids_pure _ _)
  · exact avoids_bind (avoids_throwIf _ _ _ (by decide)) fun _ =>
      avoids_throwIf _ _ _ (by decide)

theorem setCrop_avoids (drv : Driver) (fuel : Nat) :
    Avoids .invalid_format (setCrop drv fuel : Prog σ Unit) := by
  unfold setCrop
  refine avoids_bind (avoids_getDev _) fun d => ?_
  refine avoids_bind (avoids_ioctl_ex _ _ _ _ _ _) fun cropcap => ?_
  refine avoids_ite _ ?_ (avoids_pure _ _)
  exact avoids_bind (avoids_ioctl_ex _ _ _ _ _ _) fun _ => avoids_pure _ _

theorem setFrameRate_avoids (drv : Driver) (fuel : Nat) (p : c920_parameters_t σ) :
    Avoids .invalid_format (setFrameRate drv fuel p) := by
  unfold setFrameRate
  refine avoids_bind (avoids_getDev _) fun d => ?_
  refine avoids_bind (avoids_ioctl_ex _ _ _ _ _ _) fun parm => ?_
  refine avoids_bind (avoids_throwIf _ _ _ (by decide)) fun _ => ?_
  exact avoids_bind (avoids_ioctl_ex _ _ _ _ _ _) fun _ => avoids_throwIf _ _ _ (by decide)

theorem requestBuffers_avoids (drv : Driver) (fuel : Nat) :
    Avoids .invalid_format (requestBuffers drv fuel : Prog σ Nat) := by
  unfold requestBuffers
  refine avoids_bind (avoids_getDev _) fun d => ?_
  refine avoids_bind (avoids_ioctl_ex _ _ _ _ _ _) fun req => ?_
  refine avoids_bind (avoids_getSys _) fun s => ?_
  refine avoids_bind ?_ fun _ => ?_
  · exact avoids_ite _ (avoids_ite _ (avoids_throwEx _ _ (by decide))
      (avoids_throwEx _ _ (by decide))) (avoids_pure _ _)
  · exact avoids_bind (avoids_throwIf _ _ _ (by decide)) fun _ => avoids_pure _ _

theorem mapBuffer_avoids (drv : Driver) (fuel : Nat) :
    Avoids .invalid_format (mapBuffer drv fuel : Prog σ Unit) := by
  unfold mapBuffer
  refine avoids_bind (avoids_getDev _) fun d => ?_
  refine avoids_bind (avoids_ioctl_ex _ _ _ _ _ _) fun buf => ?_
  refine avoids_bind (avoids_throwIf _ _ _ (by decide)) fun _ => ?_
  refine avoids_bind (avoids_syscall _ _ _) fun m => ?_
  exact avoids_bind (avoids_modifyDev _ _) fun _ => avoids_throwIf _ _ _ (by decide)

theorem mapBuffers_avoids (drv : Driver) (fuel count n : Nat) :
    Avoids .invalid_format (mapBuffers drv fuel count n : Prog σ Unit) := by
  induction n with
  | zero => exact avoids_pure _ ()
  | succ n ih =>
    rw [mapBuffers]
    refine avoids_bind (avoids_getDev _) fun d => avoids_ite _ ?_ (avoids_pure _ ())
    exact avoids_bind (mapBuffer_avoids drv fuel) fun _ =>
      avoids_bind (avoids_modifyDev _ _) fun _ => ih

theorem allocateBuffers_avoids (drv : Driver) (fuel count : Nat) :
    Avoids .invalid_format (allocateBuffers drv fuel count : Prog σ Unit) := by
  unfold allocateBuffers
  refine avoids_bind (avoids_syscall _ _ _) fun _ => ?_
  refine avoids_bind (avoids_modifyDev _ _) fun _ => ?_
  refine avoids_bind (avoids_throwIf _ _ _ (by decide)) fun _ => ?_
  exact avoids_bind (avoids_modifyDev _ _) fun _ => mapBuffers_avoids drv fuel count count

theorem queueBuffer_avoids (drv : Driver) (fuel i : Nat) :
    Avoids .invalid_format (queueBuffer drv fuel i : Prog σ Unit) := by
  unfold queueBuffer
  refine avoids_bind (avoids_getDev _) fun d => ?_
  exact avoids_bind (avoids_ioctl_ex _ _ _ _ _ _) fun _ => avoids_throwIf _ _ _ (by decide)

theorem queueBuffers_avoids (drv : Driver) (fuel : Nat) :
    Avoids .invalid_format (queueBuffers drv fuel : Prog σ Unit) := by
  unfold queueBuffers
  exact avoids_bind (avoids_getDev _) fun d =>
    avoids_forRange (fun i => queueBuffer_avoids drv fuel i) 0 d._num_buffers

theorem copyDeviceName_avoids (drv : Driver) (p : c920_parameters_t σ) :
    Avoids .invalid_format (copyDeviceName drv p) := by
  unfold copyDeviceName
  refine avoids_bind (avoids_syscall _ _ _) fun name => ?_
  refine avoids_bind ?_ fun _ => avoids_modifyDev _ _
  exact avoids_ite _ (avoids_failWith _ _ (by intro e h; cases h)) (avoids_pure _ _)

/-- With one of the three format codes, the section "Setting video format"
does not throw "invalid format specified". -/
theorem setFormat_avoids (drv : Driver) (fuel : Nat) (p : c920_parameters_t σ)
    (hf : p.format = YUYV ∨ p.format = MJPEG ∨ p.format = H264) :
    Avoids .invalid_format (setFormat drv fuel p) := by
  unfold setFormat
  refine avoids_bind (avoids_getDev _) fun d => avoids_bind ?_ fun _ =>
    avoids_bind (avoids_ioctl_ex _ _ _ _ _ _) fun _ => avoids_throwIf _ _ _ (by decide)
  by_cases h1 : p.format = MJPEG
  · rw [if_pos h1]
    exact avoids_pure _ _
  rw [if_neg h1]
  by_cases h2 : p.format = YUYV
  · rw [if_pos h2]
    exact avoids_pure _ _
  rw [if_neg h2]
  by_cases h3 : p.format = H264
  · rw [if_pos h3]
    exact avoids_pure _ _
  rcases hf with hf | hf | hf
  · exact absurd hf h2
  · exact absurd hf h1
  · exact absurd hf h3

theorem preFormat_avoids (drv : Driver) (fuel : Nat) (p : c920_parameters_t σ) :
    Avoids .invalid_format (preFormat drv fuel p) := by
  unfold preFormat
  refine avoids_bind (avoids_modifyDev _ _) fun _ => ?_
  refine avoids_bind (identifyDevice_avoids drv p) fun _ => ?_
  refine avoids_bind (openDevice_avoids drv p) fun _ => ?_
  exact avoids_bind (queryCapabilities_avoids drv fuel) fun _ => setCrop_avoids drv fuel

/-- With one of the three format codes, the constructor does not throw
"invalid format specified". -/
theorem new_avoids (drv : Driver) (fuel : Nat) (p : c920_parameters_t σ)
    (hf : p.format = YUYV ∨ p.format = MJPEG ∨ p.format = H264) :
    Avoids .invalid_format (c920_device_t.new drv fuel p) := by
  unfold c920_device_t.new
  refine avoids_bind (avoids_modifyDev _ _) fun _ => ?_
  refine avoids_bind (identifyDevice_avoids drv p) fun _ => ?_
  refine avoids_bind (openDevice_avoids drv p) fun _ => ?_
  refine avoids_bind (queryCapabilities_avoids drv fuel) fun _ => ?_
  refine avoids_bind (setCrop_avoids drv fuel) fun _ => ?_
  refine avoids_bind (setFormat_avoids drv fuel p hf) fun _ => ?_
  refine avoids_bind (setFrameRate_avoids drv fuel p) fun _ => ?_
  refine avoids_bind (requestBuffers_avoids drv fuel) fun count => ?_
  refine avoids_bind (allocateBuffers_avoids drv fuel count) fun _ => ?_
  exact avoids_bind (queueBuffers_avoids drv fuel) fun _ => copyDeviceName_avoids drv p

end Avoiding

section UnknownFormatRuns

variable {σ : Type}

/-- With a format code that is none of the three formats, a failure of what
precedes the section "Setting video format" is the failure of the
constructor. -/
theorem new_invalid_fail (drv : Driver) (fuel : Nat) (p : c920_parameters_t σ)
    (hf : p.format ≠ YUYV ∧ p.format ≠ MJPEG ∧ p.format ≠ H264) (s : Sys σ) (f : Fault)
    (h : (preFormat drv fuel p s).1 = .fail f) :
    (c920_device_t.new drv fuel p s).1 = .fail f := by
  have hneg : negotiate drv fuel p s = (.fail f, (preFormat drv fuel p s).2) := by
    rw [negotiate_eq]
    exact run_bind_of_fst_fail h
  rcases new_cases drv fuel p s with ⟨f', hfail, hnew⟩ | ⟨s1, hn, -⟩
  · rw [hnew, hneg]
  · rw [hneg] at hn
    cases hn

/-- The constructor throws "invalid format specified" only from the section
"Setting video format": the format code is none of the three formats, and what
precedes that section has completed. -/
theorem new_invalid_format_inv (drv : Driver) (fuel : Nat) (p : c920_parameters_t σ)
    (s : Sys σ) (k : Int)
    (h : (c920_device_t.new drv fuel p s).1 = .fail (.thrown ⟨.invalid_format, k⟩)) :
    (p.format ≠ YUYV ∧ p.format ≠ MJPEG ∧ p.format ≠ H264) ∧
      (preFormat drv fuel p s).1 = .ok () := by
  have hfmt : p.format ≠ YUYV ∧ p.format ≠ MJPEG ∧ p.format ≠ H264 := by
    by_contra hc
    have hv : p.format = YUYV ∨ p.format = MJPEG ∨ p.format = H264 := by
      by_cases h1 : p.format = YUYV
      · exact Or.inl h1
      by_cases h2 : p.format = MJPEG
      · exact Or.inr (Or.inl h2)
      by_cases h3 : p.format = H264
      · exact Or.inr (Or.inr h3)
      exact absurd ⟨h1, h2, h3⟩ hc
    exact new_avoids drv fuel p hv s k h
  refine ⟨hfmt, ?_⟩
  rcases hp : (preFormat drv fuel p s).1 with u | f
  · rfl
  · have := new_invalid_fail drv fuel p hfmt s f hp
    rw [h] at this
    cases this
    exact absurd hp (preFormat_avoids drv fuel p s k)

theorem liveMaps_of_kinds (tr evs : List Event) (ks : List Kind) (h1 : Kind.mmap ∉ ks)
    (h2 : Kind.munmap ∉ ks) (h : ∀ e ∈ evs, OfKinds ks e) :
    liveMaps (tr ++ evs) = liveMaps tr := by
  unfold liveMaps
  rw [List.foldl_append]
  generalize List.foldl stepMaps [] tr = m
  induction evs generalizing m with
  | nil => rfl
  | cons e t ih =>
    rw [List.foldl_cons]
    have he : OfKinds ks e := h e (List.mem_cons_self _ _)
    have hstep : stepMaps m e = m := by
      have h3 : e.call.kind ∈ ks := he
      unfold stepMaps
      cases hc : e.call with
      | mmap a b c => rw [hc] at h3; exact absurd h3 h1
      | munmap a b => rw [hc] at h3; exact absurd h3 h2
      | _ => rfl
    rw [hstep]
    exact ih (fun x hx => h x (List.mem_cons_of_mem _ hx)) m

set_option maxHeartbeats 4000000 in
/-- On `frameDriver`, with a stray format code, the constructor throws "invalid
format specified" and leaves handle 3 open. -/
theorem stray_format_construction :
    (c920_device_t.new frameDriver 1
        ({ toc920_values := strayValues, cb := some process_frame } : c920_parameters_t Statics)
        (rawSys exampleParams Statics.init)).1 = .fail (.thrown ⟨.invalid_format, 0⟩) ∧
      openFds (c920_device_t.new frameDriver 1
        ({ toc920_values := strayValues, cb := some process_frame } : c920_parameters_t Statics)
        (rawSys exampleParams Statics.init)).2.trace = [3] := by
  decide

end UnknownFormatRuns

/-! ## The capture session (C10) -/

section Session

variable {σ : Type}

theorem start_keeps (drv : Driver) (fuel : Nat) :
    Keeps (OfKinds [.ioctl .VIDIOC_STREAMON, .ioctl .UVCIOC_CTRL_QUERY])
      (fun _ : c920_device_t σ => ()) (start drv fuel : Prog σ Unit) := by
  unfold start
  refine Keeps.bind Keeps.getDev fun d => Keeps.ite _ (Keeps.pure _) ?_
  refine Keeps.bind (Keeps.modifyDev _ fun _ => rfl) fun _ => ?_
  refine Keeps.bind (Keeps.ioctl_ex _ _ _ _ _ fun r => by simp [OfKinds, Call.kind]) fun _ => ?_
  refine Keeps.bind (Keeps.throwIf _ _) fun _ => ?_
  exact (set_bitrate_keeps drv fuel _).mono (OfKinds.weaken (by decide)) fun _ _ _ => rfl

theorem stop_keeps (drv : Driver) (fuel : Nat) :
    Keeps (OfKinds [.ioctl .VIDIOC_STREAMOFF, .ioctl .VIDIOC_QBUF])
      (fun _ : c920_device_t σ => ()) (stop drv fuel : Prog σ Unit) := by
  unfold stop
  refine Keeps.bind Keeps.getDev fun d => Keeps.ite _ (Keeps.pure _) ?_
  refine Keeps.bind (Keeps.modifyDev _ fun _ => rfl) fun _ => ?_
  refine Keeps.bind (Keeps.ioctl_ex _ _ _ _ _ fun r => by simp [OfKinds, Call.kind]) fun _ => ?_
  refine Keeps.bind (Keeps.throwIf _ _) fun _ => ?_
  exact (queueBuffers_keeps drv fuel).mono (OfKinds.weaken (by decide)) fun _ _ _ => rfl

theorem unmapBuffer_keeps (drv : Driver) (i : Nat) :
    Keeps (OfKinds [.munmap]) (fun _ : c920_device_t σ => ()) (unmapBuffer drv i : Prog σ Unit) := by
  unfold unmapBuffer
  refine Keeps.bind Keeps.getDev fun d => ?_
  refine Keeps.bind (Keeps.syscall _ _ fun r => by simp [OfKinds, Call.kind]) fun _ => ?_
  exact Keeps.throwIf _ _

theorem delete_keeps (drv : Driver) (fuel : Nat) :
    Keeps (OfKinds [.ioctl .VIDIOC_STREAMOFF, .ioctl .VIDIOC_QBUF, .munmap, .close, .fclose])
      (fun _ : c920_device_t σ => ()) (c920_device_t.delete drv fuel : Prog σ Unit) := by
  unfold c920_device_t.delete
  refine Keeps.bind Keeps.getDev fun d => ?_
  refine Keeps.bind (Keeps.ite _ ?_ (Keeps.pure _)) fun _ => ?_
  · exact (stop_keeps drv fuel).mono (OfKinds.weaken (by decide)) fun _ _ _ => rfl
  refine Keeps.bind Keeps.getDev fun d2 => ?_
  refine Keeps.bind (Keeps.forRange (fun i => ?_) 0 _) fun _ => ?_
  · exact (unmapBuffer_keeps drv i).mono (OfKinds.weaken (by decide)) fun _ _ _ => rfl
  refine Keeps.bind (Keeps.syscall _ _ fun r => by simp [OfKinds, Call.kind]) fun _ => ?_
  refine Keeps.bind (Keeps.throwIf _ _) fun _ => ?_
  refine Keeps.bind (Keeps.syscall _ _ fun r => by simp [OfKinds, Call.kind]) fun _ => ?_
  exact Keeps.pure _

theorem isCallback_of_kind (ks : List Kind) (hk : Kind.callback ∉ ks) (e : Event)
    (h : OfKinds ks e) : e.call.isCallback = false := by
  have h2 : e.call.kind ∈ ks := h
  cases hc : e.call with
  | callback data length =>
    rw [hc] at h2
    exact absurd h2 hk
  | _ => rfl

/-- A program that always returns and makes only calls of kinds other than the
call of the sink: its run appends events without sink calls and leaves the
sink as it is. -/
theorem run_of_alwaysOk {m : Prog σ Unit} {ks : List Kind}
    (hok : AlwaysOk m) (hk : Keeps (OfKinds ks) (fun _ : c920_device_t σ => ()) m)
    (hcb : Kind.callback ∉ ks) (s : Sys σ) :
    ∃ s' evs, m s = (.ok (), s') ∧ s'.trace = s.trace ++ evs ∧ sinkReturns evs = [] ∧
      s'.sink = s.sink := by
  obtain ⟨u, hu⟩ := hok s
  obtain ⟨⟨evs, ht, hP⟩, -, hs⟩ := hk s
  exact ⟨(m s).2, evs, eq_of_fst_ok hu, ht,
    sinkReturns_of_not_callback evs fun e he => isCallback_of_kind ks hcb e (hP e he), hs⟩

theorem ioctl_ex_ret_coop {drv : Driver} {n : Nat} (hc : Cooperative drv n) (fuel : Nat)
    (fh : Int) (request : Request) (arg : Arg) (s : Sys σ) (r : Int × Arg)
    (h : (ioctl_ex drv (fuel + 1) fh request arg s).1 = .ok r) : r.1 = 0 := by
  rw [ioctl_ex_coop hc] at h
  cases h
  rfl

theorem ioctl_ex_alwaysOk {drv : Driver} {n : Nat} (hc : Cooperative drv n) (fuel : Nat)
    (fh : Int) (request : Request) (arg : Arg) :
    AlwaysOk (ioctl_ex drv (fuel + 1) fh request arg : Prog σ _) := by
  intro s
  rw [ioctl_ex_coop hc]
  exact ⟨_, rfl⟩

theorem set_bitrate_coop {drv : Driver} {n : Nat} (hc : Cooperative drv n) (fuel : Nat)
    (bmin : Int) : AlwaysOk (set_bitrate drv (fuel + 1) bmin : Prog σ Unit) := by
  intro s
  refine ⟨(), ?_⟩
  simp [set_bitrate, ioctl_ex_coop hc]

theorem start_coop {drv : Driver} {n : Nat} (hc : Cooperative drv n) (fuel : Nat) :
    AlwaysOk (start drv (fuel + 1) : Prog σ Unit) := by
  unfold start
  refine AlwaysOk.ok_bind AlwaysOk.ok_getDev fun d _ _ => ?_
  by_cases hp : d._playing = true
  · rw [if_pos hp]
    exact AlwaysOk.ok_pure ()
  · rw [if_neg hp]
    refine AlwaysOk.ok_bind (AlwaysOk.ok_modifyDev _) fun _ _ _ => ?_
    refine AlwaysOk.ok_bind (ioctl_ex_alwaysOk hc fuel _ _ _) fun r s hr => ?_
    have h0 := ioctl_ex_ret_coop hc fuel _ _ _ s r hr
    refine AlwaysOk.ok_bind (AlwaysOk.ok_throwIf (by rw [h0]; decide) _) fun _ _ _ => ?_
    exact set_bitrate_coop hc fuel _

theorem stop_coop {drv : Driver} {n : Nat} (hc : Cooperative drv n) (fuel : Nat) :
    AlwaysOk (stop drv (fuel + 1) : Prog σ Unit) := by
  unfold stop
  refine AlwaysOk.ok_bind AlwaysOk.ok_getDev fun d _ _ => ?_
  by_cases hp : d._playing = true
  · rw [if_neg (not_not.mpr hp)]
    refine AlwaysOk.ok_bind (AlwaysOk.ok_modifyDev _) fun _ _ _ => ?_
    refine AlwaysOk.ok_bind (ioctl_ex_alwaysOk hc fuel _ _ _) fun r s hr => ?_
    have h0 := ioctl_ex_ret_coop hc fuel _ _ _ s r hr
    refine AlwaysOk.ok_bind (AlwaysOk.ok_throwIf (by rw [h0]; decide) _) fun _ _ _ => ?_
    exact queueBuffers_coop hc fuel
  · rw [if_pos hp]
    exact AlwaysOk.ok_pure ()

theorem unmapBuffer_coop {drv : Driver} {n : Nat} (hc : Cooperative drv n) (i : Nat) :
    AlwaysOk (unmapBuffer drv i : Prog σ Unit) := by
  intro s
  refine ⟨(), ?_⟩
  simp [unmapBuffer, hc.munmap_ok]

theorem delete_coop {drv : Driver} {n : Nat} (hc : Cooperative drv n) (fuel : Nat) :
    AlwaysOk (c920_device_t.delete drv (fuel + 1) : Prog σ Unit) := by
  unfold c920_device_t.delete
  refine AlwaysOk.ok_bind AlwaysOk.ok_getDev fun d _ _ => ?_
  refine AlwaysOk.ok_bind (?_ : AlwaysOk (if d._playing = true then stop drv (fuel + 1)
    else pure ())) fun _ _ _ => ?_
  · by_cases hp : d._playing = true
    · rw [if_pos hp]
      exact stop_coop hc fuel
    · rw [if_neg hp]
      exact AlwaysOk.ok_pure ()
  refine AlwaysOk.ok_bind AlwaysOk.ok_getDev fun d2 _ _ => ?_
  refine AlwaysOk.ok_bind (AlwaysOk.ok_forRange (fun i => unmapBuffer_coop hc i) 0 _)
    fun _ _ _ => ?_
  refine AlwaysOk.ok_bind (AlwaysOk.ok_syscall _ _) fun r s hr => ?_
  have hret : r.ret ≠ -1 := by
    simp only [run_syscall] at hr
    cases hr
    exact hc.close_ok _ _
  refine AlwaysOk.ok_bind (AlwaysOk.ok_throwIf hret _) fun _ _ _ => ?_
  exact AlwaysOk.ok_bind (AlwaysOk.ok_syscall _ _) fun _ _ _ => AlwaysOk.ok_pure ()

/-- On a cooperative driver that grants `n` buffers, the section "Initialize
MMAP" returns `n`. -/
theorem requestBuffers_count {drv : Driver} {n : Nat} (hc : Cooperative drv n) (fuel : Nat)
    (s : Sys σ) : (requestBuffers drv (fuel + 1) s).1 = .ok n := by
  have h2 := hc.two
  simp only [requestBuffers, run_bind, run_getDev, ioctl_ex_coop hc, run_getSys]
  rw [if_neg (by decide), run_pure]
  dsimp only
  rw [run_throwIf_neg (by rw [hc.count]; omega)]
  dsimp only
  rw [run_pure, hc.count]

/-- On a cooperative driver that grants `n` buffers, the constructed device
has a pool of `n` buffers. -/
theorem new_coop_num {drv : Driver} {n : Nat} (hc : Cooperative drv n) (fuel : Nat)
    (p : c920_parameters_t σ) (s s' : Sys σ)
    (h : c920_device_t.new drv (fuel + 1) p s = (.ok (), s')) : s'.dev._num_buffers = n := by
  rcases new_cases drv (fuel + 1) p s with ⟨f, hf, he⟩ | ⟨s1, hn, hrest⟩
  · rw [he] at h; rw [h] at hf; cases hf
  rcases hrest with ⟨f, hf, he⟩ | ⟨count, s2, hr, he⟩
  · rw [he] at h; cases h
  rw [he] at h
  have hcount := requestBuffers_count hc fuel s1
  rw [hr] at hcount
  cases hcount
  have hlt : n < 2 ^ 32 := by
    have := hc.count [] 0 {}
    rw [← this]
    exact Nat.mod_lt _ (by decide)
  obtain ⟨e3, -, -, -, -, -, hn3, -⟩ := primeBuffers_ok drv (fuel + 1) p n hlt s2 s' h
  exact hn3

/-- On a cooperative driver, `process()` on a device whose pool has the `n`
buffers the driver granted: it returns what the sink returns for the dequeued
block `b`, the only sink call of the run, and leaves the device object as it
is. -/
theorem process_coop {drv : Driver} {n : Nat} (hc : Cooperative drv n) (fuel : Nat)
    (s : Sys σ) (hn : s.dev._num_buffers = n) :
    ∃ (b : Arg) (evs : List Event),
      (process drv (fuel + 1) s).1 = .ok (sinkResult s.dev b s.sink).1 ∧
      (process drv (fuel + 1) s).2.sink = (sinkResult s.dev b s.sink).2 ∧
      (process drv (fuel + 1) s).2.trace = s.trace ++ evs ∧
      sinkReturns evs = sinkReturns (sinkEvents s.dev b s.sink) ∧
      (process drv (fuel + 1) s).2.dev = s.dev := by
  have hsel := hc.select_ok s.trace (s.dev._fd + 1) s.dev._fd 2
  have hp := process_unfold drv (fuel + 1) s
    (by unfold selectCall; rw [hsel]; decide) (by unfold selectCall; rw [hsel]; decide)
  rw [ioctl_ex_coop hc] at hp
  dsimp only at hp
  rw [if_neg (by decide), if_pos (by rw [hn]; exact hc.index_ok _ _ _), ioctl_ex_coop hc] at hp
  dsimp only at hp
  rw [if_neg (by decide)] at hp
  have hp2 : ∃ rs rd rq : Reply, process drv (fuel + 1) s =
      (.ok (sinkResult s.dev rd.arg s.sink).1,
       afterCall (afterSink s.dev (afterCall (afterCall s (selectCall s.dev) rs)
         (dqbufCall s.dev) rd) rd.arg) (qbufCall s.dev rd.arg) rq) := ⟨_, _, _, hp⟩
  obtain ⟨rs, rd, rq, hp3⟩ := hp2
  refine ⟨rd.arg, ⟨selectCall s.dev, rs⟩ :: ([⟨dqbufCall s.dev, rd⟩] ++
    (sinkEvents s.dev rd.arg s.sink ++ [⟨qbufCall s.dev rd.arg, rq⟩])), ?_, ?_, ?_, ?_, ?_⟩
  · rw [hp3]
  · rw [hp3]
    rfl
  · rw [hp3]
    simp [afterCall, afterSink]
  · exact sinkReturns_run s.dev rs rd.arg s.sink _ _ (by simp) (by simp)
  · rw [hp3]
    rfl

end Session

section Capture

theorem wrapLong_of_range (i : Int) (h0 : -(2 ^ 63) ≤ i) (h1 : i < 2 ^ 63) : wrapLong i = i := by
  unfold wrapLong
  rw [Int.emod_eq_of_lt (by omega) (by omega)]
  omega

/-- What `process_frame` returns and leaves when its counter is in range: 1
while the incremented counter is below the limit, 0 otherwise. -/
theorem sinkResult_process_frame (d : c920_device_t Statics) (b : Arg) (k : Statics)
    (hcb : d._c920_parameters.cb = some process_frame) (h0 : 0 ≤ k.fcount)
    (h1 : k.fcount + 1 < 2 ^ 63) :
    (sinkResult d b k).1 = (if k.fcount + 1 < d._c920_parameters.frames then 1 else 0) ∧
      (sinkResult d b k).2.fcount = k.fcount + 1 ∧
      (sinkResult d b k).2.written.length = k.written.length + 1 ∧
      sinkReturns (sinkEvents d b k) = [(sinkResult d b k).1] := by
  have hw : wrapLong (k.fcount + 1) = k.fcount + 1 := wrapLong_of_range _ (by omega) h1
  unfold sinkEvents sinkResult
  rw [hcb]
  simp [process_frame, hw, sinkReturns]

/-- On a cooperative driver, the loop `while(camera->process());` with
`m + 1` frames left before the limit `N`: it ends after `m + 1` passes, the
sink returned 1 in the first `m` and 0 in the last. -/
theorem captureLoop_coop {drv : Driver} {n : Nat} (hc : Cooperative drv n) (fuel : Nat)
    (N : Int) (hN : N < 2 ^ 63) :
    ∀ (m L : Nat) (s : Sys Statics), m + 1 ≤ L → s.dev._num_buffers = n →
      s.dev._c920_parameters.cb = some process_frame → s.dev._c920_parameters.frames = N →
      0 ≤ s.sink.fcount → s.sink.fcount + (m + 1 : Nat) = N →
      ∃ s' evs, captureLoop drv (fuel + 1) L s = (.ok (), s') ∧ s'.trace = s.trace ++ evs ∧
        sinkReturns evs = List.replicate m 1 ++ [0] ∧ s'.sink.fcount = N ∧
        s'.sink.written.length = s.sink.written.length + (m + 1) ∧ s'.dev = s.dev := by
  intro m
  induction m with
  | zero =>
    intro L s hL hn hcb hfr h0 hsum
    obtain ⟨L', rfl⟩ : ∃ L', L = L' + 1 := ⟨L - 1, by omega⟩
    obtain ⟨b, evs, ho, hsink, ht, hret, hd⟩ := process_coop hc fuel s hn
    obtain ⟨hr, hfc, hwr, hev⟩ := sinkResult_process_frame s.dev b s.sink hcb h0
      (by push_cast at hsum; omega)
    have hr0 : (sinkResult s.dev b s.sink).1 = 0 := by
      rw [hr, hfr, if_neg (by push_cast at hsum; omega)]
    rw [hr0] at ho
    refine ⟨(process drv (fuel + 1) s).2, evs, ?_, ht, ?_, ?_, ?_, hd⟩
    · rw [captureLoop, run_bind, eq_of_fst_ok ho]
      simp
    · rw [hret, hev, hr0]
      rfl
    · rw [hsink, hfc]
      push_cast at hsum
      omega
    · rw [hsink, hwr]
  | succ m ih =>
    intro L s hL hn hcb hfr h0 hsum
    obtain ⟨L', rfl⟩ : ∃ L', L = L' + 1 := ⟨L - 1, by omega⟩
    obtain ⟨b, evs, ho, hsink, ht, hret, hd⟩ := process_coop hc fuel s hn
    obtain ⟨hr, hfc, hwr, hev⟩ := sinkResult_process_frame s.dev b s.sink hcb h0
      (by push_cast at hsum; omega)
    have hr1 : (sinkResult s.dev b s.sink).1 = 1 := by
      rw [hr, hfr, if_pos (by push_cast at hsum; omega)]
    rw [hr1] at ho
    obtain ⟨s', evs2, hloop, ht2, hret2, hfc2, hwr2, hd2⟩ :=
      ih L' (process drv (fuel + 1) s).2 (by omega) (by rw [hd]; exact hn)
        (by rw [hd]; exact hcb) (by rw [hd]; exact hfr) (by rw [hsink, hfc]; omega)
        (by rw [hsink, hfc]; push_cast at hsum ⊢; omega)
    refine ⟨s', evs ++ evs2, ?_, ?_, ?_, hfc2, ?_, by rw [hd2, hd]⟩
    · rw [captureLoop, run_bind, eq_of_fst_ok ho]
      simp [hloop]
    · rw [ht2, ht, List.append_assoc]
    · rw [sinkReturns_append, hret, hev, hr1, hret2]
      rfl
    · rw [hwr2, hsink, hwr]
      omega

/-- C10: for every frame-count limit `N` of at least 1 and every cooperative
driver (every call succeeds at the first attempt, so every dequeue delivers a
frame of the pool), the session of `main` with `process_frame` as the sink and
its counter at 0 (construct, start, `process()` repeated while it returns
nonzero, stop, destroy) ends normally and calls the sink exactly `N` times: the
sink returns 1 in the calls `1, ..., N-1` and 0 in call `N`, its counter ends
at `N`, and it has written `N` chunks. -/
theorem session_invokes_sink (drv : Driver) (n fuel loopFuel : Nat) (atoi : String → Int)
    (params0 : c920_values) (opts : List (Char × String)) (s0 s : Sys Statics)
    (p : c920_parameters_t Statics) (N : Nat) (evs : List Event)
    (hc : Cooperative drv n)
    (hparse : setParametersFromArgs drv atoi
      { toc920_values := params0, cb := some process_frame } opts s0 = (.ok p, s))
    (hcb : p.cb = some process_frame)
    (hfmt : p.format = YUYV ∨ p.format = MJPEG ∨ p.format = H264)
    (hN : 1 ≤ N) (hframes : p.frames = N) (hint : N < 2 ^ 31)
    (hfc : s.sink.fcount = 0) (hfuel : N ≤ loopFuel)
    (ht : (session drv (fuel + 1) loopFuel atoi params0 opts s0).2.trace = s.trace ++ evs) :
    (session drv (fuel + 1) loopFuel atoi params0 opts s0).1 = .ok () ∧
      sinkReturns evs = List.replicate (N - 1) 1 ++ [0] ∧
      (sinkReturns evs).length = N ∧
      (session drv (fuel + 1) loopFuel atoi params0 opts s0).2.sink.fcount = N ∧
      (session drv (fuel + 1) loopFuel atoi params0 opts s0).2.sink.written.length =
        s.sink.written.length + N := by
  -- construct
  have hnew := eq_of_fst_ok (new_coop hc fuel p hfmt s)
  obtain ⟨e1, ht1, -, -, -, -, -, -, hplay, hpar, hsink1, -, -⟩ := new_ok drv (fuel + 1) p s _ hnew
  have hnum := new_coop_num hc fuel p s _ hnew
  obtain ⟨⟨e1', ht1', hk1⟩, -, -⟩ := new_kept drv (fuel + 1) p s
  rw [ht1] at ht1'
  have := List.append_cancel_left ht1'
  subst this
  have hret1 : sinkReturns e1 = [] :=
    sinkReturns_of_not_callback e1 fun e he => isCallback_of_kind newKinds (by decide) e (hk1 e he)
  generalize (c920_device_t.new drv (fuel + 1) p s).2 = s1 at hnew ht1 hplay hpar hsink1 hnum
  -- start
  obtain ⟨s2, e2, hstart, ht2, hret2, hsink2⟩ :=
    run_of_alwaysOk (start_coop hc fuel) (start_keeps drv (fuel + 1)) (by decide) s1
  have hdev2 : s2.dev = { s1.dev with _playing := true } := by
    have := start_dev drv (fuel + 1) s1
    rw [hstart] at this
    exact this
  -- capture
  obtain ⟨s3, e3, hloop, ht3, hret3, hfc3, hwr3, hdev3⟩ :=
    captureLoop_coop hc fuel (N : Int) (by omega) (N - 1) loopFuel s2 (by omega)
      (by rw [hdev2]; exact hnum) (by rw [hdev2]; exact hpar ▸ hcb)
      (by rw [hdev2]; exact hpar ▸ hframes) (by rw [hsink2, hsink1, hfc])
      (by rw [hsink2, hsink1, hfc]; omega)
  -- stop and destroy
  obtain ⟨s4, e4, hstop, ht4, hret4, hsink4⟩ :=
    run_of_alwaysOk (stop_coop hc fuel) (stop_keeps drv (fuel + 1)) (by decide) s3
  obtain ⟨s5, e5, hdel, ht5, hret5, hsink5⟩ :=
    run_of_alwaysOk (delete_coop hc fuel) (delete_keeps drv (fuel + 1)) (by decide) s4
  have hs : session drv (fuel + 1) loopFuel atoi params0 opts s0 = (.ok (), s5) := by
    unfold session
    rw [run_bind, hparse]
    dsimp only
    rw [run_bind, hnew]
    dsimp only
    rw [run_bind, hstart]
    dsimp only
    rw [run_bind, hloop]
    dsimp only
    rw [run_bind, hstop]
    dsimp only
    exact hdel
  rw [hs] at ht ⊢
  dsimp only at ht ⊢
  rw [ht5, ht4, ht3, ht2, ht1] at ht
  simp only [List.append_assoc] at ht
  have := List.append_cancel_left ht
  subst this
  have hsr : sinkReturns (e1 ++ (e2 ++ (e3 ++ (e4 ++ e5)))) = List.replicate (N - 1) 1 ++ [0] := by
    simp only [sinkReturns_append, hret1, hret2, hret3, hret4, hret5, List.nil_append,
      List.append_nil]
  refine ⟨rfl, hsr, ?_, ?_, ?_⟩
  · rw [hsr]
    simp
    omega
  · rw [hsink5, hsink4, hfc3]
  · rw [hsink5, hsink4, hwr3, hsink2, hsink1]
    omega

/-- C10, example: 300 frames on `frameDriver`, with no option on the command
line and the parameters of the examples in the local `params`. -/
theorem session_invokes_sink_witness :
    (session frameDriver 1 300 (fun _ => 0) exampleValues []
        (rawSys exampleParams Statics.init)).1 = .ok () ∧
      sinkReturns (session frameDriver 1 300 (fun _ => 0) exampleValues []
        (rawSys exampleParams Statics.init)).2.trace = List.replicate 299 1 ++ [0] ∧
      (session frameDriver 1 300 (fun _ => 0) exampleValues []
        (rawSys exampleParams Statics.init)).2.sink.fcount = 300 := by
  have ht : (session frameDriver (0 + 1) 300 (fun _ => 0) exampleValues []
        (rawSys exampleParams Statics.init)).2.trace =
      (rawSys exampleParams Statics.init).trace ++
        (session frameDriver (0 + 1) 300 (fun _ => 0) exampleValues []
          (rawSys exampleParams Statics.init)).2.trace := (List.nil_append _).symm
  have hp : setParametersFromArgs frameDriver (fun _ => 0)
      ({ toc920_values := exampleValues, cb := some process_frame } : c920_parameters_t Statics) []
      (rawSys exampleParams Statics.init) =
      (.ok exampleParams, rawSys exampleParams Statics.init) := rfl
  have hcb : exampleParams.cb = some process_frame := rfl
  have hfr : exampleParams.frames = ((300 : Nat) : Int) := rfl
  have hfc : (rawSys exampleParams Statics.init).sink.fcount = 0 := rfl
  have h := session_invokes_sink frameDriver 4 0 300 (fun _ => 0) exampleValues []
    (rawSys exampleParams Statics.init) (rawSys exampleParams Statics.init) exampleParams 300
    (session frameDriver (0 + 1) 300 (fun _ => 0) exampleValues []
          (rawSys exampleParams Statics.init)).2.trace
    frameDriver_cooperative hp hcb (Or.inr (Or.inr rfl)) (by decide) hfr (by decide) hfc
    (by decide) ht
  simp only [Nat.zero_add, Nat.cast_ofNat, Nat.reduceSub] at h
  exact ⟨h.1, h.2.1, h.2.2.2.1⟩

end Capture

end C920
